import Mathlib

/-!
# Session manager of the finance front end

A shallow embedding of `src/frontend/src/contexts/AuthContext.js`: the two
axios interceptors (bearer-token attachment, refresh-and-replay on 401) and
the operations of `AuthProvider` (`initAuth`, `login`, `register`, `logout`,
`updateUser`).

Conventions of the embedding.

* `localStorage` is a function from keys to optional strings.
* A JavaScript promise is modelled by its settlement: `Except AxiosError _`
  is a rejection (`.error`) or a fulfilment (`.ok`).
* The remote API is a function `Server` from the requests it has already
  received and the current request to its reply, so it may answer the same
  request differently over time.
* The response interceptor calls `axios` again from inside itself, and every
  such call runs through the same interceptors. The recursion is bounded by a
  fuel argument; `none` means the fuel ran out before the promise settled.
* `window.location.href = v` appends `v` to the list `World.href`.
* The code tests stored values with `if (token)`, so a value counts as present
  when it is neither `null` nor the empty string (`truthy`).
* The interceptors are module-level code: they act on `World` only. The React
  state of the provider (`AuthState`) is changed by the provider's own
  functions and by nothing else.

Two page components are embedded after the session manager: the filter and the
totals of `src/frontend/src/pages/Transactions.js` (namespace `Transactions`)
and the first validation step of `src/frontend/src/pages/RegisterPage.js`
(namespace `RegisterPage`). JavaScript strings are sequences of UTF-16 code
units; the string operations the pages use are in namespace `JS`.
-/

namespace AuthContext

/-! ## Durable storage (`localStorage`) -/

/-- The browser's `localStorage`: a missing key reads as `none` (JavaScript `null`). -/
abbrev Storage := String → Option String

/-- The call `localStorage.getItem(key)`. -/
def getItem (st : Storage) (key : String) : Option String := st key

/-- The call `localStorage.setItem(key, value)`. -/
def setItem (st : Storage) (key value : String) : Storage :=
  fun k => if k = key then some value else st k

/-- The call `localStorage.removeItem(key)`. -/
def removeItem (st : Storage) (key : String) : Storage :=
  fun k => if k = key then none else st k

/-- JavaScript truthiness of a value read from storage, as tested by `if (token)`:
`null` and the empty string are falsy. -/
def truthy : Option String → Bool
  | some s => s != ""
  | none => false

/-- String conversion of a possibly missing (`undefined`) string, as performed by
`localStorage.setItem` and by template literals. -/
def toStr : Option String → String
  | some s => s
  | none => "undefined"

/-- The three statements `localStorage.removeItem('access_token')`,
`localStorage.removeItem('refresh_token')`, `localStorage.removeItem('user')`. -/
def clearSession (st : Storage) : Storage :=
  removeItem (removeItem (removeItem st "access_token") "refresh_token") "user"

/-! ## Requests, replies, errors -/

/-- A request body. -/
inductive Body where
  | empty
  | text (s : String)
  | object (fields : List (String × String))
  deriving DecidableEq, Repr

/-- An axios request configuration; `_retry` is the flag the response interceptor
sets on a request it has already handled once. -/
structure Config where
  method : String
  url : String
  data : Body
  authorization : Option String
  contentType : Option String
  _retry : Bool
  deriving DecidableEq, Repr

/-- The part of `error.response` the module reads: `status` and `data.detail`. -/
structure ErrorResponse where
  status : Nat
  detail : Option String
  deriving DecidableEq, Repr

/-- An axios error: the configuration of the failed request and the response, which is
missing when no response was received. -/
structure AxiosError where
  config : Config
  response : Option ErrorResponse
  deriving DecidableEq, Repr

/-- The fields of `response.data` the module destructures; a missing field is `none`
(JavaScript `undefined`). `U` is the type of user records. -/
structure Data (U : Type) where
  access_token : Option String
  refresh_token : Option String
  user : Option U
  deriving DecidableEq, Repr

/-- A fulfilled axios response. -/
structure Response (U : Type) where
  data : Data U
  config : Config
  deriving DecidableEq, Repr

/-- What the remote API does with one request: a 2xx reply with its data, or a failure
(`fail none` when no response arrives at all). -/
inductive Reply (U : Type) where
  | ok (data : Data U)
  | fail (response : Option ErrorResponse)
  deriving DecidableEq, Repr

/-- The remote API: its reply to a request, given the requests received before it
(oldest first). -/
abbrev Server (U : Type) := List Config → Config → Reply U

/-- Everything outside React state that the module reads or writes: `localStorage`,
the values assigned to `window.location.href` (oldest first), and the requests
that reached the remote API (oldest first). -/
structure World where
  storage : Storage
  href : List String
  log : List Config

/-- A settled promise of an axios call. -/
abbrev Settled (U : Type) := Except AxiosError (Response U)

/-- The behaviour of a call `axios(config)`: the settlement and the world after it, or
`none` when the promise does not settle. -/
abbrev Axios (U : Type) := World → Config → Option (Settled U × World)

/-! ## Platform functions -/

/-- The platform's `JSON.stringify` and `JSON.parse` on user records. `parse` is `none`
when `JSON.parse` throws and `some none` when the text denotes `null`. -/
structure JSON (U : Type) where
  stringify : U → String
  parse : String → Option (Option U)

/-- The uppercase hexadecimal digit of a number below sixteen. -/
def hexDigit (n : Nat) : Char :=
  if n < 10 then Char.ofNat (48 + n) else Char.ofNat (55 + n)

/-- A byte written as `%XX`. -/
def percentByte (b : Nat) : String :=
  String.mk ['%', hexDigit (b / 16), hexDigit (b % 16)]

/-- The UTF-8 bytes of a code point. -/
def utf8Bytes (c : Nat) : List Nat :=
  if c < 128 then [c]
  else if c < 2048 then [192 + c / 64, 128 + c % 64]
  else if c < 65536 then [224 + c / 4096, 128 + c / 64 % 64, 128 + c % 64]
  else [240 + c / 262144, 128 + c / 4096 % 64, 128 + c / 64 % 64, 128 + c % 64]

/-- The characters `encodeURIComponent` leaves as they are: ASCII letters, digits and
the nine marks - _ . ! ~ * (apostrophe) ( ). -/
def uriUnreserved (c : Char) : Bool :=
  c.isAlphanum || ['-', '_', '.', '!', '~', '*', Char.ofNat 39, '(', ')'].contains c

/-- The platform's `encodeURIComponent`. -/
def encodeURIComponent (s : String) : String :=
  String.join (s.toList.map fun c =>
    if uriUnreserved c then c.toString else String.join ((utf8Bytes c.toNat).map percentByte))

/-! ## The interceptors -/

/-- The request interceptor (lines 18-29): attach the stored access token. -/
def requestInterceptor (st : Storage) (config : Config) : Config :=
  let token := getItem st "access_token"
  if truthy token then
    { config with authorization := some ("Bearer " ++ toStr token) }
  else config

/-- The call `axios.post(url, data)`. -/
def post (url : String) (data : Body) : Config :=
  { method := "post", url := url, data := data, authorization := none,
    contentType := none, _retry := false }

/-- The call `axios.get(url)`. -/
def get (url : String) : Config :=
  { method := "get", url := url, data := Body.empty, authorization := none,
    contentType := none, _retry := false }

/-- The request `axios.post('/auth/refresh', {refresh_token: refreshToken})` of line 43. -/
def refreshRequest (refreshToken : String) : Config :=
  post "/auth/refresh" (Body.object [("refresh_token", refreshToken)])

/-- The forced logout of lines 55-58 and 62-65: remove the three entries and assign
`window.location.href = '/login'`. -/
def forceLogin (w : World) : World :=
  { w with storage := clearSession w.storage, href := w.href ++ ["/login"] }

/-- The rejection handler of the response interceptor (lines 34-70). `axios` is the
behaviour of the nested calls `axios.post('/auth/refresh', ...)` and
`axios(originalRequest)`. The assignments to `originalRequest` mutate `error.config`,
so the error rejected on line 69 carries the marked configuration. The promise
returned on line 52 is not awaited inside the `try`, so a failing replay is passed
to the caller and does not reach the `catch`. -/
def responseRejected {U : Type} (axios : Axios U) (w : World) (error : AxiosError) :
    Option (Settled U × World) :=
  let originalRequest := error.config
  if error.response.map (fun r => r.status) = some 401 ∧ originalRequest._retry = false then
    let originalRequest := { originalRequest with _retry := true }
    let error := { error with config := originalRequest }
    let refreshToken := getItem w.storage "refresh_token"
    if truthy refreshToken then
      match axios w (refreshRequest (toStr refreshToken)) with
      | none => none
      | some (Except.ok response, w1) =>
        let access_token := response.data.access_token
        let w2 := { w1 with storage := setItem w1.storage "access_token" (toStr access_token) }
        let originalRequest :=
          { originalRequest with authorization := some ("Bearer " ++ toStr access_token) }
        axios w2 originalRequest
      | some (Except.error _, w1) =>
        some (Except.error error, forceLogin w1)
    else
      some (Except.error error, forceLogin w)
  else
    some (Except.error error, w)

/-- A call `axios(config)` against the remote API `server`: the request interceptor,
the exchange with the server, and the response interceptor (identity on 2xx,
`responseRejected` otherwise). Each nested axios call uses one unit of fuel. -/
def axiosRequest {U : Type} (server : Server U) : Nat → Axios U
  | 0, _, _ => none
  | fuel + 1, w, config =>
    let config := requestInterceptor w.storage config
    let w1 := { w with log := w.log ++ [config] }
    match server w.log config with
    | Reply.ok data => some (Except.ok { data := data, config := config }, w1)
    | Reply.fail response =>
      responseRejected (axiosRequest server fuel) w1 { config := config, response := response }

/-! ## The session provider (`AuthProvider`) -/

/-- The React state of `AuthProvider` (lines 74-75); `user = none` is `null`. -/
structure AuthState (U : Type) where
  user : Option U
  loading : Bool
  deriving DecidableEq, Repr

/-- The state after `useState(null)` and `useState(true)`. -/
def initialState {U : Type} : AuthState U := { user := none, loading := true }

/-- The provider's state together with the world it acts on. -/
structure App (U : Type) where
  auth : AuthState U
  world : World

/-- The object returned by `login` and `register`; `error` is missing on success. -/
structure AuthResult where
  success : Bool
  error : Option String
  deriving DecidableEq, Repr

/-- The expression `error.response?.data?.detail || fallback`. -/
def detailOr (error : AxiosError) (fallback : String) : String :=
  let detail := error.response.bind fun r => r.detail
  if truthy detail then toStr detail else fallback

/-- The body produced by the `transformRequest` function of lines 111-115 from the
object's entries in key order. -/
def transformRequest (data : List (String × String)) : String :=
  "&".intercalate (data.map fun kv => encodeURIComponent kv.1 ++ "=" ++ encodeURIComponent kv.2)

/-- The request of lines 104-116. The body is the one `transformRequest` yields for
`{username: email, password: password}`. -/
def loginRequest (email password : String) : Config :=
  { method := "post", url := "/auth/login",
    data := Body.text (transformRequest [("username", email), ("password", password)]),
    authorization := none, contentType := some "application/x-www-form-urlencoded",
    _retry := false }

/-- The statements of lines 118-126 and 139-147, shared by `login` and `register`:
store the three entries, set the user, return `{success: true}`. -/
def storeSession {U : Type} (J : JSON U) (app : App U) (w : World) (response : Response U) :
    Except AxiosError AuthResult × App U :=
  let access_token := response.data.access_token
  let refresh_token := response.data.refresh_token
  let userData := response.data.user
  let st := setItem w.storage "access_token" (toStr access_token)
  let st := setItem st "refresh_token" (toStr refresh_token)
  let st := setItem st "user" (toStr (userData.map J.stringify))
  (Except.ok { success := true, error := none },
    { auth := { app.auth with user := userData }, world := { w with storage := st } })

/-- The function `login` (lines 102-133). -/
def login {U : Type} (J : JSON U) (axios : Axios U) (app : App U) (email password : String) :
    Option (Except AxiosError AuthResult × App U) :=
  match axios app.world (loginRequest email password) with
  | none => none
  | some (Except.ok response, w) => some (storeSession J app w response)
  | some (Except.error error, w) =>
    some (Except.ok { success := false, error := some (detailOr error "Erro ao fazer login") },
      { app with world := w })

/-- The function `register` (lines 135-154). -/
def register {U : Type} (J : JSON U) (axios : Axios U) (app : App U) (userData : Body) :
    Option (Except AxiosError AuthResult × App U) :=
  match axios app.world (post "/auth/register" userData) with
  | none => none
  | some (Except.ok response, w) => some (storeSession J app w response)
  | some (Except.error error, w) =>
    some (Except.ok { success := false, error := some (detailOr error "Erro ao criar conta") },
      { app with world := w })

/-- The function `logout` (lines 156-167): the `finally` block runs whatever the
awaited call settled to, and the `catch` swallows a rejection. -/
def logout {U : Type} (axios : Axios U) (app : App U) :
    Option (Except AxiosError Unit × App U) :=
  match axios app.world (post "/auth/logout" Body.empty) with
  | none => none
  | some (_, w) =>
    some (Except.ok (),
      { auth := { app.auth with user := none },
        world := { w with storage := clearSession w.storage } })

/-- The function `updateUser` (lines 169-172). -/
def updateUser {U : Type} (J : JSON U) (app : App U) (userData : U) : App U :=
  { auth := { app.auth with user := some userData },
    world := { app.world with storage := setItem app.world.storage "user" (J.stringify userData) } }

/-- The `catch` block of `initAuth` (lines 89-92) followed by `setLoading(false)`. -/
def dropSession {U : Type} (w : World) : App U :=
  { auth := { user := none, loading := false },
    world := { w with storage := clearSession w.storage } }

/-- The function `initAuth` (lines 78-97). A `JSON.parse` that throws skips the
verification call and enters the `catch` block. -/
def initAuth {U : Type} (J : JSON U) (axios : Axios U) (app : App U) : Option (App U) :=
  let token := getItem app.world.storage "access_token"
  let userData := getItem app.world.storage "user"
  if truthy token && truthy userData then
    match J.parse (toStr userData) with
    | none => some (dropSession app.world)
    | some parsed =>
      match axios app.world (get "/auth/me") with
      | none => none
      | some (Except.ok _, w) => some { auth := { user := parsed, loading := false }, world := w }
      | some (Except.error _, w) => some (dropSession w)
  else
    some { app with auth := { app.auth with loading := false } }

/-- A fresh `AuthProvider` over the current world: initial state, then `initAuth`. -/
def mount {U : Type} (J : JSON U) (axios : Axios U) (w : World) : Option (App U) :=
  initAuth J axios { auth := initialState, world := w }

/-- A run of successive `login` calls, with the value each call returned. -/
def loginAll {U : Type} (J : JSON U) (axios : Axios U) :
    App U → List (String × String) → Option (List (Except AxiosError AuthResult) × App U)
  | app, [] => some ([], app)
  | app, (email, password) :: rest =>
    match login J axios app email password with
    | none => none
    | some (r, app1) =>
      match loginAll J axios app1 rest with
      | none => none
      | some (rs, app2) => some (r :: rs, app2)

/-- One operation of the session manager as a page may trigger it. -/
inductive Op (U : Type) where
  | mount
  | login (email password : String)
  | register (userData : Body)
  | logout
  | updateUser (userData : U)
  | request (config : Config)

/-- Perform one operation; `request` sends a page's own request through the
interceptors and drops its settlement. -/
def step {U : Type} (J : JSON U) (axios : Axios U) (app : App U) : Op U → Option (App U)
  | Op.mount => mount J axios app.world
  | Op.login email password => (login J axios app email password).map Prod.snd
  | Op.register userData => (register J axios app userData).map Prod.snd
  | Op.logout => (logout axios app).map Prod.snd
  | Op.updateUser userData => some (updateUser J app userData)
  | Op.request config => (axios app.world config).map fun r => { app with world := r.2 }

/-- Perform a sequence of operations, stopping if one does not complete. -/
def run {U : Type} (J : JSON U) (axios : Axios U) : App U → List (Op U) → Option (App U)
  | app, [] => some app
  | app, op :: rest =>
    match step J axios app op with
    | none => none
    | some app1 => run J axios app1 rest

/-! ## Predicates used in the statements -/

/-- The three session entries are all present or all absent. -/
def allOrNone (st : Storage) : Bool :=
  let a := (getItem st "access_token").isSome
  let r := (getItem st "refresh_token").isSome
  let u := (getItem st "user").isSome
  (a && r && u) || (!a && !r && !u)

/-- What a settled axios call may have done to the session entries: either the
refresh-token and user entries are as before and the access-token entry is as before
or was rewritten while a refresh token was stored, or the call was rejected and all
three entries are gone. -/
def RefreshEffect {U : Type} (before after : Storage) (outcome : Settled U) : Prop :=
  (getItem after "refresh_token" = getItem before "refresh_token" ∧
    getItem after "user" = getItem before "user" ∧
    (getItem after "access_token" = getItem before "access_token" ∨
      (truthy (getItem before "refresh_token") = true ∧
        (getItem after "access_token").isSome = true))) ∨
  ((∃ error, outcome = Except.error error) ∧
    getItem after "access_token" = none ∧
    getItem after "refresh_token" = none ∧
    getItem after "user" = none)

/-- Whether the operation is an `updateUser`. -/
def Op.isUpdateUser {U : Type} : Op U → Bool
  | Op.updateUser _ => true
  | _ => false

/-- Every `updateUser` of the sequence is called while an access token is stored. -/
def updatesWhileStored {U : Type} (J : JSON U) (axios : Axios U) : App U → List (Op U) → Bool
  | _, [] => true
  | app, op :: rest =>
    (!op.isUpdateUser || (getItem app.world.storage "access_token").isSome) &&
    match step J axios app op with
    | none => true
    | some app1 => updatesWhileStored J axios app1 rest

/-! ## Concrete worlds and servers for the examples -/

/-- User records that are their own JSON text. -/
def plainJSON : JSON String := { stringify := fun u => u, parse := fun s => some (some s) }

/-- A browser with empty storage in which nothing has happened yet. -/
def emptyWorld : World := { storage := fun _ => none, href := [], log := [] }

/-- A browser holding a stored session `a0`, `r0`, `u0`. -/
def storedWorld : World :=
  { storage := fun k =>
      if k = "access_token" then some "a0"
      else if k = "refresh_token" then some "r0"
      else if k = "user" then some "u0" else none,
    href := [], log := [] }

/-- A browser holding an access token and a user but no refresh token. -/
def noRefreshWorld : World :=
  { storage := fun k =>
      if k = "access_token" then some "a0" else if k = "user" then some "u0" else none,
    href := [], log := [] }

/-- A server that accepts every request and issues credentials numbered by the count
of requests received so far. -/
def issueTokens : Server String := fun log _ =>
  Reply.ok { access_token := some ("a" ++ toString log.length),
             refresh_token := some ("r" ++ toString log.length),
             user := some ("u" ++ toString log.length) }

/-- A server for which the access token `a0` has expired: it refreshes to `a1` and
accepts only requests bearing `a1`. -/
def expiredAccess : Server String := fun _ config =>
  if config.url = "/auth/refresh" then
    Reply.ok { access_token := some "a1", refresh_token := none, user := none }
  else if config.authorization = some "Bearer a1" then
    Reply.ok { access_token := none, refresh_token := none, user := none }
  else Reply.fail (some { status := 401, detail := some "expired" })

/-- A server that answers every request, the refresh endpoint included, with 401. -/
def alwaysUnauthorized : Server String := fun _ _ =>
  Reply.fail (some { status := 401, detail := none })

/-- A server that answers its first two requests with 401 and then stops responding. -/
def unauthorizedThenDown : Server String := fun log _ =>
  if log.length < 2 then Reply.fail (some { status := 401, detail := none })
  else Reply.fail none

/-- A server that refreshes tokens but answers everything else with 401 and the detail
`invalid credentials`. -/
def wrongPassword : Server String := fun _ config =>
  if config.url = "/auth/refresh" then
    Reply.ok { access_token := some "a1", refresh_token := none, user := none }
  else Reply.fail (some { status := 401, detail := some "invalid credentials" })

/-- A server that answers every request with 400 and the detail `invalid credentials`. -/
def badRequest : Server String := fun _ _ =>
  Reply.fail (some { status := 400, detail := some "invalid credentials" })

/-- A server that cannot be reached. -/
def serverDown : Server String := fun _ _ => Reply.fail none

/-- A session from page load to logout. -/
def sessionOps : List (Op String) :=
  [Op.mount, Op.login "ana@loja.com" "s1", Op.updateUser "u9", Op.request (get "/accounts"),
    Op.logout]

/-! ## The hook `useAuth` and the provider's value -/

/-- The object `value` that `AuthProvider` hands to its subtree (lines 174-181): the
state and the four functions, here as their behaviour in the current state. -/
structure ContextValue (U : Type) where
  user : Option U
  loading : Bool
  login : String → String → Option (Except AxiosError AuthResult × App U)
  register : Body → Option (Except AxiosError AuthResult × App U)
  logout : Option (Except AxiosError Unit × App U)
  updateUser : U → App U

/-- The `value` of lines 174-181 in provider state `app`. -/
def providerValue {U : Type} (J : JSON U) (axios : Axios U) (app : App U) : ContextValue U :=
  { user := app.auth.user,
    loading := app.auth.loading,
    login := login J axios app,
    register := register J axios app,
    logout := logout axios app,
    updateUser := updateUser J app }

/-- The hook `useAuth` (lines 6-12). `context` is what `useContext(AuthContext)` yields:
the value of the nearest provider above the caller, or `undefined` (`none`) when
there is none, since `createContext()` is given no default. A thrown `Error` is
`Except.error` with its message. -/
def useAuth {V : Type} (context : Option V) : Except String V :=
  match context with
  | none => Except.error "useAuth must be used within an AuthProvider"
  | some value => Except.ok value

/-! ## Observing when a session is established -/

/-- The provider state while `initAuth` is suspended at `await axios.get('/auth/me')`
(line 86): `setUser(JSON.parse(userData))` has run and `setLoading(false)` has not.
It is `none` when `initAuth` does not reach the call. -/
def initAuthAwaiting {U : Type} (J : JSON U) (app : App U) : Option (AuthState U) :=
  let token := getItem app.world.storage "access_token"
  let userData := getItem app.world.storage "user"
  if truthy token && truthy userData then
    match J.parse (toStr userData) with
    | none => none
    | some parsed => some { app.auth with user := parsed }
  else none

/-- Whether the operation, performed in state `app`, establishes a session: a `login` or
`register` that returns `{success: true}`, or a mount whose restoration from storage
reaches the verification call and has it fulfilled. -/
def establishes {U : Type} (J : JSON U) (axios : Axios U) (app : App U) : Op U → Bool
  | Op.login email password =>
    match login J axios app email password with
    | some (Except.ok result, _) => result.success
    | _ => false
  | Op.register userData =>
    match register J axios app userData with
    | some (Except.ok result, _) => result.success
    | _ => false
  | Op.mount =>
    match initAuthAwaiting J { auth := initialState, world := app.world },
      axios app.world (get "/auth/me") with
    | some _, some (Except.ok _, _) => true
    | _, _ => false
  | _ => false

/-- No operation of the sequence establishes a session and none is an `updateUser`. -/
def nothingEstablished {U : Type} (J : JSON U) (axios : Axios U) : App U → List (Op U) → Bool
  | _, [] => true
  | app, op :: rest =>
    !establishes J axios app op && !op.isUpdateUser &&
    match step J axios app op with
    | none => true
    | some app1 => nothingEstablished J axios app1 rest

/-! ## What the session manager can see of the world -/

/-- Whether a storage key is one of the three session keys. -/
def isSessionKey (key : String) : Bool :=
  key == "access_token" || key == "refresh_token" || key == "user"

/-- The part of a world the session manager works on: the three session entries,
`window.location.href` and the request log. -/
def sessionView (w : World) :
    Option String × Option String × Option String × List String × List Config :=
  (getItem w.storage "access_token", getItem w.storage "refresh_token",
    getItem w.storage "user", w.href, w.log)

/-- A browser holding the stored session and a key of another module. -/
def themedWorld : World :=
  { storedWorld with storage := setItem storedWorld.storage "theme" "dark" }

/-! ## Reading a form-url-encoded body back

The functions of this section are not code of the repository. They spell out the
reading of a login body that its receiver performs: split on `&`, split each part on
`=`, percent-decode. -/

/-- The characters `encodeURIComponent` writes for one character. -/
def encodeChar (c : Char) : String :=
  if uriUnreserved c then c.toString else String.join ((utf8Bytes c.toNat).map percentByte)

/-- The value of a hexadecimal digit. -/
def hexValue (c : Char) : Option Nat :=
  let n := c.toNat
  if 48 ≤ n ∧ n ≤ 57 then some (n - 48)
  else if 65 ≤ n ∧ n ≤ 70 then some (n - 55)
  else if 97 ≤ n ∧ n ≤ 102 then some (n - 87)
  else none

/-- The bytes a percent-encoded text stands for: `%XX` is the byte `XX`, any other
character stands for its own UTF-8 bytes. -/
def percentDecode : List Char → Option (List Nat)
  | [] => some []
  | c :: rest =>
    if c = '%' then
      match rest with
      | h :: l :: rest2 =>
        match hexValue h, hexValue l, percentDecode rest2 with
        | some hv, some lv, some bytes => some ((hv * 16 + lv) :: bytes)
        | _, _, _ => none
      | _ => none
    else
      match percentDecode rest with
      | some bytes => some (utf8Bytes c.toNat ++ bytes)
      | none => none

/-- The code points of a UTF-8 byte sequence, read byte by byte: `pending` continuation
bytes are still due for the code point whose leading bits are `value`. Continuation
bytes are not validated. -/
def utf8DecodeFrom : Nat → Nat → List Nat → Option (List Nat)
  | 0, _, [] => some []
  | _ + 1, _, [] => none
  | 0, _, b :: rest =>
    if b < 128 then (utf8DecodeFrom 0 0 rest).map (fun more => b :: more)
    else if b < 224 then utf8DecodeFrom 1 (b - 192) rest
    else if b < 240 then utf8DecodeFrom 2 (b - 224) rest
    else utf8DecodeFrom 3 (b - 240) rest
  | pending + 1, value, b :: rest =>
    if pending = 0 then
      (utf8DecodeFrom 0 0 rest).map (fun more => (value * 64 + (b - 128)) :: more)
    else utf8DecodeFrom pending (value * 64 + (b - 128)) rest

/-- The code points of a UTF-8 byte sequence. -/
def utf8Decode (bytes : List Nat) : Option (List Nat) := utf8DecodeFrom 0 0 bytes

/-- Percent-decoding of a text, as the platform's `decodeURIComponent` does it on
well-formed input; `none` when an escape is incomplete. -/
def decodeURIComponent (s : String) : Option String :=
  match percentDecode s.toList with
  | none => none
  | some bytes =>
    match utf8Decode bytes with
    | none => none
    | some codes => some (String.mk (codes.map Char.ofNat))

/-- The pieces of a text between occurrences of a separator. -/
def splitChars (sep : Char) : List Char → List (List Char)
  | [] => [[]]
  | c :: rest =>
    if c = sep then [] :: splitChars sep rest
    else
      match splitChars sep rest with
      | [] => [[c]]
      | first :: more => (c :: first) :: more

/-- The key-value pairs of parts of the form `key=value`, both percent-decoded. -/
def parsePairs : List (List Char) → Option (List (String × String))
  | [] => some []
  | part :: rest =>
    match splitChars '=' part, parsePairs rest with
    | [key, value], some more =>
      match decodeURIComponent (String.mk key), decodeURIComponent (String.mk value) with
      | some k, some v => some ((k, v) :: more)
      | _, _ => none
    | _, _ => none

/-- The key-value pairs of a form-url-encoded body: split on `&`, split each part on
`=`, percent-decode both sides. -/
def parseFormBody (body : String) : Option (List (String × String)) :=
  parsePairs (splitChars '&' body.toList)

/-- The characters of the key `username`. -/
def usernameKey : List Char := "username".data

/-- The characters of the key `password`. -/
def passwordKey : List Char := "password".data

/-! ## Two runs that differ in the password -/

/-- Two request configurations that are the same, except that where the second carries the
login body of `email` with password `p2` the first may carry the one with password `p1`. -/
def Alike (email p1 p2 : String) (c1 c2 : Config) : Prop :=
  c1 = c2 ∨
    (c2.data = (loginRequest email p2).data ∧
      c1 = { c2 with data := (loginRequest email p1).data })

/-- Two request histories that continue the history `log0` with equally many requests,
pairwise alike. -/
def LogAlike (email p1 p2 : String) (log0 log1 log2 : List Config) : Prop :=
  ∃ rest1 rest2, log1 = log0 ++ rest1 ∧ log2 = log0 ++ rest2 ∧
    List.Forall₂ (Alike email p1 p2) rest1 rest2

/-- From the history `log0` on, the server gives the same response whichever of the two
passwords is sent: its reply to a request is the same when, in the request and in the
requests received since `log0`, the login body with `p1` stands in place of the one with
`p2`. -/
def SameResponses {U : Type} (server : Server U) (log0 : List Config) (email p1 p2 : String) :
    Prop :=
  ∀ (log1 log2 : List Config) (c1 c2 : Config),
    LogAlike email p1 p2 log0 log1 log2 → Alike email p1 p2 c1 c2 →
      server log1 c1 = server log2 c2

/-- Two worlds with the same storage and navigation and alike request histories. -/
def WorldAlike (email p1 p2 : String) (log0 : List Config) (w1 w2 : World) : Prop :=
  w1.storage = w2.storage ∧ w1.href = w2.href ∧ LogAlike email p1 p2 log0 w1.log w2.log

/-- Two settlements with the same data, or the same error response, for alike requests. -/
def SettledAlike {U : Type} (email p1 p2 : String) : Settled U → Settled U → Prop
  | Except.ok r1, Except.ok r2 => r1.data = r2.data ∧ Alike email p1 p2 r1.config r2.config
  | Except.error e1, Except.error e2 =>
    e1.response = e2.response ∧ Alike email p1 p2 e1.config e2.config
  | _, _ => False

/-- Two axios calls that both do not settle, or settle alike in alike worlds. -/
def ResultAlike {U : Type} (email p1 p2 : String) (log0 : List Config) :
    Option (Settled U × World) → Option (Settled U × World) → Prop
  | none, none => True
  | some r1, some r2 =>
    SettledAlike email p1 p2 r1.1 r2.1 ∧ WorldAlike email p1 p2 log0 r1.2 r2.2
  | _, _ => False

end AuthContext

/-! ## Platform string operations used by the pages -/

namespace JS

/-- UTF-16 code units of a string, the units JavaScript strings are made of: a code point
below 65536 is one unit, any other a surrogate pair. -/
def utf16 (s : String) : List Nat :=
  s.data.flatMap fun c =>
    if c.toNat < 65536 then [c.toNat]
    else [55296 + (c.toNat - 65536) / 1024, 56320 + (c.toNat - 65536) % 1024]

/-- Value of `s.length`: the number of UTF-16 code units. -/
def length (s : String) : Nat := (utf16 s).length

/-- Lexicographic order on code unit sequences. -/
def lexLt : List Nat → List Nat → Bool
  | _, [] => false
  | [], _ :: _ => true
  | a :: as, b :: bs => decide (a < b) || (a == b && lexLt as bs)

/-- Value of `a < b` on two strings: lexicographic comparison of the code units. -/
def lt (a b : String) : Bool := lexLt (utf16 a) (utf16 b)

/-- Characters of the regular expression class `\s` (white space and line terminators);
`\S` is its complement. -/
def isSpace (c : Char) : Bool :=
  let n := c.toNat
  n = 9 || n = 10 || n = 11 || n = 12 || n = 13 || n = 32 || n = 160 || n = 5760 ||
    (8192 ≤ n && n ≤ 8202) || n = 8232 || n = 8233 || n = 8239 || n = 8287 || n = 12288 ||
    n = 65279

end JS

/-! ## The transactions page (`pages/Transactions.js`) -/

namespace Transactions

/-- An entry of the `transactions` state (the fields of the mock data, lines 66-125);
`A` is the type of amounts. -/
structure Transaction (A : Type) where
  id : Int
  type : String
  amount : A
  description : String
  category : String
  account_id : Int
  account_name : String
  date : String
  notes : String
  created_at : String

/-- The `filters` state (lines 11-17). -/
structure Filters where
  type : String
  account_id : String
  category : String
  date_from : String
  date_to : String

/-- Initial value of `filters` (lines 11-17), which is also what the clear button sets
(lines 405-411). -/
def defaultFilters : Filters :=
  { type := "all", account_id := "all", category := "all", date_from := "", date_to := "" }

/-- The callback passed to `transactions.filter` (lines 196-201), one early return per line.
`parseInt` is the platform function, `none` standing for `NaN` (which no number is equal
to). -/
def keep {A : Type} (parseInt : String → Option Int) (filters : Filters)
    (transaction : Transaction A) : Bool :=
  if filters.type ≠ "all" ∧ transaction.type ≠ filters.type then false
  else if filters.account_id ≠ "all" ∧
      some transaction.account_id ≠ parseInt filters.account_id then false
  else if filters.category ≠ "all" ∧ transaction.category ≠ filters.category then false
  else if filters.date_from ≠ "" ∧ JS.lt transaction.date filters.date_from = true then false
  else if filters.date_to ≠ "" ∧ JS.lt filters.date_to transaction.date = true then false
  else true

/-- The constant `filteredTransactions` (lines 195-202). -/
def filteredTransactions {A : Type} (parseInt : String → Option Int) (filters : Filters)
    (transactions : List (Transaction A)) : List (Transaction A) :=
  transactions.filter (keep parseInt filters)

/-- The constant `totalIncome` (lines 242-244): `filter` then `reduce` from 0. -/
def totalIncome {A : Type} [Add A] [OfNat A 0] (filteredTransactions : List (Transaction A)) :
    A :=
  (filteredTransactions.filter fun t => t.type == "income").foldl
    (fun sum t => sum + t.amount) 0

/-- The constant `totalExpenses` (lines 246-248). -/
def totalExpenses {A : Type} [Add A] [OfNat A 0]
    (filteredTransactions : List (Transaction A)) : A :=
  (filteredTransactions.filter fun t => t.type == "expense").foldl
    (fun sum t => sum + t.amount) 0

/-- The constant `netBalance` (line 250). -/
def netBalance {A : Type} [Add A] [Sub A] [OfNat A 0]
    (filteredTransactions : List (Transaction A)) : A :=
  totalIncome filteredTransactions - totalExpenses filteredTransactions

/-- The built-in mock data (lines 65-126). -/
def mockTransactions : List (Transaction ℚ) :=
  [ { id := 1, type := "income", amount := 5000, description := "Venda de serviços",
      category := "Serviços", account_id := 1, account_name := "Conta Corrente Principal",
      date := "2024-01-15", notes := "Cliente ABC Ltda",
      created_at := "2024-01-15T10:00:00Z" },
    { id := 2, type := "expense", amount := 1200, description := "Aluguel do escritório",
      category := "Aluguel", account_id := 1, account_name := "Conta Corrente Principal",
      date := "2024-01-10", notes := "Pagamento mensal",
      created_at := "2024-01-10T14:30:00Z" },
    { id := 3, type := "expense", amount := 350, description := "Material de escritório",
      category := "Escritório", account_id := 1, account_name := "Conta Corrente Principal",
      date := "2024-01-08", notes := "Papelaria e suprimentos",
      created_at := "2024-01-08T09:15:00Z" },
    { id := 4, type := "income", amount := 2500, description := "Consultoria técnica",
      category := "Serviços", account_id := 2, account_name := "Conta Poupança",
      date := "2024-01-05", notes := "Projeto XYZ",
      created_at := "2024-01-05T16:45:00Z" },
    { id := 5, type := "transfer", amount := 1000,
      description := "Transferência entre contas",
      category := "Transferência", account_id := 1, account_name := "Conta Corrente Principal",
      date := "2024-01-03", notes := "Para conta poupança",
      created_at := "2024-01-03T11:20:00Z" } ]

/-- What the claim requires of a kept transaction, in its words: every active filter is
satisfied. -/
def Satisfies {A : Type} (parseInt : String → Option Int) (filters : Filters)
    (t : Transaction A) : Prop :=
  (filters.type = "all" ∨ t.type = filters.type) ∧
  (filters.account_id = "all" ∨ parseInt filters.account_id = some t.account_id) ∧
  (filters.category = "all" ∨ t.category = filters.category) ∧
  (filters.date_from = "" ∨ JS.lt t.date filters.date_from = false) ∧
  (filters.date_to = "" ∨ JS.lt filters.date_to t.date = false)

/-- A reading of decimal numerals, on which `parseInt` agrees with it; used to evaluate
examples. -/
def decimal (s : String) : Option Int :=
  if s.data ≠ [] ∧ s.data.all Char.isDigit = true then
    some (Int.ofNat (s.data.foldl (fun n c => n * 10 + (c.toNat - 48)) 0))
  else none

end Transactions

/-! ## The registration page (`pages/RegisterPage.js`) -/

namespace RegisterPage

/-- The `formData` state (lines 8-19). -/
structure FormData where
  full_name : String
  email : String
  password : String
  confirmPassword : String
  company_name : String
  company_document : String
  company_phone : String
  company_address : String

/-- Initial value of `formData`. -/
def emptyForm : FormData := ⟨"", "", "", "", "", "", "", ""⟩

/-- The `newErrors` object of `validateStep1`: the four keys it may set. -/
structure Errors where
  full_name : Option String
  email : Option String
  password : Option String
  confirmPassword : Option String

/-- Value of `Object.keys(newErrors)`. -/
def Errors.keys (e : Errors) : List String :=
  (if e.full_name.isSome then ["full_name"] else []) ++
  (if e.email.isSome then ["email"] else []) ++
  (if e.password.isSome then ["password"] else []) ++
  (if e.confirmPassword.isSome then ["confirmPassword"] else [])

/-- Matcher for `\.\S` at the head of the input. -/
def dotThen : List Char → Bool
  | d :: c :: _ => d == '.' && !JS.isSpace c
  | _ => false

/-- Matcher for `\S+\.\S` at the head of the input. -/
def domainOk : List Char → Bool
  | [] => false
  | b :: rest => !JS.isSpace b && (dotThen rest || domainOk rest)

/-- Matcher for `@\S+\.\S` at the head of the input. -/
def atThen : List Char → Bool
  | a :: rest => a == '@' && domainOk rest
  | [] => false

/-- Search for `\S@\S+\.\S` anywhere in the input. -/
def emailFrom : List Char → Bool
  | [] => false
  | a :: rest => (!JS.isSpace a && atThen rest) || emailFrom rest

/-- Value of `/\S+@\S+\.\S+/.test(s)`: the pattern is not anchored, so a match anywhere in
the string counts, and a match exists exactly when one exists whose first and last group
have length one. The pattern works on code units; a character outside the basic plane is
two units, neither of them in `\s`, so matching per character gives the same answer. -/
def emailPattern (s : String) : Bool := emailFrom s.data

/-- The function `validateStep1` (lines 42-69): the value passed to `setErrors` and the
returned boolean. -/
def validateStep1 (formData : FormData) : Errors × Bool :=
  let newErrors : Errors :=
    { full_name :=
        if formData.full_name = "" then some "Nome completo é obrigatório" else none
      email :=
        if formData.email = "" then some "Email é obrigatório"
        else if !emailPattern formData.email then some "Email inválido"
        else none
      password :=
        if formData.password = "" then some "Senha é obrigatória"
        else if JS.length formData.password < 6 then
          some "Senha deve ter pelo menos 6 caracteres"
        else none
      confirmPassword :=
        if formData.confirmPassword = "" then some "Confirmação de senha é obrigatória"
        else if formData.password ≠ formData.confirmPassword then some "Senhas não coincidem"
        else none }
  (newErrors, newErrors.keys.length == 0)

/-- The function `handleNextStep` (lines 86-90) on the `step` state. -/
def handleNextStep (formData : FormData) (step : Nat) : Nat :=
  if (validateStep1 formData).2 then 2 else step

/-- The pattern in the claim's words: somewhere in the string stand one or more non-space
characters, an at sign, one or more non-space characters, a dot, one or more non-space
characters. -/
def EmailShape (s : String) : Prop :=
  ∃ before a b c after : List Char,
    s.data = before ++ (a ++ ('@' :: (b ++ ('.' :: (c ++ after))))) ∧
    a ≠ [] ∧ b ≠ [] ∧ c ≠ [] ∧
    (∀ x ∈ a, JS.isSpace x = false) ∧ (∀ x ∈ b, JS.isSpace x = false) ∧
    (∀ x ∈ c, JS.isSpace x = false)

/-- A form that passes the first step. -/
def goodForm : FormData :=
  { emptyForm with
    full_name := "Ana Lima", email := "ana@x.io", password := "segredo",
    confirmPassword := "segredo" }

end RegisterPage

namespace AuthContext

/-! ## Basic facts about storage and the pipeline -/

theorem getItem_setItem (st : Storage) (k v k1 : String) :
    getItem (setItem st k v) k1 = if k1 = k then some v else getItem st k1 := rfl

theorem getItem_removeItem (st : Storage) (k k1 : String) :
    getItem (removeItem st k) k1 = if k1 = k then none else getItem st k1 := rfl

theorem getItem_clearSession (st : Storage) (k : String) :
    getItem (clearSession st) k =
      if k = "access_token" ∨ k = "refresh_token" ∨ k = "user" then none else getItem st k := by
  unfold clearSession
  simp only [getItem_removeItem]
  by_cases h1 : k = "user" <;> by_cases h2 : k = "refresh_token" <;>
    by_cases h3 : k = "access_token" <;> simp [h1, h2, h3]

theorem truthy_some {s : String} (h : s ≠ "") : truthy (some s) = true := by
  simp [truthy, h]

theorem toStr_some (s : String) : toStr (some s) = s := rfl

theorem requestInterceptor_url (st : Storage) (config : Config) :
    (requestInterceptor st config).url = config.url := by
  simp only [requestInterceptor]
  split <;> rfl

theorem requestInterceptor_data (st : Storage) (config : Config) :
    (requestInterceptor st config).data = config.data := by
  simp only [requestInterceptor]
  split <;> rfl

theorem requestInterceptor_retry (st : Storage) (config : Config) :
    (requestInterceptor st config)._retry = config._retry := by
  simp only [requestInterceptor]
  split <;> rfl

/-- A request the server answers with 2xx settles at once with that answer. -/
theorem axiosRequest_ok {U : Type} (server : Server U) (fuel : Nat) (w : World) (config : Config)
    (data : Data U)
    (h : server w.log (requestInterceptor w.storage config) = Reply.ok data) :
    axiosRequest server (fuel + 1) w config =
      some (Except.ok { data := data, config := requestInterceptor w.storage config },
        { w with log := w.log ++ [requestInterceptor w.storage config] }) := by
  simp [axiosRequest, h]

/-- A request the server fails is handed to the rejection handler. -/
theorem axiosRequest_fail {U : Type} (server : Server U) (fuel : Nat) (w : World) (config : Config)
    (response : Option ErrorResponse)
    (h : server w.log (requestInterceptor w.storage config) = Reply.fail response) :
    axiosRequest server (fuel + 1) w config =
      responseRejected (axiosRequest server fuel)
        { w with log := w.log ++ [requestInterceptor w.storage config] }
        { config := requestInterceptor w.storage config, response := response } := by
  simp [axiosRequest, h]

/-- The rejection handler passes on, untouched, an error whose status is not 401. -/
theorem responseRejected_other {U : Type} (axios : Axios U) (w : World) (error : AxiosError)
    (h : error.response.map (fun r => r.status) ≠ some 401) :
    responseRejected axios w error = some (Except.error error, w) := by
  simp [responseRejected, h]

/-! ## Login -/

/-- A run of logins that the server accepts: every call returns `{success: true}` and
the state after the run reflects the server's reply to the last request. -/
theorem loginAll_cons_latest {U : Type} (J : JSON U) (server : Server U) (fuel : Nat)
    (hsrv : ∀ log config, config.url = "/auth/login" →
      ∃ a r u, server log config = Reply.ok ⟨some a, some r, some u⟩)
    (rest : List (String × String)) :
    ∀ (app : App U) (email password : String),
    ∃ app1 pre last a r u,
      loginAll J (axiosRequest server (fuel + 1)) app ((email, password) :: rest) =
        some (((email, password) :: rest).map fun _ => Except.ok ⟨true, none⟩, app1) ∧
      app1.world.log = pre ++ [last] ∧
      last.url = "/auth/login" ∧
      last.data = (loginRequest
        (((email, password) :: rest).getLast (List.cons_ne_nil _ _)).1
        (((email, password) :: rest).getLast (List.cons_ne_nil _ _)).2).data ∧
      server pre last = Reply.ok ⟨some a, some r, some u⟩ ∧
      getItem app1.world.storage "access_token" = some a ∧
      getItem app1.world.storage "refresh_token" = some r ∧
      getItem app1.world.storage "user" = some (J.stringify u) ∧
      app1.auth.user = some u := by
  induction rest with
  | nil =>
    intro app email password
    have hurl : (requestInterceptor app.world.storage (loginRequest email password)).url
        = "/auth/login" := by rw [requestInterceptor_url]; rfl
    obtain ⟨a, r, u, hreply⟩ := hsrv app.world.log _ hurl
    refine ⟨(storeSession J app { app.world with log := app.world.log ++
        [requestInterceptor app.world.storage (loginRequest email password)] }
        ⟨⟨some a, some r, some u⟩,
          requestInterceptor app.world.storage (loginRequest email password)⟩).2,
      app.world.log, requestInterceptor app.world.storage (loginRequest email password),
      a, r, u, ?_, rfl, hurl, ?_, hreply, ?_, ?_, ?_, ?_⟩
    · simp [loginAll, login, axiosRequest_ok server fuel _ _ _ hreply, storeSession]
    · rw [requestInterceptor_data]; rfl
    · simp [storeSession, getItem_setItem, toStr]
    · simp [storeSession, getItem_setItem, toStr]
    · simp [storeSession, getItem_setItem, toStr]
    · simp [storeSession]
  | cons next rest ih =>
    intro app email password
    have hurl : (requestInterceptor app.world.storage (loginRequest email password)).url
        = "/auth/login" := by rw [requestInterceptor_url]; rfl
    obtain ⟨a, r, u, hreply⟩ := hsrv app.world.log _ hurl
    obtain ⟨app1, pre, last, a1, r1, u1, hrun, hrest⟩ :=
      ih (storeSession J app { app.world with log := app.world.log ++
        [requestInterceptor app.world.storage (loginRequest email password)] }
        ⟨⟨some a, some r, some u⟩,
          requestInterceptor app.world.storage (loginRequest email password)⟩).2 next.1 next.2
    refine ⟨app1, pre, last, a1, r1, u1, ?_, ?_⟩
    · rw [loginAll, login, axiosRequest_ok server fuel _ _ _ hreply]
      simp only [hrun]
      rfl
    · simpa using hrest

/-- Claim C1: for every non-empty sequence of `login` calls that the server answers
successfully (each reply carrying an access token, a refresh token and a user), the
run completes, every call returns `{success: true}`, and afterwards the entries
`access_token`, `refresh_token` and `user` hold the access token, the refresh token and
the serialized user of the reply to the last request sent (the login request of the
last call), and the in-memory user is that user. -/
theorem login_sequence_latest {U : Type} (J : JSON U) (server : Server U) (fuel : Nat)
    (app : App U) (calls : List (String × String)) (hne : calls ≠ [])
    (hsrv : ∀ log config, config.url = "/auth/login" →
      ∃ a r u, server log config = Reply.ok ⟨some a, some r, some u⟩) :
    ∃ app1 pre last a r u,
      loginAll J (axiosRequest server (fuel + 1)) app calls =
        some (calls.map fun _ => Except.ok ⟨true, none⟩, app1) ∧
      app1.world.log = pre ++ [last] ∧
      last.url = "/auth/login" ∧
      last.data = (loginRequest (calls.getLast hne).1 (calls.getLast hne).2).data ∧
      server pre last = Reply.ok ⟨some a, some r, some u⟩ ∧
      getItem app1.world.storage "access_token" = some a ∧
      getItem app1.world.storage "refresh_token" = some r ∧
      getItem app1.world.storage "user" = some (J.stringify u) ∧
      app1.auth.user = some u := by
  cases calls with
  | nil => exact absurd rfl hne
  | cons call rest => exact loginAll_cons_latest J server fuel hsrv rest app call.1 call.2

/-- Two accepted logins in a row: the second reply is the one that stays. -/
theorem login_sequence_latest_witness :
    ∃ app1 pre last a r u,
      loginAll plainJSON (axiosRequest issueTokens 1) ⟨initialState, emptyWorld⟩
          [("ana@loja.com", "s1"), ("rui@loja.com", "s2")] =
        some ([Except.ok ⟨true, none⟩, Except.ok ⟨true, none⟩], app1) ∧
      app1.world.log = pre ++ [last] ∧
      last.url = "/auth/login" ∧
      last.data = (loginRequest "rui@loja.com" "s2").data ∧
      issueTokens pre last = Reply.ok ⟨some a, some r, some u⟩ ∧
      getItem app1.world.storage "access_token" = some a ∧
      getItem app1.world.storage "refresh_token" = some r ∧
      getItem app1.world.storage "user" = some (plainJSON.stringify u) ∧
      app1.auth.user = some u :=
  login_sequence_latest plainJSON issueTokens 0 ⟨initialState, emptyWorld⟩
    [("ana@loja.com", "s1"), ("rui@loja.com", "s2")] (by decide)
    (fun _ _ _ => ⟨_, _, _, rfl⟩)

/-! ## Logout -/

/-- Claim C2: for every session state and storage content, and for every settlement of
the call `POST /auth/logout` (fulfilled or rejected with any error), `logout` returns
without raising, and afterwards the in-memory user is absent and the entries
`access_token`, `refresh_token` and `user` are absent. -/
theorem logout_always_clears {U : Type} (axios : Axios U) (app : App U) (outcome : Settled U)
    (w : World) (hcall : axios app.world (post "/auth/logout" Body.empty) = some (outcome, w)) :
    ∃ app1, logout axios app = some (Except.ok (), app1) ∧
      app1.auth.user = none ∧
      getItem app1.world.storage "access_token" = none ∧
      getItem app1.world.storage "refresh_token" = none ∧
      getItem app1.world.storage "user" = none := by
  refine ⟨{ auth := { app.auth with user := none },
            world := { w with storage := clearSession w.storage } }, ?_, ?_⟩
  · simp only [logout, hcall]
  · simp [getItem_clearSession]

/-- Logging out of a stored session while the server cannot be reached. -/
theorem logout_always_clears_witness :
    ∃ app1, logout (axiosRequest serverDown 1) ⟨⟨some "u0", false⟩, storedWorld⟩ =
        some (Except.ok (), app1) ∧
      app1.auth.user = none ∧
      getItem app1.world.storage "access_token" = none ∧
      getItem app1.world.storage "refresh_token" = none ∧
      getItem app1.world.storage "user" = none :=
  logout_always_clears (axiosRequest serverDown 1) ⟨⟨some "u0", false⟩, storedWorld⟩
    (Except.error ⟨{ post "/auth/logout" Body.empty with authorization := some "Bearer a0" },
      none⟩)
    { storedWorld with
      log := [{ post "/auth/logout" Body.empty with authorization := some "Bearer a0" }] }
    rfl

/-! ## The response interceptor -/

/-- Claim C3: a request not yet marked retried is answered 401 while a (non-empty)
refresh token is stored; the server accepts the refresh call and then accepts the
replay. Then the call settles, the requests that reached the server are exactly the
original request, one call to `/auth/refresh` and one replay of the original request
(marked retried, bearing the new token), and the caller receives the fulfilled
response of the replay, not the 401. -/
theorem refresh_then_replay_once {U : Type} (server : Server U) (fuel : Nat) (w : World)
    (config sent refresh replay : Config) (detail : Option String) (refreshToken : String)
    (fresh answer : Data U)
    (hretry : config._retry = false)
    (hsent : sent = requestInterceptor w.storage config)
    (hreply : server w.log sent = Reply.fail (some ⟨401, detail⟩))
    (htoken : getItem w.storage "refresh_token" = some refreshToken)
    (hne : refreshToken ≠ "")
    (hrefresh : refresh = requestInterceptor w.storage (refreshRequest refreshToken))
    (hfresh : server (w.log ++ [sent]) refresh = Reply.ok fresh)
    (hreplay : replay =
      requestInterceptor (setItem w.storage "access_token" (toStr fresh.access_token))
        { sent with _retry := true,
                    authorization := some ("Bearer " ++ toStr fresh.access_token) })
    (hanswer : server (w.log ++ [sent, refresh]) replay = Reply.ok answer) :
    axiosRequest server (fuel + 2) w config =
      some (Except.ok { data := answer, config := replay },
        { storage := setItem w.storage "access_token" (toStr fresh.access_token),
          href := w.href,
          log := w.log ++ [sent, refresh, replay] }) := by
  subst hsent hrefresh hreplay
  rw [axiosRequest_fail server (fuel + 1) w config _ hreply]
  have h1 := axiosRequest_ok server fuel
    { w with log := w.log ++ [requestInterceptor w.storage config] }
    (refreshRequest refreshToken) fresh hfresh
  have h2 := axiosRequest_ok server fuel
    { storage := setItem w.storage "access_token" (toStr fresh.access_token),
      href := w.href,
      log := w.log ++ [requestInterceptor w.storage config,
            requestInterceptor w.storage (refreshRequest refreshToken)] }
    { requestInterceptor w.storage config with
            _retry := true,
            authorization := some ("Bearer " ++ toStr fresh.access_token) } answer hanswer
  simp only [responseRejected, requestInterceptor_retry, hretry, htoken, truthy_some hne,
    toStr_some, Option.map_some', and_self, if_true, h1, List.append_assoc,
    List.singleton_append, List.cons_append, List.nil_append]
  simp only [List.append_assoc, List.singleton_append, List.cons_append, List.nil_append] at h2
  exact h2

/-- A page request with the expired token `a0`: one refresh, one replay with `a1`. -/
theorem refresh_then_replay_once_witness :
    axiosRequest expiredAccess 2 storedWorld (get "/transactions") =
      some (Except.ok { data := { access_token := none, refresh_token := none, user := none },
                        config := { get "/transactions" with
                          _retry := true, authorization := some "Bearer a1" } },
        { storage := setItem storedWorld.storage "access_token" "a1",
          href := [],
          log := [{ get "/transactions" with authorization := some "Bearer a0" },
            { refreshRequest "r0" with authorization := some "Bearer a0" },
            { get "/transactions" with _retry := true, authorization := some "Bearer a1" }] }) :=
  refresh_then_replay_once expiredAccess 0 storedWorld (get "/transactions")
    { get "/transactions" with authorization := some "Bearer a0" }
    { refreshRequest "r0" with authorization := some "Bearer a0" }
    { get "/transactions" with _retry := true, authorization := some "Bearer a1" }
    (some "expired") "r0" { access_token := some "a1", refresh_token := none, user := none }
    { access_token := none, refresh_token := none, user := none }
    rfl rfl rfl rfl (by decide) rfl rfl rfl rfl

/-- Claim C4, as amended: a request not yet marked retried is answered 401, and either
no (non-empty) refresh token is stored or the server fails the refresh call with
anything but a 401. Then the call is rejected with the original 401 error, the three
session entries are absent, `/login` has been assigned to `window.location.href`
exactly once, and the pipeline has left the provider state (the in-memory user
included) as it was; a provider mounted on the resulting storage, as the page load
caused by the navigation does, ends with user absent and loading false. -/
theorem forced_logout_once {U : Type} (J : JSON U) (server : Server U) (fuel : Nat)
    (app : App U) (config sent : Config) (detail : Option String)
    (hretry : config._retry = false)
    (hsent : sent = requestInterceptor app.world.storage config)
    (hreply : server app.world.log sent = Reply.fail (some ⟨401, detail⟩))
    (hrefresh : truthy (getItem app.world.storage "refresh_token") = false ∨
      ∃ response, response.map (fun r => r.status) ≠ some 401 ∧
        server (app.world.log ++ [sent])
            (requestInterceptor app.world.storage
              (refreshRequest (toStr (getItem app.world.storage "refresh_token")))) =
          Reply.fail response) :
    ∃ w1, axiosRequest server (fuel + 2) app.world config =
        some (Except.error ⟨{ sent with _retry := true }, some ⟨401, detail⟩⟩, w1) ∧
      getItem w1.storage "access_token" = none ∧
      getItem w1.storage "refresh_token" = none ∧
      getItem w1.storage "user" = none ∧
      w1.href = app.world.href ++ ["/login"] ∧
      step J (axiosRequest server (fuel + 2)) app (Op.request config) =
        some { auth := app.auth, world := w1 } ∧
      ∀ axios : Axios U, mount J axios w1 = some { auth := ⟨none, false⟩, world := w1 } := by
  subst hsent
  have hmount : ∀ w : World, ∀ axios : Axios U,
      mount J axios (forceLogin w) = some { auth := ⟨none, false⟩, world := forceLogin w } := by
    intro w axios
    simp [mount, initAuth, forceLogin, getItem_clearSession, truthy, initialState]
  cases htruthy : truthy (getItem app.world.storage "refresh_token") with
  | false =>
    have hrun : axiosRequest server (fuel + 2) app.world config =
        some (Except.error ⟨{ requestInterceptor app.world.storage config with _retry := true },
            some ⟨401, detail⟩⟩,
          forceLogin { app.world with log := app.world.log ++
            [requestInterceptor app.world.storage config] }) := by
      rw [axiosRequest_fail server (fuel + 1) _ _ _ hreply]
      simp [responseRejected, requestInterceptor_retry, hretry, htruthy]
    refine ⟨_, hrun, ?_, ?_, ?_, ?_, ?_, hmount _⟩
    · simp [forceLogin, getItem_clearSession]
    · simp [forceLogin, getItem_clearSession]
    · simp [forceLogin, getItem_clearSession]
    · simp [forceLogin]
    · simp [step, hrun]
  | true =>
    rcases hrefresh with hfalse | ⟨response, hother, hfail⟩
    · rw [htruthy] at hfalse
      cases hfalse
    · have hnested := axiosRequest_fail server fuel
        { app.world with log := app.world.log ++ [requestInterceptor app.world.storage config] }
        (refreshRequest (toStr (getItem app.world.storage "refresh_token"))) response hfail
      rw [responseRejected_other _ _ _ hother] at hnested
      have hrun : axiosRequest server (fuel + 2) app.world config =
          some (Except.error
              ⟨{ requestInterceptor app.world.storage config with _retry := true },
                some ⟨401, detail⟩⟩,
            forceLogin { app.world with log := app.world.log ++
              [requestInterceptor app.world.storage config,
                requestInterceptor app.world.storage
                  (refreshRequest (toStr (getItem app.world.storage "refresh_token")))] }) := by
        rw [axiosRequest_fail server (fuel + 1) _ _ _ hreply]
        simp [responseRejected, requestInterceptor_retry, hretry, htruthy, hnested]
      refine ⟨_, hrun, ?_, ?_, ?_, ?_, ?_, hmount _⟩
      · simp [forceLogin, getItem_clearSession]
      · simp [forceLogin, getItem_clearSession]
      · simp [forceLogin, getItem_clearSession]
      · simp [forceLogin]
      · simp [step, hrun]

/-- A 401 with no refresh token stored: storage cleared, one navigation, user kept. -/
theorem forced_logout_once_witness :
    ∃ w1, axiosRequest alwaysUnauthorized 2 noRefreshWorld (get "/transactions") =
        some (Except.error ⟨{ get "/transactions" with
            authorization := some "Bearer a0", _retry := true }, some ⟨401, none⟩⟩, w1) ∧
      getItem w1.storage "access_token" = none ∧
      getItem w1.storage "refresh_token" = none ∧
      getItem w1.storage "user" = none ∧
      w1.href = ["/login"] ∧
      step plainJSON (axiosRequest alwaysUnauthorized 2) ⟨⟨some "u0", false⟩, noRefreshWorld⟩
          (Op.request (get "/transactions")) =
        some { auth := ⟨some "u0", false⟩, world := w1 } ∧
      ∀ axios : Axios String,
        mount plainJSON axios w1 = some { auth := ⟨none, false⟩, world := w1 } :=
  forced_logout_once plainJSON alwaysUnauthorized 0 ⟨⟨some "u0", false⟩, noRefreshWorld⟩
    (get "/transactions") { get "/transactions" with authorization := some "Bearer a0" } none
    rfl rfl rfl (Or.inl rfl)

/-- Claim C4 as stated fails: an authenticated provider (user `u0`) sends a request that
is answered 401 while no refresh token is stored. The pipeline clears the three
entries and navigates once, yet the in-memory user is still `u0`. -/
theorem forced_logout_keeps_user :
    (step plainJSON (axiosRequest alwaysUnauthorized 1) ⟨⟨some "u0", false⟩, noRefreshWorld⟩
        (Op.request (get "/transactions"))).map
      (fun a => (a.auth.user, a.world.href, getItem a.world.storage "access_token",
        getItem a.world.storage "refresh_token", getItem a.world.storage "user")) =
      some (some "u0", ["/login"], none, none, none) := by
  decide

/-- Against a server that answers everything with 401, a request that is not marked
retried never settles while a refresh token is stored: each refresh call is itself
answered 401 and handled by the same interceptor, which issues the next one. -/
theorem alwaysUnauthorized_never_settles (fuel : Nat) :
    ∀ (w : World) (config : Config),
      truthy (getItem w.storage "refresh_token") = true → config._retry = false →
      axiosRequest alwaysUnauthorized fuel w config = none := by
  induction fuel with
  | zero => intro w config _ _; rfl
  | succ fuel ih =>
    intro w config htoken hretry
    rw [axiosRequest_fail alwaysUnauthorized fuel w config _ rfl]
    have hnested := ih { w with log := w.log ++ [requestInterceptor w.storage config] }
      (refreshRequest (toStr (getItem w.storage "refresh_token"))) htoken rfl
    simp [responseRejected, requestInterceptor_retry, hretry, htoken, hnested]

/-- Claim C5, evaluated where it fails: with a stored session and a server that answers
every request (the refresh endpoint included) with 401, handling a page request does
not settle for any amount of fuel. -/
theorem refresh_loop_never_settles (fuel : Nat) :
    axiosRequest alwaysUnauthorized fuel storedWorld (get "/transactions") = none :=
  alwaysUnauthorized_never_settles fuel storedWorld (get "/transactions") (by decide) rfl

/-- The same re-entry when it does end: the server answers the page request and the
first refresh call with 401 and then stops responding. Two refresh calls reach the
server and `/login` is assigned twice. -/
theorem nested_refresh_failure_navigates_twice :
    (axiosRequest unauthorizedThenDown 3 storedWorld (get "/transactions")).map
      (fun r => (r.2.log.map fun c => c.url, r.2.href)) =
      some (["/transactions", "/auth/refresh", "/auth/refresh"], ["/login", "/login"]) := by
  decide

/-- Claim C6: a request already marked retried that is answered 401 is rejected to the
caller with that same 401 error, and nothing else happens: the only request that
reached the server is the request itself (no refresh call, no replay), storage and
`window.location.href` are unchanged. -/
theorem retried_unauthorized_rejected {U : Type} (server : Server U) (fuel : Nat) (w : World)
    (config : Config) (detail : Option String)
    (hretry : config._retry = true)
    (hreply : server w.log (requestInterceptor w.storage config) =
      Reply.fail (some ⟨401, detail⟩)) :
    axiosRequest server (fuel + 1) w config =
      some (Except.error ⟨requestInterceptor w.storage config, some ⟨401, detail⟩⟩,
        { w with log := w.log ++ [requestInterceptor w.storage config] }) := by
  rw [axiosRequest_fail server fuel w config _ hreply]
  simp [responseRejected, requestInterceptor_retry, hretry]

/-- A retried request answered 401 again, with a refresh token in storage. -/
theorem retried_unauthorized_rejected_witness :
    axiosRequest alwaysUnauthorized 1 storedWorld { get "/transactions" with _retry := true } =
      some (Except.error ⟨{ get "/transactions" with
            _retry := true, authorization := some "Bearer a0" }, some ⟨401, none⟩⟩,
        { storedWorld with log := [{ get "/transactions" with
            _retry := true, authorization := some "Bearer a0" }] }) :=
  retried_unauthorized_rejected alwaysUnauthorized 0 storedWorld
    { get "/transactions" with _retry := true } none rfl rfl

/-! ## The all-or-nothing property of the session entries -/

/-- Every settled axios call has one of the two effects of `RefreshEffect`. -/
theorem axiosRequest_refreshEffect {U : Type} (server : Server U) (fuel : Nat) :
    ∀ (w : World) (config : Config) (outcome : Settled U) (w1 : World),
      axiosRequest server fuel w config = some (outcome, w1) →
      RefreshEffect w.storage w1.storage outcome := by
  induction fuel with
  | zero => intro w config outcome w1 h; cases h
  | succ fuel ih =>
    intro w config outcome w1 h
    cases hreply : server w.log (requestInterceptor w.storage config) with
    | ok data =>
      rw [axiosRequest_ok server fuel w config data hreply] at h
      cases h
      exact Or.inl ⟨rfl, rfl, Or.inl rfl⟩
    | fail response =>
      rw [axiosRequest_fail server fuel w config response hreply] at h
      unfold responseRejected at h
      simp only at h
      split at h
      · split at h
        · rename_i hcond htruthy
          split at h
          · cases h
          · rename_i response1 wa hcall
            have h1 := ih _ _ _ _ hcall
            have h2 := ih _ _ _ _ h
            rcases h1 with ⟨hr, hu, _⟩ | ⟨⟨e, he⟩, _⟩
            · rcases h2 with ⟨hr2, hu2, ha2⟩ | hgone
              · refine Or.inl ⟨?_, ?_, Or.inr ⟨htruthy, ?_⟩⟩
                · rw [hr2, ← hr]; simp [getItem_setItem]
                · rw [hu2, ← hu]; simp [getItem_setItem]
                · rcases ha2 with ha2 | ⟨_, ha2⟩
                  · rw [ha2]; simp [getItem_setItem]
                  · exact ha2
              · exact Or.inr hgone
            · cases he
          · cases h
            exact Or.inr ⟨⟨_, rfl⟩, by simp [forceLogin, getItem_clearSession],
              by simp [forceLogin, getItem_clearSession],
              by simp [forceLogin, getItem_clearSession]⟩
        · cases h
          exact Or.inr ⟨⟨_, rfl⟩, by simp [forceLogin, getItem_clearSession],
            by simp [forceLogin, getItem_clearSession],
            by simp [forceLogin, getItem_clearSession]⟩
      · cases h
        exact Or.inl ⟨rfl, rfl, Or.inl rfl⟩

theorem allOrNone_of_refreshEffect {U : Type} {before after : Storage} {outcome : Settled U}
    (h : RefreshEffect before after outcome) (hb : allOrNone before = true) :
    allOrNone after = true := by
  rcases h with ⟨hr, hu, ha⟩ | ⟨_, ha, hr, hu⟩
  · rcases ha with ha | ⟨ht, ha⟩
    · simpa [allOrNone, hr, hu, ha] using hb
    · cases hrb : getItem before "refresh_token" with
      | none => simp [hrb, truthy] at ht
      | some v =>
        simp only [allOrNone, hr, hu, ha, hrb] at hb ⊢
        simp at hb ⊢
        exact hb.2
  · simp [allOrNone, ha, hr, hu]

theorem allOrNone_clearSession (st : Storage) : allOrNone (clearSession st) = true := by
  simp [allOrNone, getItem_clearSession]

theorem allOrNone_storeSession {U : Type} (J : JSON U) (app : App U) (w : World)
    (response : Response U) :
    allOrNone (storeSession J app w response).2.world.storage = true := by
  simp [allOrNone, storeSession, getItem_setItem]

/-- One operation keeps the session entries all present or all absent, unless it is an
`updateUser` issued while no access token is stored. -/
theorem step_allOrNone {U : Type} (J : JSON U) (server : Server U) (fuel : Nat)
    (app app1 : App U) (op : Op U)
    (hinv : allOrNone app.world.storage = true)
    (hguard : ∀ userData, op = Op.updateUser userData →
      (getItem app.world.storage "access_token").isSome = true)
    (hstep : step J (axiosRequest server fuel) app op = some app1) :
    allOrNone app1.world.storage = true := by
  cases op with
  | mount =>
    simp only [step, mount, initAuth] at hstep
    split at hstep
    · split at hstep
      · cases hstep
        exact allOrNone_clearSession _
      · split at hstep
        · cases hstep
        · rename_i hcall
          cases hstep
          exact allOrNone_of_refreshEffect (axiosRequest_refreshEffect server fuel _ _ _ _ hcall)
            hinv
        · cases hstep
          exact allOrNone_clearSession _
    · cases hstep
      exact hinv
  | login email password =>
    simp only [step, login] at hstep
    split at hstep
    · cases hstep
    · cases hstep
      exact allOrNone_storeSession J _ _ _
    · rename_i hcall
      cases hstep
      exact allOrNone_of_refreshEffect (axiosRequest_refreshEffect server fuel _ _ _ _ hcall) hinv
  | register userData =>
    simp only [step, register] at hstep
    split at hstep
    · cases hstep
    · cases hstep
      exact allOrNone_storeSession J _ _ _
    · rename_i hcall
      cases hstep
      exact allOrNone_of_refreshEffect (axiosRequest_refreshEffect server fuel _ _ _ _ hcall) hinv
  | logout =>
    simp only [step, logout] at hstep
    split at hstep
    · cases hstep
    · cases hstep
      exact allOrNone_clearSession _
  | updateUser userData =>
    have htoken := hguard userData rfl
    simp only [step] at hstep
    cases hstep
    cases ha : getItem app.world.storage "access_token" with
    | none => simp [ha] at htoken
    | some a =>
      simp only [allOrNone, ha] at hinv
      simp at hinv
      simp [allOrNone, updateUser, getItem_setItem, ha, hinv.1]
  | request config =>
    simp only [step] at hstep
    cases hcall : axiosRequest server fuel app.world config with
    | none => simp [hcall] at hstep
    | some r =>
      simp only [hcall, Option.map_some'] at hstep
      cases hstep
      exact allOrNone_of_refreshEffect (axiosRequest_refreshEffect server fuel _ _ r.1 r.2 hcall)
        hinv

theorem run_allOrNone {U : Type} (J : JSON U) (server : Server U) (fuel : Nat)
    (ops : List (Op U)) :
    ∀ (app app1 : App U), allOrNone app.world.storage = true →
      updatesWhileStored J (axiosRequest server fuel) app ops = true →
      run J (axiosRequest server fuel) app ops = some app1 →
      allOrNone app1.world.storage = true := by
  induction ops with
  | nil =>
    intro app app1 hinv _ hrun
    cases hrun
    exact hinv
  | cons op rest ih =>
    intro app app1 hinv hguard hrun
    simp only [run] at hrun
    cases hstep : step J (axiosRequest server fuel) app op with
    | none => simp [hstep] at hrun
    | some app2 =>
      simp only [hstep] at hrun
      simp only [updatesWhileStored, hstep, Bool.and_eq_true, Bool.or_eq_true,
        Bool.not_eq_true'] at hguard
      refine ih app2 app1 (step_allOrNone J server fuel app app2 op hinv ?_ hstep) hguard.2 hrun
      intro userData hop
      rcases hguard.1 with h | h
      · rw [hop] at h
        cases h
      · exact h

/-- Claim C7, as amended: starting from storage without the three session entries, after
every completed sequence of operations (mounting with rehydration, `login`,
`register`, `logout`, `updateUser`, page requests through the 401 refresh path, each
succeeding or failing) in which `updateUser` is only called while an access token is
stored, the entries `access_token`, `refresh_token` and `user` are all present or all
absent. A settled axios call never writes all three: it leaves the refresh-token and
user entries as they were and may rewrite the access-token entry (only while a
refresh token is stored), or it is rejected with all three entries removed. -/
theorem session_entries_all_or_none {U : Type} (J : JSON U) (server : Server U) (fuel : Nat)
    (app app1 : App U) (ops : List (Op U))
    (hempty : getItem app.world.storage "access_token" = none ∧
      getItem app.world.storage "refresh_token" = none ∧
      getItem app.world.storage "user" = none)
    (hguard : updatesWhileStored J (axiosRequest server fuel) app ops = true)
    (hrun : run J (axiosRequest server fuel) app ops = some app1) :
    allOrNone app1.world.storage = true ∧
    ∀ (w : World) (config : Config) (outcome : Settled U) (w1 : World),
      axiosRequest server fuel w config = some (outcome, w1) →
      RefreshEffect w.storage w1.storage outcome := by
  refine ⟨run_allOrNone J server fuel ops app app1 ?_ hguard hrun,
    axiosRequest_refreshEffect server fuel⟩
  simp [allOrNone, hempty.1, hempty.2.1, hempty.2.2]

/-- A session from page load through login, profile update and a page request to
logout completes and ends with the entries all present or all absent. -/
theorem session_entries_all_or_none_witness :
    ∃ app1, run plainJSON (axiosRequest issueTokens 2) ⟨initialState, emptyWorld⟩ sessionOps =
        some app1 ∧
      allOrNone app1.world.storage = true := by
  have hsome : (run plainJSON (axiosRequest issueTokens 2) ⟨initialState, emptyWorld⟩
      sessionOps).isSome = true := by decide
  cases hrun : run plainJSON (axiosRequest issueTokens 2) ⟨initialState, emptyWorld⟩
      sessionOps with
  | none =>
    rw [hrun] at hsome
    cases hsome
  | some app1 =>
    exact ⟨app1, rfl, (session_entries_all_or_none plainJSON issueTokens 2
      ⟨initialState, emptyWorld⟩ app1 sessionOps ⟨rfl, rfl, rfl⟩ (by decide) hrun).1⟩

/-- Claim C7 as stated fails: from empty storage, mounting the provider and calling
`updateUser` while anonymous leaves the user entry present and both token entries
absent. -/
theorem updateUser_anonymous_leaves_partial_state :
    (run plainJSON (axiosRequest badRequest 1) ⟨initialState, emptyWorld⟩
        [Op.mount, Op.updateUser "u1"]).map
      (fun a => (getItem a.world.storage "access_token",
        getItem a.world.storage "refresh_token", getItem a.world.storage "user",
        allOrNone a.world.storage)) =
      some (none, none, some "u1", false) := by
  decide

/-! ## Failure results of `login` and `register`, and rehydration -/

/-- Claim C8, as amended: when the server rejects a login attempt with a status other
than 401 and a (non-empty) detail message `d`, `login` returns
`{success: false, error: d}` and storage after the call equals storage before it
(navigation and provider state are unchanged as well). -/
theorem login_rejected_storage_untouched {U : Type} (J : JSON U) (server : Server U)
    (fuel : Nat) (app : App U) (email password : String) (status : Nat) (d : String)
    (hstatus : status ≠ 401) (hd : d ≠ "")
    (hreply : server app.world.log
        (requestInterceptor app.world.storage (loginRequest email password)) =
      Reply.fail (some ⟨status, some d⟩)) :
    ∃ app1, login J (axiosRequest server (fuel + 1)) app email password =
        some (Except.ok ⟨false, some d⟩, app1) ∧
      app1.world.storage = app.world.storage ∧
      app1.world.href = app.world.href ∧
      app1.auth = app.auth := by
  refine ⟨{ app with world := { app.world with log := app.world.log ++
    [requestInterceptor app.world.storage (loginRequest email password)] } }, ?_, rfl, rfl, rfl⟩
  rw [login, axiosRequest_fail server fuel _ _ _ hreply,
    responseRejected_other _ _ _ (by simpa using hstatus)]
  simp [detailOr, truthy, hd, toStr]

/-- The instance of the specification: HTTP 400 with detail `invalid credentials`. -/
theorem login_rejected_storage_untouched_witness :
    ∃ app1, login plainJSON (axiosRequest badRequest 1) ⟨⟨none, false⟩, emptyWorld⟩
          "ana@loja.com" "wrong" =
        some (Except.ok ⟨false, some "invalid credentials"⟩, app1) ∧
      app1.world.storage = emptyWorld.storage ∧
      app1.world.href = emptyWorld.href ∧
      app1.auth = ⟨none, false⟩ :=
  login_rejected_storage_untouched plainJSON badRequest 0 ⟨⟨none, false⟩, emptyWorld⟩
    "ana@loja.com" "wrong" 400 "invalid credentials" (by decide) (by decide) rfl

/-- Claim C8 as stated fails for status 401: with a session `a0`, `r0`, `u0` in storage, a
login attempt is rejected with 401 and detail `invalid credentials`; the response
interceptor refreshes the token and replays the request, which is rejected again.
`login` returns `{success: false, error: "invalid credentials"}`, but the
access-token entry has changed from `a0` to `a1`. -/
theorem login_unauthorized_rewrites_storage :
    getItem storedWorld.storage "access_token" = some "a0" ∧
    (login plainJSON (axiosRequest wrongPassword 2) ⟨⟨some "u0", false⟩, storedWorld⟩
        "ana@loja.com" "wrong").map
      (fun r => (r.1, getItem r.2.world.storage "access_token")) =
      some (Except.ok ⟨false, some "invalid credentials"⟩, some "a1") :=
  ⟨rfl, rfl⟩

/-- Claim C9: whatever the underlying request settles to, `login` and `register` return
a result and do not raise; when the request was rejected the result is
`{success: false, error: m}`, where `m` is the detail message of the error response
when it carries a non-empty one, and otherwise (no response, no detail, empty detail)
the fixed default `Erro ao fazer login` for `login` and `Erro ao criar conta` for
`register`. -/
theorem login_register_never_raise {U : Type} (J : JSON U) (axios : Axios U) (app : App U)
    (email password : String) (userData : Body) (loginOutcome registerOutcome : Settled U)
    (w1 w2 : World)
    (hlogin : axios app.world (loginRequest email password) = some (loginOutcome, w1))
    (hregister : axios app.world (post "/auth/register" userData) = some (registerOutcome, w2)) :
    (∃ result app1, login J axios app email password = some (Except.ok result, app1) ∧
      ∀ error, loginOutcome = Except.error error →
        result.success = false ∧
        (∀ d, (error.response.bind fun r => r.detail) = some d → d ≠ "" →
          result.error = some d) ∧
        ((error.response.bind fun r => r.detail) = none ∨
          (error.response.bind fun r => r.detail) = some "" →
          result.error = some "Erro ao fazer login")) ∧
    (∃ result app1, register J axios app userData = some (Except.ok result, app1) ∧
      ∀ error, registerOutcome = Except.error error →
        result.success = false ∧
        (∀ d, (error.response.bind fun r => r.detail) = some d → d ≠ "" →
          result.error = some d) ∧
        ((error.response.bind fun r => r.detail) = none ∨
          (error.response.bind fun r => r.detail) = some "" →
          result.error = some "Erro ao criar conta")) := by
  constructor
  · cases loginOutcome with
    | ok response =>
      refine ⟨⟨true, none⟩, (storeSession J app w1 response).2, ?_, ?_⟩
      · simp only [login, hlogin, storeSession]
      · intro error h
        cases h
    | error e =>
      refine ⟨⟨false, some (detailOr e "Erro ao fazer login")⟩, { app with world := w1 }, ?_, ?_⟩
      · simp only [login, hlogin]
      intro error h
      cases h
      refine ⟨rfl, ?_, ?_⟩
      · intro d hd hne
        simp [detailOr, hd, truthy, hne, toStr]
      · rintro (hd | hd) <;> simp [detailOr, hd, truthy]
  · cases registerOutcome with
    | ok response =>
      refine ⟨⟨true, none⟩, (storeSession J app w2 response).2, ?_, ?_⟩
      · simp only [register, hregister, storeSession]
      · intro error h
        cases h
    | error e =>
      refine ⟨⟨false, some (detailOr e "Erro ao criar conta")⟩, { app with world := w2 }, ?_, ?_⟩
      · simp only [register, hregister]
      intro error h
      cases h
      refine ⟨rfl, ?_, ?_⟩
      · intro d hd hne
        simp [detailOr, hd, truthy, hne, toStr]
      · rintro (hd | hd) <;> simp [detailOr, hd, truthy]

/-- Login and registration while the server cannot be reached: both return the
default message of their operation. -/
theorem login_register_never_raise_witness :
    (∃ result app1, login plainJSON (axiosRequest serverDown 1) ⟨⟨none, false⟩, emptyWorld⟩
          "ana@loja.com" "s1" = some (Except.ok result, app1) ∧
      ∀ error, (Except.error ⟨loginRequest "ana@loja.com" "s1", none⟩ : Settled String) =
          Except.error error →
        result.success = false ∧
        (∀ d, (error.response.bind fun r => r.detail) = some d → d ≠ "" →
          result.error = some d) ∧
        ((error.response.bind fun r => r.detail) = none ∨
          (error.response.bind fun r => r.detail) = some "" →
          result.error = some "Erro ao fazer login")) ∧
    (∃ result app1, register plainJSON (axiosRequest serverDown 1) ⟨⟨none, false⟩, emptyWorld⟩
          (Body.object [("email", "ana@loja.com")]) = some (Except.ok result, app1) ∧
      ∀ error, (Except.error ⟨post "/auth/register" (Body.object [("email", "ana@loja.com")]),
          none⟩ : Settled String) = Except.error error →
        result.success = false ∧
        (∀ d, (error.response.bind fun r => r.detail) = some d → d ≠ "" →
          result.error = some d) ∧
        ((error.response.bind fun r => r.detail) = none ∨
          (error.response.bind fun r => r.detail) = some "" →
          result.error = some "Erro ao criar conta")) :=
  login_register_never_raise plainJSON (axiosRequest serverDown 1) ⟨⟨none, false⟩, emptyWorld⟩
    "ana@loja.com" "s1" (Body.object [("email", "ana@loja.com")])
    (Except.error ⟨loginRequest "ana@loja.com" "s1", none⟩)
    (Except.error ⟨post "/auth/register" (Body.object [("email", "ana@loja.com")]), none⟩)
    { emptyWorld with log := [loginRequest "ana@loja.com" "s1"] }
    { emptyWorld with log := [post "/auth/register" (Body.object [("email", "ana@loja.com")])] }
    rfl rfl

/-- Claim C10: when a (non-empty) access token and a (non-empty) user entry are stored
and either the stored user cannot be parsed or the verification call `GET /auth/me`
is rejected with any error, rehydration completes with the three session entries
absent, user absent and loading false. -/
theorem rehydration_failure_clears {U : Type} (J : JSON U) (axios : Axios U) (app : App U)
    (token userData : String)
    (htoken : getItem app.world.storage "access_token" = some token) (htoken_ne : token ≠ "")
    (huser : getItem app.world.storage "user" = some userData) (huser_ne : userData ≠ "")
    (hfail : J.parse userData = none ∨
      ∃ error w, axios app.world (get "/auth/me") = some (Except.error error, w)) :
    ∃ app1, initAuth J axios app = some app1 ∧
      getItem app1.world.storage "access_token" = none ∧
      getItem app1.world.storage "refresh_token" = none ∧
      getItem app1.world.storage "user" = none ∧
      app1.auth.user = none ∧ app1.auth.loading = false := by
  rcases hfail with hparse | ⟨error, w, hme⟩
  · refine ⟨dropSession app.world, ?_, ?_⟩
    · simp [initAuth, htoken, huser, truthy_some htoken_ne, truthy_some huser_ne, toStr_some,
        hparse]
    · simp [dropSession, getItem_clearSession]
  · cases hparse : J.parse userData with
    | none =>
      refine ⟨dropSession app.world, ?_, ?_⟩
      · simp [initAuth, htoken, huser, truthy_some htoken_ne, truthy_some huser_ne, toStr_some,
          hparse]
      · simp [dropSession, getItem_clearSession]
    | some parsed =>
      refine ⟨dropSession w, ?_, ?_⟩
      · simp [initAuth, htoken, huser, truthy_some htoken_ne, truthy_some huser_ne, toStr_some,
          hparse, hme]
      · simp [dropSession, getItem_clearSession]

/-- The scenario of the specification: a stored token and user, and a verification
call that fails because the server cannot be reached. -/
theorem rehydration_failure_clears_witness :
    ∃ app1, initAuth plainJSON (axiosRequest serverDown 1) ⟨initialState, storedWorld⟩ =
        some app1 ∧
      getItem app1.world.storage "access_token" = none ∧
      getItem app1.world.storage "refresh_token" = none ∧
      getItem app1.world.storage "user" = none ∧
      app1.auth.user = none ∧ app1.auth.loading = false :=
  rehydration_failure_clears plainJSON (axiosRequest serverDown 1) ⟨initialState, storedWorld⟩
    "a0" "u0" rfl (by decide) rfl (by decide)
    (Or.inr ⟨⟨{ get "/auth/me" with authorization := some "Bearer a0" }, none⟩,
      { storedWorld with log := [{ get "/auth/me" with authorization := some "Bearer a0" }] },
      rfl⟩)


/-! ## Frame of `updateUser`, the request interceptor and pass-through errors -/

/-- Claim C11: for every provider state (user present or absent, any storage) and every
user record `d`, `updateUser(d)` is a total local operation: it completes whatever
axios would do and sends no request (the log of requests is unchanged), leaves the
in-memory user equal to `d` and the `user` entry equal to the serialization of `d`,
and leaves the access-token entry, the refresh-token entry, the loading flag and
`window.location.href` unchanged. -/
theorem updateUser_local {U : Type} (J : JSON U) (app : App U) (d : U) :
    (updateUser J app d).auth.user = some d ∧
    getItem (updateUser J app d).world.storage "user" = some (J.stringify d) ∧
    getItem (updateUser J app d).world.storage "access_token" =
      getItem app.world.storage "access_token" ∧
    getItem (updateUser J app d).world.storage "refresh_token" =
      getItem app.world.storage "refresh_token" ∧
    (updateUser J app d).auth.loading = app.auth.loading ∧
    (updateUser J app d).world.log = app.world.log ∧
    (updateUser J app d).world.href = app.world.href ∧
    ∀ axios : Axios U, step J axios app (Op.updateUser d) = some (updateUser J app d) := by
  refine ⟨rfl, ?_, ?_, ?_, rfl, rfl, rfl, fun _ => rfl⟩
  · simp [updateUser, getItem_setItem]
  · simp [updateUser, getItem_setItem]
  · simp [updateUser, getItem_setItem]

/-- Claim C12: for every outgoing request configuration `c`, if a (non-empty) access
token `t` is stored the request interceptor returns `c` with `Authorization` set to
`Bearer t` and every other field unchanged, and if none is stored it returns `c`
unmodified. It only reads storage: a request answered with 2xx leaves storage as it
was. -/
theorem requestInterceptor_attaches_bearer {U : Type} (st : Storage) (c : Config) :
    (∀ t, getItem st "access_token" = some t → t ≠ "" →
      requestInterceptor st c = { c with authorization := some ("Bearer " ++ t) }) ∧
    (truthy (getItem st "access_token") = false → requestInterceptor st c = c) ∧
    (∀ (server : Server U) (fuel : Nat) (w : World) (data : Data U), w.storage = st →
      server w.log (requestInterceptor st c) = Reply.ok data →
      ∃ w1, axiosRequest server (fuel + 1) w c =
          some (Except.ok ⟨data, requestInterceptor st c⟩, w1) ∧
        w1.storage = st) := by
  refine ⟨?_, ?_, ?_⟩
  · intro t ht hne
    simp [requestInterceptor, ht, truthy_some hne, toStr_some]
  · intro h
    simp [requestInterceptor, h]
  · intro server fuel w data hst hreply
    subst hst
    exact ⟨_, axiosRequest_ok server fuel w c data hreply, rfl⟩

/-- With the stored token `a0` the header is `Bearer a0`; with empty storage the
request is returned as it came. -/
theorem requestInterceptor_attaches_bearer_witness :
    requestInterceptor storedWorld.storage (get "/accounts") =
      { get "/accounts" with authorization := some "Bearer a0" } ∧
    requestInterceptor emptyWorld.storage (get "/accounts") = get "/accounts" :=
  ⟨(requestInterceptor_attaches_bearer (U := String) storedWorld.storage (get "/accounts")).1
      "a0" rfl (by decide),
    (requestInterceptor_attaches_bearer (U := String) emptyWorld.storage (get "/accounts")).2.1
      rfl⟩

/-- Claim C13: when a request fails with a status other than 401, or with no response
at all, the call is rejected to the caller with exactly that error and nothing else
happens: the request is not marked retried, the only request that reached the server
is the request itself (no refresh call), storage and `window.location.href` are
unchanged. The rejection handler returns any such error and the world as they are,
whatever the nested axios calls would do. -/
theorem other_errors_pass_through {U : Type} (server : Server U) (fuel : Nat)
    (w : World) (config : Config) (response : Option ErrorResponse)
    (hstatus : response.map (fun r => r.status) ≠ some 401)
    (hreply : server w.log (requestInterceptor w.storage config) = Reply.fail response) :
    axiosRequest server (fuel + 1) w config =
      some (Except.error ⟨requestInterceptor w.storage config, response⟩,
        { w with log := w.log ++ [requestInterceptor w.storage config] }) ∧
    (requestInterceptor w.storage config)._retry = config._retry ∧
    ∀ (axios : Axios U) (w0 : World) (error : AxiosError), error.response = response →
      responseRejected axios w0 error = some (Except.error error, w0) := by
  refine ⟨?_, requestInterceptor_retry _ _, ?_⟩
  · rw [axiosRequest_fail server fuel w config _ hreply]
    exact responseRejected_other _ _ _ hstatus
  · intro axios w0 error herror
    exact responseRejected_other axios w0 error (by rw [herror]; exact hstatus)

/-- A page request answered 400 while a session with a refresh token is stored. -/
theorem other_errors_pass_through_witness :
    axiosRequest badRequest 1 storedWorld (get "/accounts") =
      some (Except.error ⟨{ get "/accounts" with authorization := some "Bearer a0" },
          some ⟨400, some "invalid credentials"⟩⟩,
        { storedWorld with
          log := [{ get "/accounts" with authorization := some "Bearer a0" }] }) ∧
    ({ get "/accounts" with authorization := some "Bearer a0" } : Config)._retry = false ∧
    ∀ (axios : Axios String) (w0 : World) (error : AxiosError),
      error.response = some ⟨400, some "invalid credentials"⟩ →
      responseRejected axios w0 error = some (Except.error error, w0) :=
  other_errors_pass_through badRequest 0 storedWorld (get "/accounts")
    (some ⟨400, some "invalid credentials"⟩) (by decide) rfl

/-- Claim C14: a 401 arrives for a request not yet marked retried, and either no
(non-empty) refresh token is stored or the refresh call is rejected with any error.
Then the response interceptor rejects to the caller with the original error of the
original request: its 401 response and its configuration, on which the interceptor
has set `_retry`. The error raised by the refresh call does not appear in it. -/
theorem refresh_failure_propagates_original {U : Type} (axios : Axios U) (w : World)
    (error : AxiosError) (detail : Option String)
    (hstatus : error.response = some ⟨401, detail⟩)
    (hretry : error.config._retry = false)
    (hfail : truthy (getItem w.storage "refresh_token") = false ∨
      ∃ refreshError w1,
        axios w (refreshRequest (toStr (getItem w.storage "refresh_token"))) =
          some (Except.error refreshError, w1)) :
    ∃ w2, responseRejected axios w error =
      some (Except.error { config := { error.config with _retry := true },
                           response := some ⟨401, detail⟩ }, w2) := by
  cases htruthy : truthy (getItem w.storage "refresh_token") with
  | false =>
    exact ⟨forceLogin w, by simp [responseRejected, hstatus, hretry, htruthy]⟩
  | true =>
    rcases hfail with hfalse | ⟨refreshError, w1, hcall⟩
    · rw [htruthy] at hfalse
      cases hfalse
    · exact ⟨forceLogin w1, by simp [responseRejected, hstatus, hretry, htruthy, hcall]⟩

/-- The refresh call fails with a network error; the caller still gets the 401. -/
theorem refresh_failure_propagates_original_witness :
    ∃ w2, responseRejected (axiosRequest (serverDown : Server String) 1) storedWorld
        ⟨get "/accounts", some ⟨401, some "expired"⟩⟩ =
      some (Except.error { config := { get "/accounts" with _retry := true },
                           response := some ⟨401, some "expired"⟩ }, w2) :=
  refresh_failure_propagates_original (axiosRequest (serverDown : Server String) 1) storedWorld
    ⟨get "/accounts", some ⟨401, some "expired"⟩⟩ (some "expired") rfl rfl
    (Or.inr ⟨⟨{ refreshRequest "r0" with authorization := some "Bearer a0" }, none⟩,
      { storedWorld with log := [{ refreshRequest "r0" with authorization := some "Bearer a0" }] },
      rfl⟩)

/-- Claim C15: a 401 arrives for a request not yet marked retried while a (non-empty)
refresh token is stored, and the refresh call is fulfilled with new access token
`a1`. Then the interceptor's result is the replay issued in a world whose
`access_token` entry equals `a1`, with the original request's `Authorization` header
equal to `Bearer a1` (also after the request interceptor has run on the replay); the
`refresh_token` and `user` entries are the same as before the refresh call. -/
theorem refresh_success_before_replay {U : Type} (server : Server U) (fuel : Nat) (w w1 : World)
    (error : AxiosError) (detail : Option String) (refreshToken a1 : String)
    (response : Response U)
    (hstatus : error.response = some ⟨401, detail⟩)
    (hretry : error.config._retry = false)
    (htoken : getItem w.storage "refresh_token" = some refreshToken)
    (hne : refreshToken ≠ "")
    (hrefresh : axiosRequest server fuel w (refreshRequest refreshToken) =
      some (Except.ok response, w1))
    (hfresh : response.data.access_token = some a1) :
    responseRejected (axiosRequest server fuel) w error =
      axiosRequest server fuel
        { w1 with storage := setItem w1.storage "access_token" a1 }
        { error.config with _retry := true, authorization := some ("Bearer " ++ a1) } ∧
    getItem (setItem w1.storage "access_token" a1) "access_token" = some a1 ∧
    (requestInterceptor (setItem w1.storage "access_token" a1)
      { error.config with _retry := true,
                          authorization := some ("Bearer " ++ a1) }).authorization =
      some ("Bearer " ++ a1) ∧
    getItem (setItem w1.storage "access_token" a1) "refresh_token" =
      getItem w.storage "refresh_token" ∧
    getItem (setItem w1.storage "access_token" a1) "user" = getItem w.storage "user" := by
  have heffect := axiosRequest_refreshEffect server fuel _ _ _ _ hrefresh
  have hsame : getItem w1.storage "refresh_token" = getItem w.storage "refresh_token" ∧
      getItem w1.storage "user" = getItem w.storage "user" := by
    rcases heffect with ⟨hr, hu, _⟩ | ⟨⟨e, he⟩, _⟩
    · exact ⟨hr, hu⟩
    · cases he
  refine ⟨?_, ?_, ?_, ?_, ?_⟩
  · simp [responseRejected, hstatus, hretry, htoken, truthy_some hne, toStr_some, hrefresh,
      hfresh]
  · simp [getItem_setItem]
  · by_cases ha : a1 = ""
    · simp [requestInterceptor, getItem_setItem, truthy, ha]
    · simp [requestInterceptor, getItem_setItem, truthy, ha, toStr]
  · simpa [getItem_setItem] using hsame.1
  · simpa [getItem_setItem] using hsame.2


/-- The expired token `a0` is refreshed to `a1` before the replay. -/
theorem refresh_success_before_replay_witness :
    responseRejected (axiosRequest expiredAccess 1) storedWorld
        ⟨{ get "/accounts" with authorization := some "Bearer a0" }, some ⟨401, some "expired"⟩⟩ =
      axiosRequest expiredAccess 1
        { storedWorld with
          log := [{ refreshRequest "r0" with authorization := some "Bearer a0" }],
          storage := setItem storedWorld.storage "access_token" "a1" }
        { get "/accounts" with _retry := true, authorization := some ("Bearer " ++ "a1") } ∧
    getItem (setItem storedWorld.storage "access_token" "a1") "access_token" = some "a1" ∧
    (requestInterceptor (setItem storedWorld.storage "access_token" "a1")
      { get "/accounts" with _retry := true,
                             authorization := some ("Bearer " ++ "a1") }).authorization =
      some ("Bearer " ++ "a1") ∧
    getItem (setItem storedWorld.storage "access_token" "a1") "refresh_token" =
      getItem storedWorld.storage "refresh_token" ∧
    getItem (setItem storedWorld.storage "access_token" "a1") "user" =
      getItem storedWorld.storage "user" :=
  refresh_success_before_replay expiredAccess 1 storedWorld
    { storedWorld with log := [{ refreshRequest "r0" with authorization := some "Bearer a0" }] }
    ⟨{ get "/accounts" with authorization := some "Bearer a0" }, some ⟨401, some "expired"⟩⟩
    (some "expired") "r0" "a1"
    ⟨⟨some "a1", none, none⟩, { refreshRequest "r0" with authorization := some "Bearer a0" }⟩
    rfl rfl rfl (by decide) rfl rfl

/-- The first request a settled axios call puts on the log is the call's own request as
the request interceptor left it; nothing is ever removed from the log. -/
theorem axiosRequest_log {U : Type} (server : Server U) (fuel : Nat) :
    ∀ (w : World) (config : Config) (outcome : Settled U) (w1 : World),
      axiosRequest server fuel w config = some (outcome, w1) →
      ∃ rest, w1.log = w.log ++ requestInterceptor w.storage config :: rest := by
  induction fuel with
  | zero => intro w config outcome w1 h; cases h
  | succ fuel ih =>
    intro w config outcome w1 h
    cases hreply : server w.log (requestInterceptor w.storage config) with
    | ok data =>
      rw [axiosRequest_ok server fuel w config data hreply] at h
      cases h
      exact ⟨[], rfl⟩
    | fail response =>
      rw [axiosRequest_fail server fuel w config response hreply] at h
      unfold responseRejected at h
      simp only at h
      split at h
      · split at h
        · split at h
          · cases h
          · rename_i response1 wa hcall
            obtain ⟨rest1, h1⟩ := ih _ _ _ _ hcall
            obtain ⟨rest2, h2⟩ := ih _ _ _ _ h
            rw [h2]
            simp only at h1 ⊢
            rw [h1]
            simp only [List.append_assoc, List.cons_append, List.nil_append]
            exact ⟨_, rfl⟩
          · rename_i e wa hcall
            obtain ⟨rest1, h1⟩ := ih _ _ _ _ hcall
            cases h
            simp only [forceLogin]
            simp only at h1
            rw [h1]
            simp only [List.append_assoc, List.cons_append, List.nil_append]
            exact ⟨_, rfl⟩
        · cases h
          exact ⟨[], rfl⟩
      · cases h
        exact ⟨[], rfl⟩

/-- The `transformRequest` of `login` applied to `{username, password}`. -/
theorem transformRequest_login (email password : String) :
    transformRequest [("username", email), ("password", password)] =
      "username=" ++ encodeURIComponent email ++ "&password=" ++ encodeURIComponent password := by
  have h1 : encodeURIComponent "username" = "username" := by decide
  have h2 : encodeURIComponent "password" = "password" := by decide
  simp only [transformRequest, List.map, h1, h2, String.intercalate, String.intercalate.go]
  simp only [String.append_assoc]
  rfl

/-- Claim C16: for every email `e` and password `p`, whenever `login` completes, the
request it submitted (the first request it put on the log) is a POST to `/auth/login`
whose body is the string `username=` + `encodeURIComponent(e)` + `&password=` +
`encodeURIComponent(p)` (a text body, not an object to be JSON-encoded), sent with
`Content-Type: application/x-www-form-urlencoded`. -/
theorem login_body_form_encoded {U : Type} (J : JSON U) (server : Server U) (fuel : Nat)
    (app app1 : App U) (email password : String) (result : Except AxiosError AuthResult)
    (hlogin : login J (axiosRequest server fuel) app email password = some (result, app1)) :
    ∃ sent rest, app1.world.log = app.world.log ++ sent :: rest ∧
      sent.method = "post" ∧ sent.url = "/auth/login" ∧
      sent.data = Body.text ("username=" ++ encodeURIComponent email ++ "&password=" ++
        encodeURIComponent password) ∧
      sent.contentType = some "application/x-www-form-urlencoded" := by
  have hsent : ∀ st : Storage,
      (requestInterceptor st (loginRequest email password)).method = "post" ∧
      (requestInterceptor st (loginRequest email password)).url = "/auth/login" ∧
      (requestInterceptor st (loginRequest email password)).data =
        Body.text ("username=" ++ encodeURIComponent email ++ "&password=" ++
          encodeURIComponent password) ∧
      (requestInterceptor st (loginRequest email password)).contentType =
        some "application/x-www-form-urlencoded" := by
    intro st
    rw [← transformRequest_login]
    simp only [requestInterceptor]
    split <;> exact ⟨rfl, rfl, rfl, rfl⟩
  cases hcall : axiosRequest server fuel app.world (loginRequest email password) with
  | none => simp [login, hcall] at hlogin
  | some r =>
    obtain ⟨outcome, w⟩ := r
    obtain ⟨rest, hlog⟩ := axiosRequest_log server fuel _ _ _ _ hcall
    refine ⟨_, rest, ?_, hsent app.world.storage⟩
    cases outcome with
    | ok response =>
      simp only [login, hcall, storeSession, Option.some.injEq, Prod.mk.injEq] at hlogin
      rw [← hlogin.2]
      exact hlog
    | error e =>
      simp only [login, hcall, Option.some.injEq, Prod.mk.injEq] at hlogin
      rw [← hlogin.2]
      exact hlog


/-- A password containing `&` and `=` is percent-encoded in the submitted body. -/
theorem login_body_form_encoded_witness :
    ∃ sent rest,
      ({ auth := ⟨none, false⟩,
         world := { emptyWorld with log := [loginRequest "ana@loja.com" "p&q=1"] } } :
        App String).world.log = emptyWorld.log ++ sent :: rest ∧
      sent.method = "post" ∧ sent.url = "/auth/login" ∧
      sent.data = Body.text ("username=" ++ encodeURIComponent "ana@loja.com" ++ "&password=" ++
        encodeURIComponent "p&q=1") ∧
      sent.contentType = some "application/x-www-form-urlencoded" :=
  login_body_form_encoded plainJSON badRequest 1 ⟨⟨none, false⟩, emptyWorld⟩
    { auth := ⟨none, false⟩,
      world := { emptyWorld with log := [loginRequest "ana@loja.com" "p&q=1"] } }
    "ana@loja.com" "p&q=1" (Except.ok ⟨false, some "invalid credentials"⟩) rfl

/-- Claim C17: for every `register` call whose request is fulfilled with access token
`a`, refresh token `r` and user `u`, `register` returns `{success: true}`, the entries
`access_token`, `refresh_token` and `user` hold `a`, `r` and the serialization of `u`,
and the in-memory user is `u`. -/
theorem register_success_stores_session {U : Type} (J : JSON U) (axios : Axios U) (app : App U)
    (userData : Body) (response : Response U) (w : World) (a r : String) (u : U)
    (hcall : axios app.world (post "/auth/register" userData) = some (Except.ok response, w))
    (hdata : response.data = ⟨some a, some r, some u⟩) :
    ∃ app1, register J axios app userData = some (Except.ok ⟨true, none⟩, app1) ∧
      getItem app1.world.storage "access_token" = some a ∧
      getItem app1.world.storage "refresh_token" = some r ∧
      getItem app1.world.storage "user" = some (J.stringify u) ∧
      app1.auth.user = some u := by
  refine ⟨(storeSession J app w response).2, ?_, ?_, ?_, ?_, ?_⟩
  · simp only [register, hcall, storeSession]
  · simp [storeSession, getItem_setItem, hdata, toStr]
  · simp [storeSession, getItem_setItem, hdata, toStr]
  · simp [storeSession, getItem_setItem, hdata, toStr]
  · simp [storeSession, hdata]

/-- A registration accepted by the server. -/
theorem register_success_stores_session_witness :
    ∃ app1, register plainJSON (axiosRequest issueTokens 1) ⟨⟨none, false⟩, emptyWorld⟩
          (Body.object [("email", "ana@loja.com")]) = some (Except.ok ⟨true, none⟩, app1) ∧
      getItem app1.world.storage "access_token" = some "a0" ∧
      getItem app1.world.storage "refresh_token" = some "r0" ∧
      getItem app1.world.storage "user" = some (plainJSON.stringify "u0") ∧
      app1.auth.user = some "u0" :=
  register_success_stores_session plainJSON (axiosRequest issueTokens 1)
    ⟨⟨none, false⟩, emptyWorld⟩ (Body.object [("email", "ana@loja.com")])
    ⟨⟨some "a0", some "r0", some "u0"⟩, post "/auth/register" (Body.object [("email", "ana@loja.com")])⟩
    { emptyWorld with log := [post "/auth/register" (Body.object [("email", "ana@loja.com")])] }
    "a0" "r0" "u0" rfl rfl

/-- Claim C19: when the access token or the stored user is absent (or empty) at
construction, mounting the provider ends with user absent and loading false and
leaves the world exactly as it was, whatever axios would do: no request is sent,
storage and navigation are untouched. -/
theorem rehydration_nothing_to_restore {U : Type} (J : JSON U) (axios : Axios U) (w : World)
    (habsent : truthy (getItem w.storage "access_token") = false ∨
      truthy (getItem w.storage "user") = false) :
    mount J axios w = some { auth := { user := none, loading := false }, world := w } := by
  rcases habsent with h | h <;> simp [mount, initAuth, initialState, h]

/-- Mounting over empty storage. -/
theorem rehydration_nothing_to_restore_witness :
    mount plainJSON (axiosRequest issueTokens 1) emptyWorld =
      some { auth := { user := none, loading := false }, world := emptyWorld } :=
  rehydration_nothing_to_restore plainJSON (axiosRequest issueTokens 1) emptyWorld (Or.inl rfl)

/-- Every completed `initAuth` ends with loading false. -/
theorem initAuth_loading {U : Type} (J : JSON U) (axios : Axios U) (app app1 : App U)
    (h : initAuth J axios app = some app1) : app1.auth.loading = false := by
  simp only [initAuth] at h
  split at h
  · split at h
    · cases h; rfl
    · split at h
      · cases h
      · cases h; rfl
      · cases h; rfl
  · cases h; rfl

/-- No operation other than mounting changes the loading flag. -/
theorem step_loading {U : Type} (J : JSON U) (axios : Axios U) (app app1 : App U) (op : Op U)
    (hop : op ≠ Op.mount) (h : step J axios app op = some app1) :
    app1.auth.loading = app.auth.loading := by
  cases op with
  | mount => exact absurd rfl hop
  | login email password =>
    simp only [step, login] at h
    split at h
    · cases h
    · cases h; rfl
    · cases h; rfl
  | register userData =>
    simp only [step, register] at h
    split at h
    · cases h
    · cases h; rfl
    · cases h; rfl
  | logout =>
    simp only [step, logout] at h
    split at h
    · cases h
    · cases h; rfl
  | updateUser userData =>
    simp only [step] at h
    cases h; rfl
  | request config =>
    simp only [step] at h
    cases hcall : axios app.world config with
    | none => simp [hcall] at h
    | some r =>
      simp only [hcall, Option.map_some'] at h
      cases h; rfl

/-- Once false, the loading flag is false after every completed sequence of operations. -/
theorem run_loading {U : Type} (J : JSON U) (axios : Axios U) (ops : List (Op U)) :
    ∀ (app app1 : App U), app.auth.loading = false → run J axios app ops = some app1 →
      app1.auth.loading = false := by
  induction ops with
  | nil => intro app app1 h hrun; cases hrun; exact h
  | cons op rest ih =>
    intro app app1 h hrun
    simp only [run] at hrun
    cases hstep : step J axios app op with
    | none => simp [hstep] at hrun
    | some app2 =>
      simp only [hstep] at hrun
      refine ih app2 app1 ?_ hrun
      by_cases hop : op = Op.mount
      · subst hop
        exact initAuth_loading J axios _ _ hstep
      · rw [step_loading J axios app app2 op hop hstep]
        exact h

/-- Claim C20: the loading flag is true in the initial state; it is false once the
rehydration of a mounted provider has completed, on every branch; no other operation
(`login`, `register`, `logout`, `updateUser`, a page request through the refresh
path) changes it; so after mounting and any completed sequence of operations it is
false. -/
theorem loading_only_during_rehydration {U : Type} (J : JSON U) (axios : Axios U) :
    (initialState : AuthState U).loading = true ∧
    (∀ (w : World) (app1 : App U), mount J axios w = some app1 → app1.auth.loading = false) ∧
    (∀ (app app1 : App U) (op : Op U), op ≠ Op.mount → step J axios app op = some app1 →
      app1.auth.loading = app.auth.loading) ∧
    (∀ (w : World) (ops : List (Op U)) (app1 : App U),
      run J axios ⟨initialState, w⟩ (Op.mount :: ops) = some app1 →
      app1.auth.loading = false) := by
  refine ⟨rfl, fun w app1 h => initAuth_loading J axios _ _ h,
    fun app app1 op hop h => step_loading J axios app app1 op hop h, ?_⟩
  intro w ops app1 hrun
  simp only [run] at hrun
  cases hstep : step J axios ⟨initialState, w⟩ Op.mount with
  | none => simp [hstep] at hrun
  | some app2 =>
    simp only [hstep] at hrun
    exact run_loading J axios ops app2 app1 (initAuth_loading J axios _ _ hstep) hrun

/-- A whole session from page load to logout ends with loading false. -/
theorem loading_only_during_rehydration_witness :
    ∃ app1, run plainJSON (axiosRequest issueTokens 2) ⟨initialState, emptyWorld⟩ sessionOps =
        some app1 ∧
      app1.auth.loading = false := by
  have hsome : (run plainJSON (axiosRequest issueTokens 2) ⟨initialState, emptyWorld⟩
      sessionOps).isSome = true := by decide
  cases hrun : run plainJSON (axiosRequest issueTokens 2) ⟨initialState, emptyWorld⟩
      sessionOps with
  | none =>
    rw [hrun] at hsome
    cases hsome
  | some app1 =>
    exact ⟨app1, rfl, (loading_only_during_rehydration plainJSON
      (axiosRequest issueTokens 2)).2.2.2 emptyWorld sessionOps.tail app1 hrun⟩

/-! ## The hook `useAuth` -/

/-- Claim C22: `useAuth` raises the error `useAuth must be used within an AuthProvider`
when there is no provider above the caller (the context value is absent); inside the
provider it returns the provider's value `{user, loading, login, register, logout,
updateUser}` unchanged; and whenever it returns a value, that value is the one a
provider supplied, never a default. -/
theorem useAuth_requires_provider {U : Type} (J : JSON U) (axios : Axios U) (app : App U) :
    useAuth (none : Option (ContextValue U)) =
      Except.error "useAuth must be used within an AuthProvider" ∧
    useAuth (some (providerValue J axios app)) = Except.ok (providerValue J axios app) ∧
    (useAuth (some (providerValue J axios app))).toOption.map (fun v => (v.user, v.loading)) =
      some (app.auth.user, app.auth.loading) ∧
    ∀ (context : Option (ContextValue U)) (value : ContextValue U),
      useAuth context = Except.ok value → context = some value := by
  refine ⟨rfl, rfl, rfl, ?_⟩
  intro context value h
  cases context with
  | none => cases h
  | some v =>
    simp only [useAuth, Except.ok.injEq] at h
    rw [h]

/-- Inside a provider over an anonymous state the hook returns that state. -/
theorem useAuth_requires_provider_witness :
    (useAuth (some (providerValue plainJSON (axiosRequest serverDown 1)
        ⟨⟨none, false⟩, emptyWorld⟩))).toOption.map (fun v => (v.user, v.loading)) =
      some (none, false) :=
  (useAuth_requires_provider plainJSON (axiosRequest serverDown 1)
    ⟨⟨none, false⟩, emptyWorld⟩).2.2.1

/-! ## When the in-memory user is set -/

/-- An operation that neither establishes a session nor is an `updateUser` leaves an
absent user absent. -/
theorem step_user_absent {U : Type} (J : JSON U) (axios : Axios U) (app app1 : App U)
    (op : Op U) (huser : app.auth.user = none)
    (hest : establishes J axios app op = false) (hupd : op.isUpdateUser = false)
    (hstep : step J axios app op = some app1) : app1.auth.user = none := by
  cases op with
  | mount =>
    simp only [step, mount, initAuth] at hstep
    simp only [establishes, initAuthAwaiting] at hest
    split at hstep
    · rename_i hcond
      simp only [hcond, if_true] at hest
      split at hstep
      · cases hstep; rfl
      · rename_i parsed hparse
        simp only [hparse] at hest
        split at hstep
        · cases hstep
        · rename_i hcall
          simp [hcall] at hest
        · cases hstep; rfl
    · cases hstep; rfl
  | login email password =>
    simp only [step, login] at hstep
    simp only [establishes, login] at hest
    split at hstep
    · cases hstep
    · rename_i hcall
      simp [hcall, storeSession] at hest
    · cases hstep; exact huser
  | register userData =>
    simp only [step, register] at hstep
    simp only [establishes, register] at hest
    split at hstep
    · cases hstep
    · rename_i hcall
      simp [hcall, storeSession] at hest
    · cases hstep; exact huser
  | logout =>
    simp only [step, logout] at hstep
    split at hstep
    · cases hstep
    · cases hstep; rfl
  | updateUser userData => cases hupd
  | request config =>
    simp only [step] at hstep
    cases hcall : axios app.world config with
    | none => simp [hcall] at hstep
    | some r =>
      simp only [hcall, Option.map_some'] at hstep
      cases hstep; exact huser

/-- Claim C21, as amended: in every state reached by completed operations in which no
login, no registration and no restoration from durable storage has succeeded and
`updateUser` has not been called, the in-memory user is absent. While a rehydration
attempt awaits its verification call, the in-memory user is already the value parsed
from the stored `user` entry. -/
theorem user_absent_until_established {U : Type} (J : JSON U) (axios : Axios U)
    (ops : List (Op U)) :
    (∀ (app app1 : App U), app.auth.user = none →
      nothingEstablished J axios app ops = true →
      run J axios app ops = some app1 → app1.auth.user = none) ∧
    ∀ (app : App U) (token text : String) (parsed : Option U),
      getItem app.world.storage "access_token" = some token → token ≠ "" →
      getItem app.world.storage "user" = some text → text ≠ "" →
      J.parse text = some parsed →
      initAuthAwaiting J app = some { app.auth with user := parsed } := by
  constructor
  · induction ops with
    | nil =>
      intro app app1 huser _ hrun
      cases hrun
      exact huser
    | cons op rest ih =>
      intro app app1 huser hnone hrun
      simp only [run] at hrun
      cases hstep : step J axios app op with
      | none => simp [hstep] at hrun
      | some app2 =>
        simp only [hstep] at hrun
        simp only [nothingEstablished, hstep, Bool.and_eq_true, Bool.not_eq_true'] at hnone
        exact ih app2 app1
          (step_user_absent J axios app app2 op huser hnone.1.1 hnone.1.2 hstep) hnone.2 hrun
  · intro app token text parsed htoken htoken_ne huser huser_ne hparse
    simp [initAuthAwaiting, htoken, huser, truthy_some htoken_ne, truthy_some huser_ne,
      toStr_some, hparse]

/-- A failed login, a page request and a logout after mounting over empty storage leave
the user absent; over a stored session the user is set while verification is awaited. -/
theorem user_absent_until_established_witness :
    (∀ app1 : App String,
      run plainJSON (axiosRequest badRequest 1) ⟨initialState, emptyWorld⟩
          [Op.mount, Op.login "ana@loja.com" "wrong", Op.request (get "/accounts"),
            Op.logout] = some app1 →
      app1.auth.user = none) ∧
    initAuthAwaiting plainJSON ⟨initialState, storedWorld⟩ =
      some { (initialState : AuthState String) with user := some "u0" } :=
  ⟨fun app1 hrun =>
      (user_absent_until_established plainJSON (axiosRequest badRequest 1)
        [Op.mount, Op.login "ana@loja.com" "wrong", Op.request (get "/accounts"),
          Op.logout]).1 ⟨initialState, emptyWorld⟩ app1 rfl (by decide) hrun,
    (user_absent_until_established plainJSON (axiosRequest badRequest 1) []).2
      ⟨initialState, storedWorld⟩ "a0" "u0" (some "u0") rfl (by decide) rfl (by decide) rfl⟩

/-- Claim C21 as stated fails in both cases it names. Mounting over empty storage and
calling `updateUser` leaves the user present although nothing has established a
session; and over a stored session the user is present while the rehydration attempt
still awaits verification (loading is still true). -/
theorem user_present_before_any_success :
    (run plainJSON (axiosRequest serverDown 1) ⟨initialState, emptyWorld⟩
        [Op.mount, Op.updateUser "u1"]).map (fun a => a.auth.user) = some (some "u1") ∧
    establishes plainJSON (axiosRequest serverDown 1) ⟨initialState, emptyWorld⟩ Op.mount =
      false ∧
    establishes plainJSON (axiosRequest serverDown 1) ⟨⟨none, false⟩, emptyWorld⟩
      (Op.updateUser "u1") = false ∧
    initAuthAwaiting plainJSON ⟨initialState, storedWorld⟩ = some ⟨some "u0", true⟩ := by
  decide

/-! ## Navigation -/

/-- A request already marked retried never navigates. -/
theorem axiosRequest_retried_href {U : Type} (server : Server U) (fuel : Nat) (w w1 : World)
    (config : Config) (outcome : Settled U) (hretry : config._retry = true)
    (h : axiosRequest server fuel w config = some (outcome, w1)) : w1.href = w.href := by
  cases fuel with
  | zero => cases h
  | succ fuel =>
    cases hreply : server w.log (requestInterceptor w.storage config) with
    | ok data =>
      rw [axiosRequest_ok server fuel w config data hreply] at h
      cases h
      rfl
    | fail response =>
      rw [axiosRequest_fail server fuel w config response hreply] at h
      simp [responseRejected, requestInterceptor_retry, hretry] at h
      rw [← h.2]

/-- A fulfilled axios call never navigates. -/
theorem axiosRequest_fulfilled_href {U : Type} (server : Server U) (fuel : Nat) :
    ∀ (w w1 : World) (config : Config) (response : Response U),
      axiosRequest server fuel w config = some (Except.ok response, w1) →
      w1.href = w.href := by
  induction fuel with
  | zero => intro w w1 config response h; cases h
  | succ fuel ih =>
    intro w w1 config response h
    cases hreply : server w.log (requestInterceptor w.storage config) with
    | ok data =>
      rw [axiosRequest_ok server fuel w config data hreply] at h
      cases h
      rfl
    | fail failure =>
      rw [axiosRequest_fail server fuel w config failure hreply] at h
      unfold responseRejected at h
      simp only at h
      split at h
      · split at h
        · split at h
          · cases h
          · rename_i response1 wa hcall
            have h1 := ih _ _ _ _ hcall
            have h2 := ih _ _ _ _ h
            rw [h2]
            exact h1
          · cases h
        · cases h
      · cases h

/-- The only value a settled axios call ever assigns to `window.location.href` is
`/login`. -/
theorem axiosRequest_href_login {U : Type} (server : Server U) (fuel : Nat) :
    ∀ (w w1 : World) (config : Config) (outcome : Settled U),
      axiosRequest server fuel w config = some (outcome, w1) →
      ∃ n, w1.href = w.href ++ List.replicate n "/login" := by
  induction fuel with
  | zero => intro w w1 config outcome h; cases h
  | succ fuel ih =>
    intro w w1 config outcome h
    cases hreply : server w.log (requestInterceptor w.storage config) with
    | ok data =>
      rw [axiosRequest_ok server fuel w config data hreply] at h
      cases h
      exact ⟨0, by simp⟩
    | fail failure =>
      rw [axiosRequest_fail server fuel w config failure hreply] at h
      unfold responseRejected at h
      simp only at h
      split at h
      · split at h
        · split at h
          · cases h
          · rename_i response1 wa hcall
            obtain ⟨n1, h1⟩ := ih _ _ _ _ hcall
            obtain ⟨n2, h2⟩ := ih _ _ _ _ h
            refine ⟨n1 + n2, ?_⟩
            rw [h2]
            simp only at h1 ⊢
            rw [h1, List.append_assoc, List.append_replicate_replicate]
          · rename_i refreshError wa hcall
            obtain ⟨n1, h1⟩ := ih _ _ _ _ hcall
            cases h
            refine ⟨n1 + 1, ?_⟩
            simp only [forceLogin]
            simp only at h1
            rw [h1, List.append_assoc]
            congr 1
            exact (List.replicate_succ' n1 "/login").symm
        · cases h
          exact ⟨1, by simp [forceLogin]⟩
      · cases h
        exact ⟨0, by simp⟩

/-- Claim C23: navigation state changes only on the forced-logout path. If a settled
axios call has changed `window.location.href`, then its request was answered 401
while not marked retried, and either no (non-empty) refresh token was stored or the
refresh call was rejected; the call itself is rejected. In particular non-401
failures, 401s on retried requests and fulfilled calls leave navigation unchanged.
The provider's own code never navigates: after `login`, `register`, `logout`,
`updateUser`, mounting or a page request, `href` is unchanged or is what the single
axios call of that operation left, so the `catch` blocks of `login`, `register`,
`logout` and of rehydration add nothing. Every value assigned is `/login`. -/
theorem navigation_only_on_forced_logout {U : Type} (J : JSON U) (server : Server U)
    (fuel : Nat) :
    (∀ (w w1 : World) (config : Config) (outcome : Settled U),
      axiosRequest server (fuel + 1) w config = some (outcome, w1) → w1.href ≠ w.href →
      (∃ detail, server w.log (requestInterceptor w.storage config) =
        Reply.fail (some ⟨401, detail⟩)) ∧
      config._retry = false ∧
      (truthy (getItem w.storage "refresh_token") = false ∨
        ∃ refreshError wr,
          axiosRequest server fuel
              { w with log := w.log ++ [requestInterceptor w.storage config] }
              (refreshRequest (toStr (getItem w.storage "refresh_token"))) =
            some (Except.error refreshError, wr)) ∧
      ∃ error, outcome = Except.error error) ∧
    (∀ (w w1 : World) (config : Config) (outcome : Settled U),
      axiosRequest server fuel w config = some (outcome, w1) →
      ∃ n, w1.href = w.href ++ List.replicate n "/login") ∧
    ∀ (axios : Axios U) (app app1 : App U) (op : Op U), step J axios app op = some app1 →
      app1.world.href = app.world.href ∨
      ∃ config outcome w1, axios app.world config = some (outcome, w1) ∧
        app1.world.href = w1.href := by
  refine ⟨?_, axiosRequest_href_login server fuel, ?_⟩
  · intro w w1 config outcome h hne
    cases hreply : server w.log (requestInterceptor w.storage config) with
    | ok data =>
      rw [axiosRequest_ok server fuel w config data hreply] at h
      cases h
      exact absurd rfl hne
    | fail failure =>
      rw [axiosRequest_fail server fuel w config failure hreply] at h
      unfold responseRejected at h
      simp only at h
      split at h
      · rename_i hcond
        have hstatus : ∃ detail, failure = some ⟨401, detail⟩ := by
          cases failure with
          | none => simp at hcond
          | some r =>
            obtain ⟨status, detail⟩ := r
            simp at hcond
            exact ⟨detail, by rw [hcond.1]⟩
        obtain ⟨detail, hfailure⟩ := hstatus
        have hretry : config._retry = false := by
          have := hcond.2
          simpa [requestInterceptor_retry] using this
        split at h
        · split at h
          · cases h
          · rename_i response1 wa hcall
            have h1 := axiosRequest_fulfilled_href server fuel _ _ _ _ hcall
            have h2 := axiosRequest_retried_href server fuel _ _ _ _ rfl h
            exact absurd (by rw [h2]; exact h1) hne
          · rename_i refreshError wa hcall
            cases h
            exact ⟨⟨detail, by rw [hfailure]⟩, hretry, Or.inr ⟨refreshError, wa, hcall⟩, _, rfl⟩
        · rename_i htruthy
          cases h
          exact ⟨⟨detail, by rw [hfailure]⟩, hretry, Or.inl (by simpa using htruthy), _, rfl⟩
      · cases h
        exact absurd rfl hne
  · intro axios app app1 op hstep
    cases op with
    | mount =>
      simp only [step, mount, initAuth] at hstep
      split at hstep
      · split at hstep
        · cases hstep
          exact Or.inl rfl
        · split at hstep
          · cases hstep
          · rename_i hcall
            cases hstep
            exact Or.inr ⟨_, _, _, hcall, rfl⟩
          · rename_i hcall
            cases hstep
            exact Or.inr ⟨_, _, _, hcall, rfl⟩
      · cases hstep
        exact Or.inl rfl
    | login email password =>
      simp only [step, login] at hstep
      split at hstep
      · cases hstep
      · rename_i hcall
        cases hstep
        exact Or.inr ⟨_, _, _, hcall, rfl⟩
      · rename_i hcall
        cases hstep
        exact Or.inr ⟨_, _, _, hcall, rfl⟩
    | register userData =>
      simp only [step, register] at hstep
      split at hstep
      · cases hstep
      · rename_i hcall
        cases hstep
        exact Or.inr ⟨_, _, _, hcall, rfl⟩
      · rename_i hcall
        cases hstep
        exact Or.inr ⟨_, _, _, hcall, rfl⟩
    | logout =>
      simp only [step, logout] at hstep
      split at hstep
      · cases hstep
      · rename_i hcall
        cases hstep
        exact Or.inr ⟨_, _, _, hcall, rfl⟩
    | updateUser userData =>
      simp only [step] at hstep
      cases hstep
      exact Or.inl rfl
    | request config =>
      simp only [step] at hstep
      cases hcall : axios app.world config with
      | none => simp [hcall] at hstep
      | some r =>
        obtain ⟨outcome, w1⟩ := r
        simp only [hcall, Option.map_some'] at hstep
        cases hstep
        exact Or.inr ⟨config, outcome, w1, hcall, rfl⟩

/-- A 401 with no refresh token stored is what changed navigation here. -/
theorem navigation_only_on_forced_logout_witness :
    (∃ detail, alwaysUnauthorized noRefreshWorld.log
        (requestInterceptor noRefreshWorld.storage (get "/accounts")) =
      Reply.fail (some ⟨401, detail⟩)) ∧
    (get "/accounts")._retry = false ∧
    (truthy (getItem noRefreshWorld.storage "refresh_token") = false ∨
      ∃ refreshError wr,
        axiosRequest alwaysUnauthorized 0
            { noRefreshWorld with log := noRefreshWorld.log ++
              [requestInterceptor noRefreshWorld.storage (get "/accounts")] }
            (refreshRequest (toStr (getItem noRefreshWorld.storage "refresh_token"))) =
          some (Except.error refreshError, wr)) ∧
    ∃ error, (Except.error ⟨{ get "/accounts" with
        authorization := some "Bearer a0", _retry := true }, some ⟨401, none⟩⟩ :
      Settled String) = Except.error error :=
  (navigation_only_on_forced_logout plainJSON alwaysUnauthorized 0).1 noRefreshWorld
    (forceLogin { noRefreshWorld with log := noRefreshWorld.log ++
      [requestInterceptor noRefreshWorld.storage (get "/accounts")] })
    (get "/accounts")
    (Except.error ⟨{ get "/accounts" with
      authorization := some "Bearer a0", _retry := true }, some ⟨401, none⟩⟩)
    rfl (by decide)


/-! ## The storage keys the session manager touches -/

theorem getItem_clearSession_other (st : Storage) (k : String) (hk : isSessionKey k = false) :
    getItem (clearSession st) k = getItem st k := by
  simp only [isSessionKey, Bool.or_eq_false_iff, beq_eq_false_iff_ne, ne_eq] at hk
  simp [getItem_clearSession, hk.1.1, hk.1.2, hk.2]

theorem getItem_setItem_other (st : Storage) (key v k : String) (hkey : isSessionKey key = true)
    (hk : isSessionKey k = false) : getItem (setItem st key v) k = getItem st k := by
  have hne : k ≠ key := by
    intro h
    rw [h, hkey] at hk
    cases hk
  simp [getItem_setItem, hne]

/-- A settled axios call leaves every storage key other than the three session keys as
it was. -/
theorem axiosRequest_other_keys {U : Type} (server : Server U) (fuel : Nat) (k : String)
    (hk : isSessionKey k = false) :
    ∀ (w w1 : World) (config : Config) (outcome : Settled U),
      axiosRequest server fuel w config = some (outcome, w1) →
      getItem w1.storage k = getItem w.storage k := by
  induction fuel with
  | zero => intro w w1 config outcome h; cases h
  | succ fuel ih =>
    intro w w1 config outcome h
    cases hreply : server w.log (requestInterceptor w.storage config) with
    | ok data =>
      rw [axiosRequest_ok server fuel w config data hreply] at h
      cases h
      rfl
    | fail failure =>
      rw [axiosRequest_fail server fuel w config failure hreply] at h
      unfold responseRejected at h
      simp only at h
      split at h
      · split at h
        · split at h
          · cases h
          · rename_i response1 wa hcall
            have h1 := ih _ _ _ _ hcall
            have h2 := ih _ _ _ _ h
            rw [h2]
            simp only
            rw [getItem_setItem_other _ _ _ _ (by decide) hk]
            exact h1
          · rename_i refreshError wa hcall
            have h1 := ih _ _ _ _ hcall
            cases h
            simp only [forceLogin]
            rw [getItem_clearSession_other _ _ hk]
            exact h1
        · cases h
          simp only [forceLogin]
          rw [getItem_clearSession_other _ _ hk]
      · cases h
        rfl

/-- An operation leaves every storage key other than the three session keys as it was. -/
theorem step_other_keys {U : Type} (J : JSON U) (server : Server U) (fuel : Nat) (k : String)
    (hk : isSessionKey k = false) (app app1 : App U) (op : Op U)
    (hstep : step J (axiosRequest server fuel) app op = some app1) :
    getItem app1.world.storage k = getItem app.world.storage k := by
  cases op with
  | mount =>
    simp only [step, mount, initAuth] at hstep
    split at hstep
    · split at hstep
      · cases hstep
        exact getItem_clearSession_other _ _ hk
      · split at hstep
        · cases hstep
        · rename_i hcall
          cases hstep
          exact axiosRequest_other_keys server fuel k hk _ _ _ _ hcall
        · rename_i hcall
          cases hstep
          simp only [dropSession]
          rw [getItem_clearSession_other _ _ hk]
          exact axiosRequest_other_keys server fuel k hk _ _ _ _ hcall
    · cases hstep
      rfl
  | login email password =>
    simp only [step, login] at hstep
    split at hstep
    · cases hstep
    · rename_i hcall
      cases hstep
      simp only [storeSession]
      rw [getItem_setItem_other _ _ _ _ (by decide) hk,
        getItem_setItem_other _ _ _ _ (by decide) hk,
        getItem_setItem_other _ _ _ _ (by decide) hk]
      exact axiosRequest_other_keys server fuel k hk _ _ _ _ hcall
    · rename_i hcall
      cases hstep
      exact axiosRequest_other_keys server fuel k hk _ _ _ _ hcall
  | register userData =>
    simp only [step, register] at hstep
    split at hstep
    · cases hstep
    · rename_i hcall
      cases hstep
      simp only [storeSession]
      rw [getItem_setItem_other _ _ _ _ (by decide) hk,
        getItem_setItem_other _ _ _ _ (by decide) hk,
        getItem_setItem_other _ _ _ _ (by decide) hk]
      exact axiosRequest_other_keys server fuel k hk _ _ _ _ hcall
    · rename_i hcall
      cases hstep
      exact axiosRequest_other_keys server fuel k hk _ _ _ _ hcall
  | logout =>
    simp only [step, logout] at hstep
    split at hstep
    · cases hstep
    · rename_i hcall
      cases hstep
      simp only
      rw [getItem_clearSession_other _ _ hk]
      exact axiosRequest_other_keys server fuel k hk _ _ _ _ hcall
  | updateUser userData =>
    simp only [step] at hstep
    cases hstep
    simp only [updateUser]
    exact getItem_setItem_other _ _ _ _ (by decide) hk
  | request config =>
    simp only [step] at hstep
    cases hcall : axiosRequest server fuel app.world config with
    | none => simp [hcall] at hstep
    | some r =>
      obtain ⟨outcome, w1⟩ := r
      simp only [hcall, Option.map_some'] at hstep
      cases hstep
      exact axiosRequest_other_keys server fuel k hk _ _ _ _ hcall

theorem sessionView_eq_iff (w w1 : World) :
    sessionView w = sessionView w1 ↔
      getItem w.storage "access_token" = getItem w1.storage "access_token" ∧
      getItem w.storage "refresh_token" = getItem w1.storage "refresh_token" ∧
      getItem w.storage "user" = getItem w1.storage "user" ∧
      w.href = w1.href ∧ w.log = w1.log := by
  simp [sessionView]

/-- The request interceptor reads nothing but the access-token entry. -/
theorem requestInterceptor_reads_token (st st1 : Storage) (config : Config)
    (h : getItem st "access_token" = getItem st1 "access_token") :
    requestInterceptor st config = requestInterceptor st1 config := by
  simp only [requestInterceptor, h]

/-- The rejection handler behaves alike in worlds with the same session view, if the
nested axios calls do. -/
theorem responseRejected_sessionView {U : Type} (axios : Axios U)
    (haxios : ∀ (w w1 : World) (config : Config), sessionView w = sessionView w1 →
      (axios w config).map (fun r => (r.1, sessionView r.2)) =
        (axios w1 config).map (fun r => (r.1, sessionView r.2)))
    (w w1 : World) (error : AxiosError) (hview : sessionView w = sessionView w1) :
    (responseRejected axios w error).map (fun r => (r.1, sessionView r.2)) =
      (responseRejected axios w1 error).map (fun r => (r.1, sessionView r.2)) := by
  obtain ⟨ha, hr, hu, hh, hl⟩ := (sessionView_eq_iff w w1).1 hview
  unfold responseRejected
  simp only [hr]
  split
  · split
    · have hnested := haxios w w1
        (refreshRequest (toStr (getItem w1.storage "refresh_token"))) hview
      cases h1 : axios w (refreshRequest (toStr (getItem w1.storage "refresh_token"))) with
      | none =>
        cases h2 : axios w1 (refreshRequest (toStr (getItem w1.storage "refresh_token"))) with
        | none => rfl
        | some r2 => simp [h1, h2] at hnested
      | some r1 =>
        cases h2 : axios w1 (refreshRequest (toStr (getItem w1.storage "refresh_token"))) with
        | none => simp [h1, h2] at hnested
        | some r2 =>
          obtain ⟨o1, wa⟩ := r1
          obtain ⟨o2, wb⟩ := r2
          simp only [h1, h2, Option.map_some', Option.some.injEq, Prod.mk.injEq] at hnested
          obtain ⟨ho, hv⟩ := hnested
          subst ho
          obtain ⟨ha2, hr2, hu2, hh2, hl2⟩ := (sessionView_eq_iff wa wb).1 hv
          cases o1 with
          | ok response =>
            simp only
            apply haxios
            rw [sessionView_eq_iff]
            simp [getItem_setItem, hr2, hu2, hh2, hl2]
          | error e =>
            simp only [Option.map_some', Option.some.injEq, Prod.mk.injEq, true_and]
            rw [sessionView_eq_iff]
            simp [forceLogin, getItem_clearSession, hh2, hl2]
    · simp only [Option.map_some', Option.some.injEq, Prod.mk.injEq, true_and]
      rw [sessionView_eq_iff]
      simp [forceLogin, getItem_clearSession, hh, hl]
  · simp only [Option.map_some', hview]

/-- An axios call behaves alike in worlds with the same session view: it reads no
storage key other than the three session keys. -/
theorem axiosRequest_sessionView {U : Type} (server : Server U) (fuel : Nat) :
    ∀ (w w1 : World) (config : Config), sessionView w = sessionView w1 →
      (axiosRequest server fuel w config).map (fun r => (r.1, sessionView r.2)) =
        (axiosRequest server fuel w1 config).map (fun r => (r.1, sessionView r.2)) := by
  induction fuel with
  | zero => intro w w1 config _; rfl
  | succ fuel ih =>
    intro w w1 config hview
    obtain ⟨ha, hr, hu, hh, hl⟩ := (sessionView_eq_iff w w1).1 hview
    have hsent := requestInterceptor_reads_token w.storage w1.storage config ha
    cases hreply : server w.log (requestInterceptor w.storage config) with
    | ok data =>
      have hreply1 : server w1.log (requestInterceptor w1.storage config) = Reply.ok data := by
        rw [← hl, ← hsent]; exact hreply
      rw [axiosRequest_ok server fuel w config data hreply,
        axiosRequest_ok server fuel w1 config data hreply1]
      simp only [Option.map_some', Option.some.injEq, Prod.mk.injEq]
      refine ⟨by rw [hsent], ?_⟩
      rw [sessionView_eq_iff]
      simp [ha, hr, hu, hh, hl, hsent]
    | fail failure =>
      have hreply1 : server w1.log (requestInterceptor w1.storage config) =
          Reply.fail failure := by
        rw [← hl, ← hsent]; exact hreply
      rw [axiosRequest_fail server fuel w config failure hreply,
        axiosRequest_fail server fuel w1 config failure hreply1, ← hsent]
      apply responseRejected_sessionView (axiosRequest server fuel) ih
      rw [sessionView_eq_iff]
      simp [ha, hr, hu, hh, hl, hsent]

theorem option_map_eq_cases {α β : Type} {f : α → β} {x y : Option α}
    (h : x.map f = y.map f) :
    (x = none ∧ y = none) ∨ ∃ a b, x = some a ∧ y = some b ∧ f a = f b := by
  cases x with
  | none =>
    cases y with
    | none => exact Or.inl ⟨rfl, rfl⟩
    | some b => simp at h
  | some a =>
    cases y with
    | none => simp at h
    | some b =>
      simp only [Option.map_some', Option.some.injEq] at h
      exact Or.inr ⟨a, b, rfl, rfl, h⟩

/-- An operation behaves alike in provider states with the same React state and the
same session view: it reads no storage key other than the three session keys. -/
theorem step_sessionView {U : Type} (J : JSON U) (server : Server U) (fuel : Nat)
    (app app1 : App U) (op : Op U) (hauth : app.auth = app1.auth)
    (hview : sessionView app.world = sessionView app1.world) :
    (step J (axiosRequest server fuel) app op).map (fun a => (a.auth, sessionView a.world)) =
      (step J (axiosRequest server fuel) app1 op).map
        (fun a => (a.auth, sessionView a.world)) := by
  obtain ⟨ha, hr, hu, hh, hl⟩ := (sessionView_eq_iff app.world app1.world).1 hview
  cases op with
  | mount =>
    simp only [step, mount, initAuth, ha, hu]
    split
    · split
      · simp only [Option.map_some', Option.some.injEq, Prod.mk.injEq, dropSession, true_and]
        rw [sessionView_eq_iff]
        simp [getItem_clearSession, hh, hl]
      · rcases option_map_eq_cases
          (axiosRequest_sessionView server fuel app.world app1.world (get "/auth/me") hview)
          with ⟨h1, h2⟩ | ⟨⟨o1, wa⟩, ⟨o2, wb⟩, h1, h2, hf⟩
        · simp [h1, h2]
        · simp only [Prod.mk.injEq] at hf
          obtain ⟨ho, hv⟩ := hf
          subst ho
          obtain ⟨ha2, hr2, hu2, hh2, hl2⟩ := (sessionView_eq_iff wa wb).1 hv
          cases o1 with
          | ok response => simp [h1, h2, hv]
          | error e =>
            simp only [h1, h2, Option.map_some', Option.some.injEq, Prod.mk.injEq, dropSession,
              true_and]
            rw [sessionView_eq_iff]
            simp [getItem_clearSession, hh2, hl2]
    · simp [hauth, hview]
  | login email password =>
    simp only [step, login]
    rcases option_map_eq_cases
      (axiosRequest_sessionView server fuel app.world app1.world
        (loginRequest email password) hview)
      with ⟨h1, h2⟩ | ⟨⟨o1, wa⟩, ⟨o2, wb⟩, h1, h2, hf⟩
    · simp [h1, h2]
    · simp only [Prod.mk.injEq] at hf
      obtain ⟨ho, hv⟩ := hf
      subst ho
      obtain ⟨ha2, hr2, hu2, hh2, hl2⟩ := (sessionView_eq_iff wa wb).1 hv
      cases o1 with
      | ok response =>
        simp only [h1, h2, Option.map_some', Option.some.injEq, Prod.mk.injEq, storeSession,
          hauth, true_and]
        rw [sessionView_eq_iff]
        simp [getItem_setItem, hh2, hl2]
      | error e => simp [h1, h2, hauth, hv]
  | register userData =>
    simp only [step, register]
    rcases option_map_eq_cases
      (axiosRequest_sessionView server fuel app.world app1.world
        (post "/auth/register" userData) hview)
      with ⟨h1, h2⟩ | ⟨⟨o1, wa⟩, ⟨o2, wb⟩, h1, h2, hf⟩
    · simp [h1, h2]
    · simp only [Prod.mk.injEq] at hf
      obtain ⟨ho, hv⟩ := hf
      subst ho
      obtain ⟨ha2, hr2, hu2, hh2, hl2⟩ := (sessionView_eq_iff wa wb).1 hv
      cases o1 with
      | ok response =>
        simp only [h1, h2, Option.map_some', Option.some.injEq, Prod.mk.injEq, storeSession,
          hauth, true_and]
        rw [sessionView_eq_iff]
        simp [getItem_setItem, hh2, hl2]
      | error e => simp [h1, h2, hauth, hv]
  | logout =>
    simp only [step, logout]
    rcases option_map_eq_cases
      (axiosRequest_sessionView server fuel app.world app1.world
        (post "/auth/logout" Body.empty) hview)
      with ⟨h1, h2⟩ | ⟨⟨o1, wa⟩, ⟨o2, wb⟩, h1, h2, hf⟩
    · simp [h1, h2]
    · simp only [Prod.mk.injEq] at hf
      obtain ⟨ho, hv⟩ := hf
      obtain ⟨ha2, hr2, hu2, hh2, hl2⟩ := (sessionView_eq_iff wa wb).1 hv
      simp only [h1, h2, Option.map_some', Option.some.injEq, Prod.mk.injEq, hauth, true_and]
      rw [sessionView_eq_iff]
      simp [getItem_clearSession, hh2, hl2]
  | updateUser userData =>
    simp only [step, updateUser, Option.map_some', Option.some.injEq, Prod.mk.injEq, hauth,
      true_and]
    rw [sessionView_eq_iff]
    simp [getItem_setItem, ha, hr, hh, hl]
  | request config =>
    simp only [step]
    rcases option_map_eq_cases
      (axiosRequest_sessionView server fuel app.world app1.world config hview)
      with ⟨h1, h2⟩ | ⟨⟨o1, wa⟩, ⟨o2, wb⟩, h1, h2, hf⟩
    · simp [h1, h2]
    · simp only [Prod.mk.injEq] at hf
      simp [h1, h2, hauth, hf.2]

/-- Claim C24: every session-manager operation (the interceptors inside every axios
call, rehydration, `login`, `register`, `logout`, `updateUser`) writes and removes
only the keys `access_token`, `refresh_token` and `user`: every other storage key has
the same value after a completed operation or settled call as before. It also reads
only those keys: the request interceptor depends on the access-token entry alone,
and in two states that agree on the React state, the three session entries,
navigation and the request log, every operation and every axios call has the same
result and leaves states that again agree. -/
theorem only_session_keys_touched {U : Type} (J : JSON U) (server : Server U) (fuel : Nat) :
    (∀ (k : String) (app app1 : App U) (op : Op U), isSessionKey k = false →
      step J (axiosRequest server fuel) app op = some app1 →
      getItem app1.world.storage k = getItem app.world.storage k) ∧
    (∀ (k : String) (w w1 : World) (config : Config) (outcome : Settled U),
      isSessionKey k = false →
      axiosRequest server fuel w config = some (outcome, w1) →
      getItem w1.storage k = getItem w.storage k) ∧
    (∀ (st st1 : Storage) (config : Config),
      getItem st "access_token" = getItem st1 "access_token" →
      requestInterceptor st config = requestInterceptor st1 config) ∧
    (∀ (app app1 : App U) (op : Op U), app.auth = app1.auth →
      sessionView app.world = sessionView app1.world →
      (step J (axiosRequest server fuel) app op).map (fun a => (a.auth, sessionView a.world)) =
        (step J (axiosRequest server fuel) app1 op).map
          (fun a => (a.auth, sessionView a.world))) ∧
    ∀ (w w1 : World) (config : Config), sessionView w = sessionView w1 →
      (axiosRequest server fuel w config).map (fun r => (r.1, sessionView r.2)) =
        (axiosRequest server fuel w1 config).map (fun r => (r.1, sessionView r.2)) :=
  ⟨fun k app app1 op hk hstep => step_other_keys J server fuel k hk app app1 op hstep,
    fun k w w1 config outcome hk h => axiosRequest_other_keys server fuel k hk w w1 config
      outcome h,
    requestInterceptor_reads_token,
    step_sessionView J server fuel,
    axiosRequest_sessionView server fuel⟩

/-- A logout over storage that also holds the key `theme` of another module. -/
theorem only_session_keys_touched_witness :
    ∃ app1, step plainJSON (axiosRequest serverDown 1) ⟨⟨some "u0", false⟩, themedWorld⟩
        Op.logout = some app1 ∧
      getItem app1.world.storage "theme" = getItem themedWorld.storage "theme" := by
  have hsome : (step plainJSON (axiosRequest serverDown 1) ⟨⟨some "u0", false⟩, themedWorld⟩
      Op.logout).isSome = true := by decide
  cases hstep : step plainJSON (axiosRequest serverDown 1) ⟨⟨some "u0", false⟩, themedWorld⟩
      Op.logout with
  | none =>
    rw [hstep] at hsome
    cases hsome
  | some app1 =>
    exact ⟨app1, rfl, (only_session_keys_touched plainJSON serverDown 1).1 "theme"
      ⟨⟨some "u0", false⟩, themedWorld⟩ app1 Op.logout (by decide) hstep⟩

/-! ## Rehydration that succeeds -/

/-- A request already marked as retried never changes storage. -/
theorem axiosRequest_retried_storage {U : Type} (server : Server U) (fuel : Nat) (w w1 : World)
    (config : Config) (outcome : Settled U) (hretry : config._retry = true)
    (h : axiosRequest server fuel w config = some (outcome, w1)) : w1.storage = w.storage := by
  cases fuel with
  | zero => cases h
  | succ fuel =>
    cases hreply : server w.log (requestInterceptor w.storage config) with
    | ok data =>
      rw [axiosRequest_ok server fuel w config data hreply] at h
      cases h
      rfl
    | fail response =>
      rw [axiosRequest_fail server fuel w config response hreply] at h
      simp [responseRejected, requestInterceptor_retry, hretry] at h
      rw [← h.2]

/-- Claim C18 (amended): storage holds a (non-empty) access token and the serialization of
a user `u` that `JSON.parse` reads back as `u`, and the verification call `GET /auth/me`
is fulfilled. Then rehydration completes with in-memory user `u` and loading false, in the
world the call left; the refresh-token and user entries are unchanged and there is no
navigation. If the server accepted the request as first sent, the whole storage is
unchanged and the verification call is the only request sent. Otherwise the call was
fulfilled by refresh and replay: the first answer was a 401, a non-empty refresh token was
stored, the refresh call was fulfilled, and the access-token entry now holds the token that
call returned. -/
theorem rehydration_success_restores {U : Type} (J : JSON U) (server : Server U) (fuel : Nat)
    (app : App U) (token : String) (u : U) (verified : Response U) (w : World)
    (htoken : getItem app.world.storage "access_token" = some token) (htoken_ne : token ≠ "")
    (huser : getItem app.world.storage "user" = some (J.stringify u))
    (huser_ne : J.stringify u ≠ "")
    (hparse : J.parse (J.stringify u) = some (some u))
    (hme : axiosRequest server (fuel + 1) app.world (get "/auth/me") =
      some (Except.ok verified, w)) :
    initAuth J (axiosRequest server (fuel + 1)) app =
      some { auth := { user := some u, loading := false }, world := w } ∧
    getItem w.storage "refresh_token" = getItem app.world.storage "refresh_token" ∧
    getItem w.storage "user" = some (J.stringify u) ∧
    w.href = app.world.href ∧
    ((∃ data, server app.world.log
        { get "/auth/me" with authorization := some ("Bearer " ++ token) } = Reply.ok data) →
      w.storage = app.world.storage ∧
      w.log = app.world.log ++
        [{ get "/auth/me" with authorization := some ("Bearer " ++ token) }]) ∧
    ((∀ data, server app.world.log
        { get "/auth/me" with authorization := some ("Bearer " ++ token) } ≠ Reply.ok data) →
      ∃ detail refreshToken refreshed w1,
        server app.world.log { get "/auth/me" with authorization := some ("Bearer " ++ token) } =
          Reply.fail (some ⟨401, detail⟩) ∧
        getItem app.world.storage "refresh_token" = some refreshToken ∧ refreshToken ≠ "" ∧
        axiosRequest server fuel
            { app.world with log := app.world.log ++
              [{ get "/auth/me" with authorization := some ("Bearer " ++ token) }] }
            (refreshRequest refreshToken) = some (Except.ok refreshed, w1) ∧
        getItem w.storage "access_token" = some (toStr refreshed.data.access_token)) := by
  have hsent : requestInterceptor app.world.storage (get "/auth/me") =
      { get "/auth/me" with authorization := some ("Bearer " ++ token) } := by
    simp [requestInterceptor, htoken, truthy_some htoken_ne, toStr_some]
  have heffect := axiosRequest_refreshEffect server (fuel + 1) _ _ _ _ hme
  have hkeep : getItem w.storage "refresh_token" = getItem app.world.storage "refresh_token" ∧
      getItem w.storage "user" = getItem app.world.storage "user" := by
    rcases heffect with ⟨h1, h2, _⟩ | ⟨⟨e, he⟩, _⟩
    · exact ⟨h1, h2⟩
    · cases he
  refine ⟨?_, hkeep.1, by rw [hkeep.2, huser],
    axiosRequest_fulfilled_href server (fuel + 1) _ _ _ _ hme, ?_, ?_⟩
  · simp [initAuth, htoken, huser, truthy_some htoken_ne, truthy_some huser_ne, toStr_some,
      hparse, hme]
  · rintro ⟨data, hdata⟩
    rw [← hsent] at hdata
    rw [axiosRequest_ok server fuel _ _ _ hdata] at hme
    simp only [Option.some.injEq, Prod.mk.injEq] at hme
    rw [← hme.2, hsent]
    exact ⟨rfl, rfl⟩
  · intro hnot
    rw [← hsent] at hnot
    cases hreply : server app.world.log (requestInterceptor app.world.storage (get "/auth/me"))
      with
    | ok data => exact absurd hreply (hnot data)
    | fail response =>
      rw [axiosRequest_fail server fuel _ _ _ hreply, hsent] at hme
      rw [hsent] at hreply
      unfold responseRejected at hme
      simp only at hme
      split at hme
      · rename_i hcond
        split at hme
        · rename_i htruthy
          cases hrefresh : getItem app.world.storage "refresh_token" with
          | none => simp [hrefresh, truthy] at htruthy
          | some refreshToken =>
            have hne : refreshToken ≠ "" := by
              intro h
              simp [hrefresh, truthy, h] at htruthy
            simp only [hrefresh, toStr_some] at hme
            split at hme
            · cases hme
            · rename_i refreshed w1 hcall
              have hstorage := axiosRequest_retried_storage server fuel _ _ _ _ rfl hme
              cases response with
              | none => simp at hcond
              | some r =>
                obtain ⟨status, detail⟩ := r
                simp only [Option.map_some', Option.some.injEq] at hcond
                refine ⟨detail, refreshToken, refreshed, w1, ?_, rfl, hne, hcall, ?_⟩
                · rw [hreply, hcond.1]
                · rw [hstorage]
                  simp [getItem_setItem]
            · cases hme
        · cases hme
      · cases hme

/-- Rehydrating the stored session `a0`, `r0`, `u0` when `a0` has expired: the verification
call is fulfilled by refresh and replay, the user is `u0`, and the refresh-token and user
entries are as before. -/
theorem rehydration_success_restores_witness :
    ∃ w, initAuth plainJSON (axiosRequest expiredAccess 2) ⟨initialState, storedWorld⟩ =
        some { auth := { user := some "u0", loading := false }, world := w } ∧
      getItem w.storage "refresh_token" = getItem storedWorld.storage "refresh_token" ∧
      getItem w.storage "user" = some (plainJSON.stringify "u0") ∧
      w.href = storedWorld.href := by
  have hok : (axiosRequest expiredAccess 2 storedWorld (get "/auth/me")).map
      (fun r => r.1.toBool) = some true := rfl
  cases hme : axiosRequest expiredAccess 2 storedWorld (get "/auth/me") with
  | none =>
    rw [hme] at hok
    cases hok
  | some r =>
    obtain ⟨outcome, w⟩ := r
    cases outcome with
    | error e =>
      rw [hme] at hok
      cases hok
    | ok verified =>
      have h := rehydration_success_restores plainJSON expiredAccess 1
        ⟨initialState, storedWorld⟩ "a0" "u0" verified w rfl (by decide) rfl (by decide) rfl hme
      exact ⟨w, h.1, h.2.1, h.2.2.1, h.2.2.2.1⟩

/-- Claim C18, counterexample: storage holds the session `a0`, `r0`, `u0` and the server has
let `a0` expire. The verification call `GET /auth/me` succeeds (the interceptor refreshes and
replays), rehydration ends with user `u0` and loading false, yet the access-token entry is
`a1` and no longer `a0`: the three entries are not unchanged. -/
theorem rehydration_refresh_rewrites_token :
    getItem storedWorld.storage "access_token" = some "a0" ∧
    (axiosRequest expiredAccess 2 storedWorld (get "/auth/me")).map
      (fun r => (r.1.toBool, r.2.log.map fun c => c.url)) =
      some (true, ["/auth/me", "/auth/refresh", "/auth/me"]) ∧
    (initAuth plainJSON (axiosRequest expiredAccess 2) ⟨initialState, storedWorld⟩).map
      (fun a => (a.auth.user, a.auth.loading, getItem a.world.storage "access_token",
        getItem a.world.storage "refresh_token", getItem a.world.storage "user")) =
      some (some "u0", false, some "a1", some "r0", some "u0") :=
  ⟨rfl, rfl, rfl⟩

/-! ## The password, and the login-then-reload round trip -/

theorem alike_refl (email p1 p2 : String) (c : Config) : Alike email p1 p2 c c := Or.inl rfl

theorem alike_retry {email p1 p2 : String} {c1 c2 : Config} (h : Alike email p1 p2 c1 c2) :
    c1._retry = c2._retry := by
  rcases h with h | ⟨_, h⟩ <;> rw [h]

theorem alike_url {email p1 p2 : String} {c1 c2 : Config} (h : Alike email p1 p2 c1 c2) :
    c1.url = c2.url := by
  rcases h with h | ⟨_, h⟩ <;> rw [h]

theorem alike_with_retry {email p1 p2 : String} {c1 c2 : Config}
    (h : Alike email p1 p2 c1 c2) :
    Alike email p1 p2 { c1 with _retry := true } { c2 with _retry := true } := by
  rcases h with h | ⟨hd, h⟩
  · exact Or.inl (by rw [h])
  · exact Or.inr ⟨hd, by rw [h]⟩

theorem alike_with_authorization {email p1 p2 : String} {c1 c2 : Config} (a : Option String)
    (h : Alike email p1 p2 c1 c2) :
    Alike email p1 p2 { c1 with authorization := a } { c2 with authorization := a } := by
  rcases h with h | ⟨hd, h⟩
  · exact Or.inl (by rw [h])
  · exact Or.inr ⟨hd, by rw [h]⟩

theorem requestInterceptor_alike {email p1 p2 : String} {c1 c2 : Config} (st : Storage)
    (h : Alike email p1 p2 c1 c2) :
    Alike email p1 p2 (requestInterceptor st c1) (requestInterceptor st c2) := by
  simp only [requestInterceptor]
  by_cases ht : truthy (getItem st "access_token") = true
  · rw [if_pos ht, if_pos ht]
    exact alike_with_authorization _ h
  · rw [if_neg ht, if_neg ht]
    exact h

theorem logAlike_refl (email p1 p2 : String) (log0 : List Config) :
    LogAlike email p1 p2 log0 log0 log0 :=
  ⟨[], [], (List.append_nil log0).symm, (List.append_nil log0).symm, List.Forall₂.nil⟩

theorem alikeList_snoc {email p1 p2 : String} {l1 l2 : List Config} {c1 c2 : Config}
    (hl : List.Forall₂ (Alike email p1 p2) l1 l2) (hc : Alike email p1 p2 c1 c2) :
    List.Forall₂ (Alike email p1 p2) (l1 ++ [c1]) (l2 ++ [c2]) := by
  induction hl with
  | nil => exact List.Forall₂.cons hc List.Forall₂.nil
  | cons h _ ih => exact List.Forall₂.cons h ih

theorem logAlike_snoc {email p1 p2 : String} {log0 log1 log2 : List Config} {c1 c2 : Config}
    (hl : LogAlike email p1 p2 log0 log1 log2) (hc : Alike email p1 p2 c1 c2) :
    LogAlike email p1 p2 log0 (log1 ++ [c1]) (log2 ++ [c2]) := by
  obtain ⟨rest1, rest2, e1, e2, h⟩ := hl
  exact ⟨rest1 ++ [c1], rest2 ++ [c2], by rw [e1, List.append_assoc],
    by rw [e2, List.append_assoc], alikeList_snoc h hc⟩

theorem worldAlike_refl (email p1 p2 : String) (w : World) :
    WorldAlike email p1 p2 w.log w w :=
  ⟨rfl, rfl, logAlike_refl email p1 p2 w.log⟩

theorem worldAlike_forceLogin {email p1 p2 : String} {log0 : List Config} {w1 w2 : World}
    (h : WorldAlike email p1 p2 log0 w1 w2) :
    WorldAlike email p1 p2 log0 (forceLogin w1) (forceLogin w2) := by
  obtain ⟨hs, hh, hl⟩ := h
  exact ⟨by simp only [forceLogin, hs], by simp only [forceLogin, hh], hl⟩

/-- The rejection handler runs alike on alike errors in alike worlds, if the nested axios
calls do. -/
theorem responseRejected_alike {U : Type} (email p1 p2 : String) (log0 : List Config)
    (axios : Axios U)
    (haxios : ∀ (w1 w2 : World) (c1 c2 : Config), WorldAlike email p1 p2 log0 w1 w2 →
      Alike email p1 p2 c1 c2 → ResultAlike email p1 p2 log0 (axios w1 c1) (axios w2 c2))
    (w1 w2 : World) (e1 e2 : AxiosError) (hw : WorldAlike email p1 p2 log0 w1 w2)
    (hr : e1.response = e2.response) (hc : Alike email p1 p2 e1.config e2.config) :
    ResultAlike email p1 p2 log0 (responseRejected axios w1 e1)
      (responseRejected axios w2 e2) := by
  obtain ⟨hs, hh, hl⟩ := hw
  have hretry := alike_retry hc
  simp only [responseRejected, hr, hretry, hs]
  by_cases hcond : Option.map (fun r => r.status) e2.response = some 401 ∧
      e2.config._retry = false
  · rw [if_pos hcond, if_pos hcond]
    by_cases htruthy : truthy (getItem w2.storage "refresh_token") = true
    · rw [if_pos htruthy, if_pos htruthy]
      have hnested := haxios w1 w2 (refreshRequest (toStr (getItem w2.storage "refresh_token")))
        (refreshRequest (toStr (getItem w2.storage "refresh_token"))) ⟨hs, hh, hl⟩
        (alike_refl _ _ _ _)
      cases h1 : axios w1 (refreshRequest (toStr (getItem w2.storage "refresh_token"))) with
      | none =>
        cases h2 : axios w2 (refreshRequest (toStr (getItem w2.storage "refresh_token"))) with
        | none => exact True.intro
        | some r2 =>
          rw [h1, h2] at hnested
          exact hnested.elim
      | some r1 =>
        cases h2 : axios w2 (refreshRequest (toStr (getItem w2.storage "refresh_token"))) with
        | none =>
          rw [h1, h2] at hnested
          exact hnested.elim
        | some r2 =>
          rw [h1, h2] at hnested
          obtain ⟨o1, wa⟩ := r1
          obtain ⟨o2, wb⟩ := r2
          obtain ⟨ho, hsa, hha, hla⟩ := hnested
          cases o1 with
          | ok response1 =>
            cases o2 with
            | ok response2 =>
              obtain ⟨hdata, _⟩ := ho
              simp only at hsa hha hla ⊢
              rw [hdata]
              apply haxios
              · exact ⟨by simp only [hsa], hha, hla⟩
              · exact alike_with_authorization _ (alike_with_retry hc)
            | error error2 => exact ho.elim
          | error error1 =>
            cases o2 with
            | ok response2 => exact ho.elim
            | error error2 =>
              exact ⟨⟨rfl, alike_with_retry hc⟩, worldAlike_forceLogin ⟨hsa, hha, hla⟩⟩
    · rw [if_neg htruthy, if_neg htruthy]
      exact ⟨⟨rfl, alike_with_retry hc⟩, worldAlike_forceLogin ⟨hs, hh, hl⟩⟩
  · rw [if_neg hcond, if_neg hcond]
    exact ⟨⟨hr, hc⟩, hs, hh, hl⟩

/-- An axios call runs alike on alike requests in alike worlds, against a server that gives
the same responses for the two passwords. -/
theorem axiosRequest_alike {U : Type} (server : Server U) (email p1 p2 : String)
    (log0 : List Config) (hserver : SameResponses server log0 email p1 p2) (fuel : Nat) :
    ∀ (w1 w2 : World) (c1 c2 : Config), WorldAlike email p1 p2 log0 w1 w2 →
      Alike email p1 p2 c1 c2 →
      ResultAlike email p1 p2 log0 (axiosRequest server fuel w1 c1)
        (axiosRequest server fuel w2 c2) := by
  induction fuel with
  | zero => intro w1 w2 c1 c2 _ _; exact True.intro
  | succ fuel ih =>
    intro w1 w2 c1 c2 hw hc
    obtain ⟨hs, hh, hl⟩ := hw
    have hsent : Alike email p1 p2 (requestInterceptor w1.storage c1)
        (requestInterceptor w2.storage c2) := by
      rw [hs]
      exact requestInterceptor_alike _ hc
    have hsame := hserver w1.log w2.log _ _ hl hsent
    have hworld : WorldAlike email p1 p2 log0
        { w1 with log := w1.log ++ [requestInterceptor w1.storage c1] }
        { w2 with log := w2.log ++ [requestInterceptor w2.storage c2] } :=
      ⟨hs, hh, logAlike_snoc hl hsent⟩
    cases hreply : server w2.log (requestInterceptor w2.storage c2) with
    | ok data =>
      rw [axiosRequest_ok server fuel w1 c1 data (hsame.trans hreply),
        axiosRequest_ok server fuel w2 c2 data hreply]
      exact ⟨⟨rfl, hsent⟩, hworld⟩
    | fail failure =>
      rw [axiosRequest_fail server fuel w1 c1 failure (hsame.trans hreply),
        axiosRequest_fail server fuel w2 c2 failure hreply]
      exact responseRejected_alike email p1 p2 log0 (axiosRequest server fuel) ih _ _ _ _
        hworld rfl hsent

/-- Claim C25: the password reaches neither storage nor the provider state. For every
email and any two passwords, against a server that from now on gives the same responses
whichever of the two passwords is sent: if `login` with the first password completes, then
`login` with the second completes too, both return the same result, and they leave
identical storage, identical provider state (in-memory user included) and identical
navigation. The requests the two runs sent to the server are pairwise the same except for
the login body, and the two login requests differ in their body only. -/
theorem login_password_never_stored {U : Type} (J : JSON U) (server : Server U) (fuel : Nat)
    (app : App U) (email p1 p2 : String) (o1 : Settled U) (w1 : World)
    (hserver : SameResponses server app.world.log email p1 p2)
    (h1 : axiosRequest server fuel app.world (loginRequest email p1) = some (o1, w1)) :
    (∃ result a1 a2, login J (axiosRequest server fuel) app email p1 = some (result, a1) ∧
      login J (axiosRequest server fuel) app email p2 = some (result, a2) ∧
      a1.auth = a2.auth ∧ a1.world.storage = a2.world.storage ∧
      a1.world.href = a2.world.href ∧
      LogAlike email p1 p2 app.world.log a1.world.log a2.world.log) ∧
    { loginRequest email p1 with data := (loginRequest email p2).data } =
      loginRequest email p2 := by
  refine ⟨?_, rfl⟩
  have hrun := axiosRequest_alike server email p1 p2 app.world.log hserver fuel app.world
    app.world (loginRequest email p1) (loginRequest email p2) (worldAlike_refl _ _ _ _)
    (Or.inr ⟨rfl, rfl⟩)
  rw [h1] at hrun
  cases h2 : axiosRequest server fuel app.world (loginRequest email p2) with
  | none =>
    rw [h2] at hrun
    exact hrun.elim
  | some r2 =>
    rw [h2] at hrun
    obtain ⟨o2, w2⟩ := r2
    obtain ⟨ho, hs, hh, hl⟩ := hrun
    simp only at ho hs hh hl
    cases o1 with
    | ok r1 =>
      cases o2 with
      | ok r2 =>
        obtain ⟨hdata, _⟩ := ho
        refine ⟨Except.ok ⟨true, none⟩, (storeSession J app w1 r1).2,
          (storeSession J app w2 r2).2, ?_, ?_, ?_, ?_, ?_, ?_⟩
        · simp only [login, h1, storeSession]
        · simp only [login, h2, storeSession]
        · simp [storeSession, hdata]
        · simp [storeSession, hdata, hs]
        · simp [storeSession, hh]
        · simpa [storeSession] using hl
      | error e2 => exact ho.elim
    | error e1 =>
      cases o2 with
      | ok r2 => exact ho.elim
      | error e2 =>
        obtain ⟨hresp, _⟩ := ho
        refine ⟨Except.ok ⟨false, some (detailOr e1 "Erro ao fazer login")⟩,
          { app with world := w1 }, { app with world := w2 }, ?_, ?_, rfl, hs, hh, hl⟩
        · simp only [login, h1]
        · simp only [login, h2, detailOr, hresp]

theorem sameResponses_wrongPassword (log0 : List Config) (email p1 p2 : String) :
    SameResponses wrongPassword log0 email p1 p2 := by
  intro log1 log2 c1 c2 _ hc
  simp only [wrongPassword, alike_url hc]

/-- Two logins with different passwords over the stored session `a0`, `r0`, `u0`, against a
server that answers every login with 401 and refreshes tokens: both runs go through the
refresh and the replay, return the same failure and leave the same storage. -/
theorem login_password_never_stored_witness :
    (∃ result a1 a2,
      login plainJSON (axiosRequest wrongPassword 2) ⟨⟨some "u0", false⟩, storedWorld⟩
          "ana@loja.com" "s1" = some (result, a1) ∧
      login plainJSON (axiosRequest wrongPassword 2) ⟨⟨some "u0", false⟩, storedWorld⟩
          "ana@loja.com" "other" = some (result, a2) ∧
      a1.auth = a2.auth ∧ a1.world.storage = a2.world.storage ∧
      a1.world.href = a2.world.href ∧
      LogAlike "ana@loja.com" "s1" "other" storedWorld.log a1.world.log a2.world.log) ∧
    { loginRequest "ana@loja.com" "s1" with data := (loginRequest "ana@loja.com" "other").data } =
      loginRequest "ana@loja.com" "other" := by
  have hsome : (axiosRequest wrongPassword 2 storedWorld
      (loginRequest "ana@loja.com" "s1")).isSome = true := rfl
  cases h1 : axiosRequest wrongPassword 2 storedWorld (loginRequest "ana@loja.com" "s1") with
  | none =>
    rw [h1] at hsome
    cases hsome
  | some r =>
    exact login_password_never_stored plainJSON wrongPassword 2 ⟨⟨some "u0", false⟩, storedWorld⟩
      "ana@loja.com" "s1" "other" r.1 r.2 (sameResponses_wrongPassword _ _ _ _) h1

/-- Claim C26: login-then-reload round trip. A login is fulfilled with a (non-empty)
access token, a refresh token and a user record `u` that is JSON-representable, that
is, `JSON.parse` reads the non-empty text `JSON.stringify(u)` back as `u`. Then a
fresh provider mounted over the resulting storage, whose verification call is
fulfilled, ends with in-memory user `u` and loading false. -/
theorem login_then_reload_restores_user {U : Type} (J : JSON U) (axios : Axios U) (app : App U)
    (email password a r : String) (u : U) (response : Response U) (w : World)
    (hlogin : axios app.world (loginRequest email password) = some (Except.ok response, w))
    (hdata : response.data = ⟨some a, some r, some u⟩)
    (ha : a ≠ "")
    (hjson : J.parse (J.stringify u) = some (some u))
    (htext : J.stringify u ≠ "") :
    ∃ app1, login J axios app email password = some (Except.ok ⟨true, none⟩, app1) ∧
      getItem app1.world.storage "user" = some (J.stringify u) ∧
      ∀ (axios1 : Axios U) (verified : Response U) (w1 : World),
        axios1 app1.world (get "/auth/me") = some (Except.ok verified, w1) →
        mount J axios1 app1.world = some { auth := ⟨some u, false⟩, world := w1 } := by
  refine ⟨(storeSession J app w response).2, ?_, ?_, ?_⟩
  · simp only [login, hlogin, storeSession]
  · simp [storeSession, getItem_setItem, hdata, toStr]
  · intro axios1 verified w1 hme
    have htoken : getItem (storeSession J app w response).2.world.storage "access_token" =
        some a := by
      simp [storeSession, getItem_setItem, hdata, toStr]
    have huser : getItem (storeSession J app w response).2.world.storage "user" =
        some (J.stringify u) := by
      simp [storeSession, getItem_setItem, hdata, toStr]
    simp [mount, initAuth, htoken, huser, truthy_some ha, truthy_some htext, toStr_some, hjson,
      hme]

/-- A login that receives `u0`, then a reload against a server that accepts. -/
theorem login_then_reload_restores_user_witness :
    ∃ app1, login plainJSON (axiosRequest issueTokens 1) ⟨⟨none, false⟩, emptyWorld⟩
          "ana@loja.com" "s1" = some (Except.ok ⟨true, none⟩, app1) ∧
      getItem app1.world.storage "user" = some (plainJSON.stringify "u0") ∧
      ∀ (axios1 : Axios String) (verified : Response String) (w1 : World),
        axios1 app1.world (get "/auth/me") = some (Except.ok verified, w1) →
        mount plainJSON axios1 app1.world = some { auth := ⟨some "u0", false⟩, world := w1 } :=
  login_then_reload_restores_user plainJSON (axiosRequest issueTokens 1)
    ⟨⟨none, false⟩, emptyWorld⟩ "ana@loja.com" "s1" "a0" "r0" "u0"
    ⟨⟨some "a0", some "r0", some "u0"⟩, loginRequest "ana@loja.com" "s1"⟩
    { emptyWorld with log := [loginRequest "ana@loja.com" "s1"] }
    rfl rfl (by decide) rfl (by decide)


/-! ## The login body can be read back -/

theorem foldl_append_data (l : List String) :
    ∀ acc : String, (List.foldl (fun r s => r ++ s) acc l).data =
      acc.data ++ l.flatMap String.data := by
  induction l with
  | nil => intro acc; simp
  | cons a l ih =>
    intro acc
    simp only [List.foldl_cons, ih, String.data_append, List.flatMap_cons, List.append_assoc]

theorem join_data (l : List String) : (String.join l).data = l.flatMap String.data := by
  simp [String.join, foldl_append_data]

theorem encodeURIComponent_data (s : String) :
    (encodeURIComponent s).data = s.data.flatMap fun c => (encodeChar c).data := by
  have h : encodeURIComponent s = String.join (s.toList.map encodeChar) := rfl
  rw [h, join_data, String.toList]
  simp [List.flatMap_map]

theorem hexValue_hexDigit : ∀ n, n < 16 → hexValue (hexDigit n) = some n := by decide

theorem hexDigit_not_separator :
    ∀ n, n < 16 → hexDigit n ≠ '&' ∧ hexDigit n ≠ '=' := by decide

theorem utf8Bytes_lt (n : Nat) (hn : n < 1114112) : ∀ b ∈ utf8Bytes n, b < 256 := by
  intro b hb
  simp only [utf8Bytes] at hb
  split at hb
  · simp at hb; omega
  · split at hb
    · simp at hb; omega
    · split at hb
      · simp at hb; omega
      · simp at hb; omega

theorem uriUnreserved_ascii (c : Char) (h : uriUnreserved c = true) :
    c ≠ '%' ∧ c ≠ '&' ∧ c ≠ '=' := by
  refine ⟨?_, ?_, ?_⟩ <;>
  · intro hc
    rw [hc] at h
    revert h
    decide

theorem char_toNat_lt (c : Char) : c.toNat < 1114112 := by
  have h := c.valid
  simp only [UInt32.isValidChar, Nat.isValidChar] at h
  simp only [Char.toNat]
  omega

theorem percentDecode_percentByte (b : Nat) (hb : b < 256) (rest : List Char) :
    percentDecode ((percentByte b).data ++ rest) =
      match percentDecode rest with
      | some bytes => some (b :: bytes)
      | none => none := by
  have hhi := hexValue_hexDigit (b / 16) (by omega)
  have hlo := hexValue_hexDigit (b % 16) (by omega)
  have hdata : (percentByte b).data ++ rest =
      '%' :: hexDigit (b / 16) :: hexDigit (b % 16) :: rest := rfl
  rw [hdata]
  conv_lhs => unfold percentDecode
  simp only [if_true, hhi, hlo]
  cases percentDecode rest with
  | none => rfl
  | some bytes =>
    simp only [Option.some.injEq, List.cons.injEq, and_true]
    omega

theorem percentDecode_bytes (bs : List Nat) (hbs : ∀ b ∈ bs, b < 256) (rest : List Char) :
    percentDecode ((String.join (bs.map percentByte)).data ++ rest) =
      match percentDecode rest with
      | some bytes => some (bs ++ bytes)
      | none => none := by
  rw [join_data]
  induction bs with
  | nil =>
    simp only [List.map_nil, List.flatMap_nil, List.nil_append]
    cases percentDecode rest <;> rfl
  | cons b bs ih =>
    have hb := hbs b (List.mem_cons_self _ _)
    have ih1 := ih (fun x hx => hbs x (List.mem_cons_of_mem _ hx))
    simp only [List.map_cons, List.flatMap_cons, List.append_assoc]
    rw [percentDecode_percentByte b hb, ih1]
    cases percentDecode rest <;> rfl

theorem percentDecode_encodeChar (c : Char) (rest : List Char) :
    percentDecode ((encodeChar c).data ++ rest) =
      match percentDecode rest with
      | some bytes => some (utf8Bytes c.toNat ++ bytes)
      | none => none := by
  unfold encodeChar
  split
  · rename_i h
    have hne := (uriUnreserved_ascii c h).1
    have hdata : c.toString.data ++ rest = c :: rest := rfl
    rw [hdata]
    conv_lhs => unfold percentDecode
    simp only [hne, if_false]
  · exact percentDecode_bytes _ (utf8Bytes_lt _ (char_toNat_lt c)) rest

theorem percentDecode_encoded (cs : List Char) :
    percentDecode (cs.flatMap fun c => (encodeChar c).data) =
      some (cs.flatMap fun c => utf8Bytes c.toNat) := by
  induction cs with
  | nil => rfl
  | cons c cs ih =>
    simp only [List.flatMap_cons]
    rw [percentDecode_encodeChar, ih]

theorem utf8Decode_utf8Bytes (n : Nat) (hn : n < 1114112) (rest : List Nat) :
    utf8Decode (utf8Bytes n ++ rest) = (utf8Decode rest).map (fun more => n :: more) := by
  unfold utf8Bytes utf8Decode
  split
  · rename_i h1
    simp only [List.singleton_append, utf8DecodeFrom, h1, if_true]
    rfl
  · split
    · rename_i h1 h2
      have ha : ¬ (192 + n / 64 < 128) := by omega
      have hb : 192 + n / 64 < 224 := by omega
      have hv : (192 + n / 64 - 192) * 64 + (128 + n % 64 - 128) = n := by omega
      simp only [List.cons_append, List.nil_append, utf8DecodeFrom, ha, hb, if_true, if_false, hv]
      rfl
    · split
      · rename_i h1 h2 h3
        have ha : ¬ (224 + n / 4096 < 128) := by omega
        have hb : ¬ (224 + n / 4096 < 224) := by omega
        have hc : 224 + n / 4096 < 240 := by omega
        have hv : ((224 + n / 4096 - 224) * 64 + (128 + n / 64 % 64 - 128)) * 64 +
            (128 + n % 64 - 128) = n := by omega
        simp only [List.cons_append, List.nil_append, utf8DecodeFrom, ha, hb, hc, if_true,
          if_false, hv, one_ne_zero]
        rfl
      · rename_i h1 h2 h3
        have ha : ¬ (240 + n / 262144 < 128) := by omega
        have hb : ¬ (240 + n / 262144 < 224) := by omega
        have hc : ¬ (240 + n / 262144 < 240) := by omega
        have hv : (((240 + n / 262144 - 240) * 64 + (128 + n / 4096 % 64 - 128)) * 64 +
            (128 + n / 64 % 64 - 128)) * 64 + (128 + n % 64 - 128) = n := by omega
        simp only [List.cons_append, List.nil_append, utf8DecodeFrom, ha, hb, hc, if_false, hv,
          one_ne_zero, OfNat.ofNat_ne_zero]
        rfl

theorem utf8Decode_encoded (cs : List Char) :
    utf8Decode (cs.flatMap fun c => utf8Bytes c.toNat) = some (cs.map Char.toNat) := by
  induction cs with
  | nil => rfl
  | cons c cs ih =>
    simp only [List.flatMap_cons, List.map_cons]
    rw [utf8Decode_utf8Bytes _ (char_toNat_lt c), ih]
    rfl

/-- Percent-decoding undoes `encodeURIComponent`. -/
theorem decodeURIComponent_encodeURIComponent (s : String) :
    decodeURIComponent (encodeURIComponent s) = some s := by
  simp only [decodeURIComponent, String.toList, encodeURIComponent_data, percentDecode_encoded,
    utf8Decode_encoded, List.map_map]
  have h : s.data.map (Char.ofNat ∘ Char.toNat) = s.data := by
    conv_rhs => rw [← List.map_id s.data]
    apply List.map_congr_left
    intro c _
    simp [Char.ofNat_toNat]
  rw [h]

/-- The output of `encodeURIComponent` contains neither `&` nor `=`. -/
theorem encodeURIComponent_no_separator (s : String) :
    ∀ ch ∈ (encodeURIComponent s).data, ch ≠ '&' ∧ ch ≠ '=' := by
  intro ch hch
  rw [encodeURIComponent_data, List.mem_flatMap] at hch
  obtain ⟨c, _, hc⟩ := hch
  unfold encodeChar at hc
  split at hc
  · rename_i h
    have hone : c.toString.data = [c] := rfl
    rw [hone, List.mem_singleton] at hc
    rw [hc]
    exact (uriUnreserved_ascii c h).2
  · rw [join_data, List.mem_flatMap] at hc
    obtain ⟨piece, hpiece, hin⟩ := hc
    rw [List.mem_map] at hpiece
    obtain ⟨b, hb, hbyte⟩ := hpiece
    have hlt := utf8Bytes_lt _ (char_toNat_lt c) b hb
    rw [← hbyte] at hin
    have hdata : (percentByte b).data = ['%', hexDigit (b / 16), hexDigit (b % 16)] := rfl
    rw [hdata] at hin
    simp only [List.mem_cons, List.mem_singleton, List.not_mem_nil, or_false] at hin
    rcases hin with h | h | h
    · rw [h]
      decide
    · rw [h]
      exact hexDigit_not_separator _ (by omega)
    · rw [h]
      exact hexDigit_not_separator _ (by omega)

theorem splitChars_none (sep : Char) (a : List Char) (ha : ∀ ch ∈ a, ch ≠ sep) :
    splitChars sep a = [a] := by
  induction a with
  | nil => rfl
  | cons c a ih =>
    have hc := ha c (List.mem_cons_self _ _)
    have ih1 := ih (fun x hx => ha x (List.mem_cons_of_mem _ hx))
    simp only [splitChars, hc, if_false, ih1]

theorem splitChars_append (sep : Char) (a b : List Char) (ha : ∀ ch ∈ a, ch ≠ sep) :
    splitChars sep (a ++ sep :: b) = a :: splitChars sep b := by
  induction a with
  | nil => simp [splitChars]
  | cons c a ih =>
    have hc := ha c (List.mem_cons_self _ _)
    have ih1 := ih (fun x hx => ha x (List.mem_cons_of_mem _ hx))
    rw [List.cons_append, splitChars]
    simp only [hc, if_false]
    rw [ih1]

/-- Splitting `k1=v1&k2=v2` when neither separator occurs inside the four pieces. -/
theorem parsePairs_two (k1 v1 k2 v2 : List Char) (a1 b1 a2 b2 : String)
    (hk1 : ∀ ch ∈ k1, ch ≠ '&' ∧ ch ≠ '=') (hv1 : ∀ ch ∈ v1, ch ≠ '&' ∧ ch ≠ '=')
    (hk2 : ∀ ch ∈ k2, ch ≠ '&' ∧ ch ≠ '=') (hv2 : ∀ ch ∈ v2, ch ≠ '&' ∧ ch ≠ '=')
    (ha1 : decodeURIComponent (String.mk k1) = some a1)
    (hb1 : decodeURIComponent (String.mk v1) = some b1)
    (ha2 : decodeURIComponent (String.mk k2) = some a2)
    (hb2 : decodeURIComponent (String.mk v2) = some b2) :
    parsePairs (splitChars '&' (k1 ++ '=' :: (v1 ++ '&' :: (k2 ++ '=' :: v2)))) =
      some [(a1, b1), (a2, b2)] := by
  have hfirst : ∀ ch ∈ k1 ++ '=' :: v1, ch ≠ '&' := by
    intro ch hch
    rcases List.mem_append.1 hch with h | h
    · exact (hk1 ch h).1
    · rcases List.mem_cons.1 h with h | h
      · rw [h]; decide
      · exact (hv1 ch h).1
  have hsecond : ∀ ch ∈ k2 ++ '=' :: v2, ch ≠ '&' := by
    intro ch hch
    rcases List.mem_append.1 hch with h | h
    · exact (hk2 ch h).1
    · rcases List.mem_cons.1 h with h | h
      · rw [h]; decide
      · exact (hv2 ch h).1
  have hassoc : k1 ++ '=' :: (v1 ++ '&' :: (k2 ++ '=' :: v2)) =
      (k1 ++ '=' :: v1) ++ '&' :: (k2 ++ '=' :: v2) := by
    simp only [List.append_assoc, List.cons_append]
  have hkv1 : splitChars '=' (k1 ++ '=' :: v1) = [k1, v1] := by
    rw [splitChars_append _ _ _ (fun ch h => (hk1 ch h).2),
      splitChars_none _ _ (fun ch h => (hv1 ch h).2)]
  have hkv2 : splitChars '=' (k2 ++ '=' :: v2) = [k2, v2] := by
    rw [splitChars_append _ _ _ (fun ch h => (hk2 ch h).2),
      splitChars_none _ _ (fun ch h => (hv2 ch h).2)]
  rw [hassoc, splitChars_append _ _ _ hfirst, splitChars_none _ _ hsecond]
  simp only [parsePairs, hkv1, hkv2, ha1, hb1, ha2, hb2]

/-- Counting a separator in `k1=v1&k2=v2` when it does not occur inside the pieces. -/
theorem count_two (ch : Char) (k1 v1 k2 v2 : List Char)
    (hk1 : ∀ x ∈ k1, x ≠ ch) (hv1 : ∀ x ∈ v1, x ≠ ch)
    (hk2 : ∀ x ∈ k2, x ≠ ch) (hv2 : ∀ x ∈ v2, x ≠ ch) :
    (k1 ++ '=' :: (v1 ++ '&' :: (k2 ++ '=' :: v2))).count ch =
      (if '=' = ch then 2 else 0) + (if '&' = ch then 1 else 0) := by
  have hzero : ∀ l : List Char, (∀ x ∈ l, x ≠ ch) → l.count ch = 0 := by
    intro l hl
    rw [List.count_eq_zero]
    intro hmem
    exact hl ch hmem rfl
  simp only [List.count_append, List.count_cons, hzero k1 hk1, hzero v1 hv1, hzero k2 hk2,
    hzero v2 hv2, beq_iff_eq]
  split <;> split <;> omega

theorem transformRequest_login_data (email password : String) :
    (transformRequest [("username", email), ("password", password)]).data =
      usernameKey ++ '=' :: ((encodeURIComponent email).data ++
        '&' :: (passwordKey ++ '=' :: (encodeURIComponent password).data)) := by
  have h1 : "username=".data = usernameKey ++ ['='] := by decide
  have h2 : "&password=".data = '&' :: (passwordKey ++ ['=']) := by decide
  rw [transformRequest_login, String.data_append, String.data_append, String.data_append, h1, h2]
  simp only [List.append_assoc, List.cons_append, List.nil_append, List.singleton_append]

theorem key_chars :
    (∀ ch ∈ usernameKey, ch ≠ '&' ∧ ch ≠ '=') ∧ (∀ ch ∈ passwordKey, ch ≠ '&' ∧ ch ≠ '=') ∧
    decodeURIComponent (String.mk usernameKey) = some "username" ∧
    decodeURIComponent (String.mk passwordKey) = some "password" := by
  refine ⟨by decide, by decide, ?_, ?_⟩
  · have h := decodeURIComponent_encodeURIComponent "username"
    have henc : encodeURIComponent "username" = String.mk usernameKey := by decide
    rw [henc] at h
    exact h
  · have h := decodeURIComponent_encodeURIComponent "password"
    have henc : encodeURIComponent "password" = String.mk passwordKey := by decide
    rw [henc] at h
    exact h

/-- Claim C27: for every email `e` and password `p` (whatever characters they contain)
the body that `login` submits contains exactly one `&` and exactly two `=`; splitting
it on `&` and `=` and percent-decoding each part returns exactly the pairs
(`username`, `e`) and (`password`, `p`) in that order; hence two credential pairs with
the same body are equal. -/
theorem login_body_injective (email password : String) :
    (loginRequest email password).data =
      Body.text (transformRequest [("username", email), ("password", password)]) ∧
    (transformRequest [("username", email), ("password", password)]).toList.count '&' = 1 ∧
    (transformRequest [("username", email), ("password", password)]).toList.count '=' = 2 ∧
    parseFormBody (transformRequest [("username", email), ("password", password)]) =
      some [("username", email), ("password", password)] ∧
    ∀ email1 password1 : String,
      transformRequest [("username", email1), ("password", password1)] =
        transformRequest [("username", email), ("password", password)] →
      email1 = email ∧ password1 = password := by
  obtain ⟨hu, hp, hdu, hdp⟩ := key_chars
  have hparse : ∀ e p : String,
      parseFormBody (transformRequest [("username", e), ("password", p)]) =
        some [("username", e), ("password", p)] := by
    intro e p
    rw [parseFormBody, String.toList, transformRequest_login_data]
    exact parsePairs_two _ _ _ _ _ _ _ _ hu (encodeURIComponent_no_separator e) hp
      (encodeURIComponent_no_separator p) hdu (decodeURIComponent_encodeURIComponent e) hdp
      (decodeURIComponent_encodeURIComponent p)
  refine ⟨rfl, ?_, ?_, hparse email password, ?_⟩
  · rw [String.toList, transformRequest_login_data,
      count_two '&' _ _ _ _ (fun x h => (hu x h).1)
        (fun x h => (encodeURIComponent_no_separator email x h).1) (fun x h => (hp x h).1)
        (fun x h => (encodeURIComponent_no_separator password x h).1)]
    decide
  · rw [String.toList, transformRequest_login_data,
      count_two '=' _ _ _ _ (fun x h => (hu x h).2)
        (fun x h => (encodeURIComponent_no_separator email x h).2) (fun x h => (hp x h).2)
        (fun x h => (encodeURIComponent_no_separator password x h).2)]
    decide
  · intro email1 password1 hbody
    have h1 := hparse email1 password1
    rw [hbody, hparse email password] at h1
    simp only [Option.some.injEq, List.cons.injEq, Prod.mk.injEq, true_and, and_true] at h1
    exact ⟨h1.1.symm, h1.2.symm⟩

/-- Credentials full of separators are read back exactly. -/
theorem login_body_injective_witness :
    parseFormBody (transformRequest [("username", "a&b=c@x.y"), ("password", "p=1&q %+")]) =
      some [("username", "a&b=c@x.y"), ("password", "p=1&q %+")] :=
  (login_body_injective "a&b=c@x.y" "p=1&q %+").2.2.2.1


end AuthContext

/-! ## The transactions page: filtering and totals -/

namespace Transactions

theorem or_of_not_and {p q : Prop} (h : ¬ (¬ p ∧ ¬ q)) : p ∨ q := by
  by_cases hp : p
  · exact Or.inl hp
  · exact Or.inr (Classical.byContradiction fun hq => h ⟨hp, hq⟩)

theorem or_not_of_not_and {p q : Prop} (h : ¬ (¬ p ∧ q)) : p ∨ ¬ q := by
  by_cases hp : p
  · exact Or.inl hp
  · exact Or.inr fun hq => h ⟨hp, hq⟩

theorem keep_iff {A : Type} (parseInt : String → Option Int) (filters : Filters)
    (t : Transaction A) : keep parseInt filters t = true ↔ Satisfies parseInt filters t := by
  have hb : ∀ b : Bool, ¬ b = true ↔ b = false := by intro b; cases b <;> simp
  have hsymm : parseInt filters.account_id = some t.account_id ↔
      some t.account_id = parseInt filters.account_id := ⟨Eq.symm, Eq.symm⟩
  unfold keep Satisfies
  rw [hsymm, ← hb (JS.lt t.date filters.date_from), ← hb (JS.lt filters.date_to t.date)]
  split_ifs with h1 h2 h3 h4 h5
  · constructor
    · intro h; cases h
    · intro h
      rcases h.1 with e | e
      · exact absurd e h1.1
      · exact absurd e h1.2
  · constructor
    · intro h; cases h
    · intro h
      rcases h.2.1 with e | e
      · exact absurd e h2.1
      · exact absurd e h2.2
  · constructor
    · intro h; cases h
    · intro h
      rcases h.2.2.1 with e | e
      · exact absurd e h3.1
      · exact absurd e h3.2
  · constructor
    · intro h; cases h
    · intro h
      rcases h.2.2.2.1 with e | e
      · exact absurd e h4.1
      · exact absurd h4.2 e
  · constructor
    · intro h; cases h
    · intro h
      rcases h.2.2.2.2 with e | e
      · exact absurd e h5.1
      · exact absurd h5.2 e
  · constructor
    · intro _
      exact ⟨or_of_not_and h1, or_of_not_and h2, or_of_not_and h3, or_not_of_not_and h4,
        or_not_of_not_and h5⟩
    · intro _; rfl

theorem keep_defaultFilters {A : Type} (parseInt : String → Option Int) (t : Transaction A) :
    keep parseInt defaultFilters t = true := by
  simp [keep, defaultFilters]

/-- C28. The constant `filteredTransactions` is the order-preserving sublist of `transactions`
made of exactly the entries that satisfy every active filter (type, account, category unless
they are "all"; the two inclusive date bounds unless they are empty, compared as strings): it
is the result of filtering by any test equivalent to that condition, it is a sublist, and its
members are the members of `transactions` that satisfy the condition. With the default (or
cleared) filters it is the whole list. -/
theorem filtered_exactly_satisfying {A : Type} (parseInt : String → Option Int)
    (filters : Filters) (transactions : List (Transaction A)) :
    (∀ p : Transaction A → Bool, (∀ t, p t = true ↔ Satisfies parseInt filters t) →
      filteredTransactions parseInt filters transactions = transactions.filter p) ∧
    (filteredTransactions parseInt filters transactions).Sublist transactions ∧
    (∀ t, t ∈ filteredTransactions parseInt filters transactions ↔
      t ∈ transactions ∧ Satisfies parseInt filters t) ∧
    filteredTransactions parseInt defaultFilters transactions = transactions := by
  refine ⟨?_, List.filter_sublist _, ?_, ?_⟩
  · intro p hp
    unfold filteredTransactions
    congr 1
    funext t
    have h1 := keep_iff parseInt filters t
    have h2 := hp t
    cases hk : keep parseInt filters t <;> cases hq : p t <;> simp_all
  · intro t
    unfold filteredTransactions
    rw [List.mem_filter, keep_iff]
  · unfold filteredTransactions
    rw [List.filter_eq_self]
    intro t _
    exact keep_defaultFilters parseInt t

/-- C28, examples on the mock data: filtering by account "2" keeps the fourth entry, the
inclusive date range from "2024-01-05" to "2024-01-10" keeps entries 2, 3 and 4 in their
order, and a non-numeric account filter keeps nothing. -/
theorem filtered_mock_examples :
    (filteredTransactions decimal { defaultFilters with account_id := "2" }
      mockTransactions).map (fun t => t.id) = [4] ∧
    (filteredTransactions decimal
      { defaultFilters with date_from := "2024-01-05", date_to := "2024-01-10" }
      mockTransactions).map (fun t => t.id) = [2, 3, 4] ∧
    (filteredTransactions (fun _ => none) { defaultFilters with account_id := "x" }
      mockTransactions).map (fun t => t.id) = [] := by
  refine ⟨by decide, by decide, by decide⟩

/-- C28, at a concrete input: over the mock data with `account_id` set to "2" the filtered
list is the list of the entries whose account is 2, namely the fourth, and with the default
filters it is the whole list. -/
theorem filtered_exactly_satisfying_witness :
    filteredTransactions decimal { defaultFilters with account_id := "2" } mockTransactions =
      mockTransactions.filter (fun t => t.account_id == 2) ∧
    (mockTransactions.filter (fun t => t.account_id == 2)).map (fun t => t.id) = [4] ∧
    filteredTransactions decimal defaultFilters mockTransactions = mockTransactions :=
  ⟨(filtered_exactly_satisfying decimal { defaultFilters with account_id := "2" }
      mockTransactions).1 (fun t => t.account_id == 2) (by
        intro t
        have hd : decimal "2" = some 2 := by decide
        constructor
        · intro h
          refine ⟨Or.inl rfl, Or.inr ?_, Or.inl rfl, Or.inl rfl, Or.inl rfl⟩
          show decimal "2" = some t.account_id
          rw [hd, eq_of_beq h]
        · intro h
          rcases h.2.1 with e | e
          · exact absurd e (by decide)
          · have e2 : decimal "2" = some t.account_id := e
            rw [hd] at e2
            show (t.account_id == 2) = true
            rw [← Option.some.inj e2]; rfl),
    by decide,
    (filtered_exactly_satisfying decimal defaultFilters mockTransactions).2.2.2⟩

theorem foldl_add_map {A : Type} [Add A] (l : List (Transaction A)) (z : A) :
    l.foldl (fun sum t => sum + t.amount) z =
      (l.map fun t => t.amount).foldl (fun x y => x + y) z := by
  rw [List.foldl_map]

theorem filter_insert_other {A : Type} (p : Transaction A → Bool) (l1 l2 : List (Transaction A))
    (t : Transaction A) (h : p t = false) :
    (l1 ++ t :: l2).filter p = (l1 ++ l2).filter p := by
  rw [List.filter_append, List.filter_append, List.filter_cons_of_neg (by simp [h])]

/-- With exact arithmetic the left-to-right total is the sum of the list of amounts. -/
theorem totalIncome_eq_sum {A : Type} [AddCommMonoid A] (l : List (Transaction A)) :
    totalIncome l = ((l.filter fun t => t.type == "income").map fun t => t.amount).sum ∧
    totalExpenses l = ((l.filter fun t => t.type == "expense").map fun t => t.amount).sum := by
  unfold totalIncome totalExpenses
  rw [foldl_add_map, foldl_add_map]
  constructor
  · rw [List.sum_eq_foldl]
  · rw [List.sum_eq_foldl]

/-- C29. For every filtered list, `totalIncome` is the sum (taken from 0, left to right) of
the amounts of the entries of type "income", `totalExpenses` that of the entries of type
"expense", and `netBalance` is their difference; an entry of any other type contributes to
none of the three, wherever it stands; both totals are 0 on the empty list; on the built-in
mock data the three values are 7500, 1550 and 5950. -/
theorem totals_by_type {A : Type} [Add A] [Sub A] [OfNat A 0] (l : List (Transaction A)) :
    totalIncome l =
      ((l.filter fun t => t.type = "income").map fun t => t.amount).foldl
        (fun x y => x + y) 0 ∧
    totalExpenses l =
      ((l.filter fun t => t.type = "expense").map fun t => t.amount).foldl
        (fun x y => x + y) 0 ∧
    netBalance l = totalIncome l - totalExpenses l ∧
    (∀ (l1 l2 : List (Transaction A)) (t : Transaction A),
      t.type ≠ "income" → t.type ≠ "expense" →
        totalIncome (l1 ++ t :: l2) = totalIncome (l1 ++ l2) ∧
        totalExpenses (l1 ++ t :: l2) = totalExpenses (l1 ++ l2) ∧
        netBalance (l1 ++ t :: l2) = netBalance (l1 ++ l2)) ∧
    totalIncome ([] : List (Transaction A)) = 0 ∧
    totalExpenses ([] : List (Transaction A)) = 0 ∧
    totalIncome mockTransactions = 7500 ∧ totalExpenses mockTransactions = 1550 ∧
    netBalance mockTransactions = 5950 := by
  have hi : ∀ (l1 l2 : List (Transaction A)) (t : Transaction A), t.type ≠ "income" →
      totalIncome (l1 ++ t :: l2) = totalIncome (l1 ++ l2) := by
    intro l1 l2 t h
    unfold totalIncome
    rw [filter_insert_other _ l1 l2 t (by simpa using h)]
  have he : ∀ (l1 l2 : List (Transaction A)) (t : Transaction A), t.type ≠ "expense" →
      totalExpenses (l1 ++ t :: l2) = totalExpenses (l1 ++ l2) := by
    intro l1 l2 t h
    unfold totalExpenses
    rw [filter_insert_other _ l1 l2 t (by simpa using h)]
  have hmi : totalIncome mockTransactions = 7500 := by
    simp [totalIncome, mockTransactions, List.filter]
    norm_num
  have hme : totalExpenses mockTransactions = 1550 := by
    simp [totalExpenses, mockTransactions, List.filter]
    norm_num
  refine ⟨?_, ?_, rfl, ?_, rfl, rfl, hmi, hme, ?_⟩
  · unfold totalIncome
    rw [foldl_add_map]
    rfl
  · unfold totalExpenses
    rw [foldl_add_map]
    rfl
  · intro l1 l2 t h1 h2
    refine ⟨hi l1 l2 t h1, he l1 l2 t h2, ?_⟩
    unfold netBalance
    rw [hi l1 l2 t h1, he l1 l2 t h2]
  · unfold netBalance
    rw [hmi, hme]
    norm_num

/-- C29, at a concrete input: the mock data is its first four entries followed by the
transfer, and the three totals with the transfer are those without it. -/
theorem totals_by_type_witness :
    totalIncome mockTransactions = totalIncome (mockTransactions.take 4) ∧
    totalExpenses mockTransactions = totalExpenses (mockTransactions.take 4) ∧
    netBalance mockTransactions = netBalance (mockTransactions.take 4) :=
  (totals_by_type mockTransactions).2.2.2.1 (mockTransactions.take 4) []
    (mockTransactions.get ⟨4, by decide⟩) (by decide) (by decide)

end Transactions
/-! ## The registration page: validation of the first step -/

namespace RegisterPage

theorem dotThen_iff (l : List Char) :
    dotThen l = true ↔ ∃ c rest, l = '.' :: c :: rest ∧ JS.isSpace c = false := by
  constructor
  · intro h
    match l, h with
    | d :: c :: rest, h =>
      simp only [dotThen, Bool.and_eq_true, beq_iff_eq, Bool.not_eq_true'] at h
      exact ⟨c, rest, by rw [h.1], h.2⟩
  · rintro ⟨c, rest, rfl, hc⟩
    simp [dotThen, hc]

theorem domainOk_iff (l : List Char) :
    domainOk l = true ↔
      ∃ b c rest, l = b ++ ('.' :: c :: rest) ∧ b ≠ [] ∧ (∀ x ∈ b, JS.isSpace x = false) ∧
        JS.isSpace c = false := by
  constructor
  · intro h
    induction l with
    | nil => simp [domainOk] at h
    | cons x rest ih =>
      simp only [domainOk, Bool.and_eq_true, Bool.not_eq_true', Bool.or_eq_true] at h
      obtain ⟨hx, hd | hd⟩ := h
      · obtain ⟨c, r, rfl, hc⟩ := (dotThen_iff rest).1 hd
        exact ⟨[x], c, r, rfl, by simp, by simpa using hx, hc⟩
      · obtain ⟨b, c, r, rfl, _, hb, hc⟩ := ih hd
        refine ⟨x :: b, c, r, rfl, by simp, ?_, hc⟩
        intro y hy
        rcases List.mem_cons.1 hy with e | e
        · rw [e]; exact hx
        · exact hb y e
  · rintro ⟨b, c, rest, rfl, hne, hb, hc⟩
    induction b with
    | nil => exact absurd rfl hne
    | cons x b ih =>
      have hx : JS.isSpace x = false := hb x (List.mem_cons_self _ _)
      rw [List.cons_append, domainOk, hx]
      cases b with
      | nil => simp [dotThen, hc]
      | cons y b =>
        rw [ih (by simp) (fun z hz => hb z (List.mem_cons_of_mem _ hz))]
        simp

theorem emailFrom_iff (l : List Char) :
    emailFrom l = true ↔
      ∃ before a rest, l = before ++ (a :: '@' :: rest) ∧ JS.isSpace a = false ∧
        domainOk rest = true := by
  constructor
  · intro h
    induction l with
    | nil => simp [emailFrom] at h
    | cons x l ih =>
      simp only [emailFrom, Bool.or_eq_true, Bool.and_eq_true, Bool.not_eq_true'] at h
      rcases h with ⟨hx, ha⟩ | h
      · cases l with
        | nil => simp [atThen] at ha
        | cons y rest =>
          simp only [atThen, Bool.and_eq_true, beq_iff_eq] at ha
          exact ⟨[], x, rest, by rw [ha.1]; rfl, hx, ha.2⟩
      · obtain ⟨before, a, rest, rfl, ha, hd⟩ := ih h
        exact ⟨x :: before, a, rest, rfl, ha, hd⟩
  · rintro ⟨before, a, rest, rfl, ha, hd⟩
    induction before with
    | nil => simp [emailFrom, atThen, ha, hd]
    | cons x before ih => rw [List.cons_append, emailFrom, ih]; simp

/-- The matcher decides the pattern: `test` answers true exactly on the strings of the shape
the pattern describes. -/
theorem emailPattern_iff (s : String) : emailPattern s = true ↔ EmailShape s := by
  unfold emailPattern EmailShape
  rw [emailFrom_iff]
  constructor
  · rintro ⟨before, a, rest, hs, ha, hd⟩
    obtain ⟨b, c, r, rfl, hne, hb, hc⟩ := (domainOk_iff rest).1 hd
    refine ⟨before, [a], b, [c], r, ?_, by simp, hne, by simp, ?_, hb, ?_⟩
    · rw [hs]; rfl
    · intro x hx; rw [List.mem_singleton.1 hx]; exact ha
    · intro x hx; rw [List.mem_singleton.1 hx]; exact hc
  · rintro ⟨before, a, b, c, after, hs, ha, hb, hc, hsa, hsb, hsc⟩
    obtain ⟨a1, x, rfl⟩ : ∃ a1 x, a = a1 ++ [x] :=
      ⟨a.dropLast, a.getLast ha, (List.dropLast_append_getLast ha).symm⟩
    cases c with
    | nil => exact absurd rfl hc
    | cons y c =>
      refine ⟨before ++ a1, x, b ++ ('.' :: y :: (c ++ after)), ?_, ?_, ?_⟩
      · rw [hs]; simp
      · exact hsa x (by simp)
      · exact (domainOk_iff _).2 ⟨b, y, c ++ after, rfl, hb, hsb, hsc y (by simp)⟩

theorem keys_empty (e : Errors) :
    (e.keys.length == 0) = true ↔
      e.full_name = none ∧ e.email = none ∧ e.password = none ∧ e.confirmPassword = none := by
  rcases e with ⟨a, b, c, d⟩
  cases a <;> cases b <;> cases c <;> cases d <;> simp [Errors.keys]

theorem length_empty : JS.length "" = 0 := rfl

theorem validateStep1_fields (formData : FormData) :
    (validateStep1 formData).1.full_name =
        (if formData.full_name = "" then some "Nome completo é obrigatório" else none) ∧
    (validateStep1 formData).1.email =
        (if formData.email = "" then some "Email é obrigatório"
         else if !emailPattern formData.email then some "Email inválido" else none) ∧
    (validateStep1 formData).1.password =
        (if formData.password = "" then some "Senha é obrigatória"
         else if JS.length formData.password < 6 then
           some "Senha deve ter pelo menos 6 caracteres"
         else none) ∧
    (validateStep1 formData).1.confirmPassword =
        (if formData.confirmPassword = "" then some "Confirmação de senha é obrigatória"
         else if formData.password ≠ formData.confirmPassword then some "Senhas não coincidem"
         else none) ∧
    (validateStep1 formData).2 = ((validateStep1 formData).1.keys.length == 0) :=
  ⟨rfl, rfl, rfl, rfl, rfl⟩

/-- C30. The function `validateStep1` returns true exactly when the full name is non-empty, the
email is non-empty and contains a match of the pattern (non-space characters, an at sign,
non-space characters, a dot, non-space characters), the password has at least 6 code units,
and the confirmation is non-empty and equal to the password. The errors object it sets holds
a message for exactly the fields that fail, the "required" message when the field is empty
and the other message of the field otherwise; and `handleNextStep` moves from step 1 to
step 2 exactly when the validation returns true. -/
theorem validateStep1_iff (formData : FormData) :
    ((validateStep1 formData).2 = true ↔
      formData.full_name ≠ "" ∧ formData.email ≠ "" ∧ EmailShape formData.email ∧
      6 ≤ JS.length formData.password ∧ formData.confirmPassword ≠ "" ∧
      formData.confirmPassword = formData.password) ∧
    ((validateStep1 formData).1.full_name.isSome = true ↔ formData.full_name = "") ∧
    ((validateStep1 formData).1.email.isSome = true ↔
      formData.email = "" ∨ ¬ EmailShape formData.email) ∧
    ((validateStep1 formData).1.password.isSome = true ↔ JS.length formData.password < 6) ∧
    ((validateStep1 formData).1.confirmPassword.isSome = true ↔
      formData.confirmPassword = "" ∨ formData.confirmPassword ≠ formData.password) ∧
    (formData.full_name = "" →
      (validateStep1 formData).1.full_name = some "Nome completo é obrigatório") ∧
    (formData.email = "" → (validateStep1 formData).1.email = some "Email é obrigatório") ∧
    (formData.email ≠ "" → ¬ EmailShape formData.email →
      (validateStep1 formData).1.email = some "Email inválido") ∧
    (formData.password = "" →
      (validateStep1 formData).1.password = some "Senha é obrigatória") ∧
    (formData.password ≠ "" → JS.length formData.password < 6 →
      (validateStep1 formData).1.password = some "Senha deve ter pelo menos 6 caracteres") ∧
    (formData.confirmPassword = "" →
      (validateStep1 formData).1.confirmPassword =
        some "Confirmação de senha é obrigatória") ∧
    (formData.confirmPassword ≠ "" → formData.confirmPassword ≠ formData.password →
      (validateStep1 formData).1.confirmPassword = some "Senhas não coincidem") ∧
    (handleNextStep formData 1 = 2 ↔ (validateStep1 formData).2 = true) := by
  obtain ⟨hf, he, hp, hc, hr⟩ := validateStep1_fields formData
  have hshape := emailPattern_iff formData.email
  have hF : (validateStep1 formData).1.full_name.isSome = true ↔ formData.full_name = "" := by
    rw [hf]; split_ifs with h <;> simp [h]
  have hE : (validateStep1 formData).1.email.isSome = true ↔
      formData.email = "" ∨ ¬ EmailShape formData.email := by
    rw [he, ← hshape]
    split_ifs with h1 h2
    · simp [h1]
    · simp only [Bool.not_eq_true'] at h2
      simp [h1, h2]
    · simp only [Bool.not_eq_true', Bool.not_eq_false] at h2
      simp [h1, h2]
  have hP : (validateStep1 formData).1.password.isSome = true ↔
      JS.length formData.password < 6 := by
    rw [hp]
    split_ifs with h1 h2
    · rw [h1, length_empty]; simp
    · simp [h2]
    · simp [h2]
  have hC : (validateStep1 formData).1.confirmPassword.isSome = true ↔
      formData.confirmPassword = "" ∨ formData.confirmPassword ≠ formData.password := by
    rw [hc]
    split_ifs with h1 h2
    · simp [h1]
    · simp only [Option.isSome_some, true_iff]
      exact Or.inr fun e => h2 e.symm
    · simp only [ne_eq, not_not] at h2
      simp [h1, h2]
  have hnone : ∀ o : Option String, o = none ↔ ¬ (o.isSome = true) := by
    intro o; cases o <;> simp
  refine ⟨?_, hF, hE, hP, hC, ?_, ?_, ?_, ?_, ?_, ?_, ?_, ?_⟩
  · rw [hr, keys_empty, hnone, hnone, hnone, hnone, hF, hE, hP, hC]
    constructor
    · rintro ⟨h1, h2, h3, h4⟩
      refine ⟨h1, fun e => h2 (Or.inl e), ?_, Nat.le_of_not_lt h3, fun e => h4 (Or.inl e), ?_⟩
      · exact Classical.byContradiction fun e => h2 (Or.inr e)
      · exact Classical.byContradiction fun e => h4 (Or.inr e)
    · rintro ⟨h1, h2, h3, h4, h5, h6⟩
      refine ⟨h1, ?_, Nat.not_lt.2 h4, ?_⟩
      · rintro (e | e)
        · exact h2 e
        · exact e h3
      · rintro (e | e)
        · exact h5 e
        · exact e h6
  · intro h; rw [hf, if_pos h]
  · intro h; rw [he, if_pos h]
  · intro h1 h2
    rw [he, if_neg h1, if_pos]
    rw [← hshape] at h2
    simpa using h2
  · intro h; rw [hp, if_pos h]
  · intro h1 h2; rw [hp, if_neg h1, if_pos h2]
  · intro h; rw [hc, if_pos h]
  · intro h1 h2
    rw [hc, if_neg h1, if_pos]
    exact fun e => h2 e.symm
  · unfold handleNextStep
    split_ifs with h
    · simp [h]
    · simp [h]

/-- C30, at concrete inputs: a well-formed form passes and moves to step 2; the empty form
fails with the four "required" messages; an email with spaces around a match passes, since
the pattern is not anchored. -/
theorem validateStep1_iff_witness :
    (validateStep1 goodForm).2 = true ∧ handleNextStep goodForm 1 = 2 ∧
    (validateStep1 emptyForm).1.full_name = some "Nome completo é obrigatório" ∧
    (validateStep1 emptyForm).1.email = some "Email é obrigatório" ∧
    (validateStep1 emptyForm).1.password = some "Senha é obrigatória" ∧
    (validateStep1 emptyForm).1.confirmPassword = some "Confirmação de senha é obrigatória" ∧
    (validateStep1 { goodForm with email := "x y@z.w !" }).1.email = none :=
  have hgood : (validateStep1 goodForm).2 = true :=
    (validateStep1_iff goodForm).1.2
      ⟨by decide, by decide,
        ⟨[], "ana".data, "x".data, "io".data, [], rfl, by decide, by decide, by decide,
          by decide, by decide, by decide⟩,
        by decide, by decide, rfl⟩
  ⟨hgood, (validateStep1_iff goodForm).2.2.2.2.2.2.2.2.2.2.2.2.2 hgood,
    (validateStep1_iff emptyForm).2.2.2.2.2.1 rfl,
    (validateStep1_iff emptyForm).2.2.2.2.2.2.1 rfl,
    (validateStep1_iff emptyForm).2.2.2.2.2.2.2.2.1 rfl,
    (validateStep1_iff emptyForm).2.2.2.2.2.2.2.2.2.2.1 rfl,
    by decide⟩

end RegisterPage
